import Mathlib

/-!
# Demo recorder (rts/System/LoadSave/DemoRecorder.cpp)

A shallow embedding of `CDemoRecorder`: the two process-wide memory streams
`demoStreams[2]`, the recorder object, and every method of the class, written as
explicit state passing.

Conventions of the embedding

* A byte is a `Fin 256`; a `std::string` / `unsigned char` buffer is a `List Byte`.
* A `std::stringstream` is its character sequence together with its put position,
  a natural number (a stream position has 64 bits). Where the source stores a
  position or a size in an `int` or an `unsigned int`, or computes in `int`, the
  value is narrowed to 32 bits (`wrapInt`, `% 2 ^ 32`): two's complement, as on
  the targets of the engine. The error state of a stream is not part of the
  model; the recorder never seeks beyond the end of its buffer.
* The record types `DemoFileHeader`, `DemoStreamChunkHeader`, `PlayerStatistics`
  and `TeamStatistics`, their `swab()` methods and `swabDWord` are declared in
  headers that are not part of the sources; they are the fields of `Layout`.
  The numeric header fields, whose widths those headers fix, are integers.
* The `int` parameters that index the statistics vectors keep their sign; their
  conversions to `size_t` and `unsigned` are explicit (`toSizeT`, `toUnsigned`).
* `WriteFileHeader` is the branch compiled without `_MSC_VER`.
* Functions of other subsystems (file system, clock, version string) are the
  fields of `Env`.
* An access outside a container, a null stream slot, a failed assertion and a
  thrown exception are results `Except.error` of type `Fault`. `InitializeStats`, the one method that can throw
  after it has changed a data member, returns the data members at the throw
  together with the fault.
-/

set_option linter.unusedVariables false

namespace DemoRecorder

abbrev Byte := Fin 256

/-- What stops a method: a null stream slot is dereferenced, an index is read
outside its container, an `assert` fails, `std::vector::resize` throws. -/
inductive Fault where
  | nullStream
  | outOfRange
  | assertion
  | lengthError
deriving DecidableEq, Repr

/-! ## std::stringstream -/

/-- A `std::stringstream` opened with `ios::binary | ios::out`: the character
sequence of its buffer and the put position. -/
structure StringStream where
  buf : List Byte
  pos : Nat
deriving DecidableEq, Repr

namespace StringStream

/-- `new std::stringstream(...)`: empty buffer, put position 0. -/
def fresh : StringStream := ⟨[], 0⟩

/-- `tellp()`. -/
def tellp (s : StringStream) : Nat := s.pos

/-- `seekp(p)`: moves the put position; a target beyond the end of the buffer is
refused and leaves the position where it was (the failbit that such a seek raises
is not modelled). -/
def seekp (s : StringStream) (p : Nat) : StringStream :=
  if p ≤ s.buf.length then { s with pos := p } else s

/-- `write(data, n)`: overwrites from the put position on and grows the buffer
when the data reaches past its end; the put position advances by `n`. -/
def write (s : StringStream) (data : List Byte) : StringStream :=
  { buf := s.buf.take s.pos ++ data ++ s.buf.drop (s.pos + data.length),
    pos := s.pos + data.length }

/-- `clear()` is `std::basic_ios::clear`: it resets the error state flags of the
stream. The character sequence and the put position are not touched. -/
def clear (s : StringStream) : StringStream := s

/-- `str()`: a copy of the character sequence. -/
def str (s : StringStream) : List Byte := s.buf

end StringStream

/-- The static array `demoStreams[2]` of owning pointers; `none` is `nullptr`.
Index `false` (0) is the client slot, index `true` (1) the server slot. -/
structure DemoStreams where
  client : Option StringStream
  server : Option StringStream
deriving DecidableEq, Repr

namespace DemoStreams

/-- `demoStreams[i].get()`. -/
def get (g : DemoStreams) (i : Bool) : Option StringStream :=
  if i then g.server else g.client

/-- Assignment to `demoStreams[i]`. -/
def set (g : DemoStreams) (i : Bool) (s : Option StringStream) : DemoStreams :=
  if i then { g with server := s } else { g with client := s }

/-- `*demoStreams[i]`: dereferencing a null slot is a fault. -/
def deref (g : DemoStreams) (i : Bool) : Except Fault StringStream :=
  match g.get i with
  | none => Except.error Fault.nullStream
  | some s => Except.ok s

end DemoStreams

/-! ## Records -/

/-- The fields of `DemoFileHeader` that the recorder reads or writes. The `char`
and byte arrays are byte lists, the numeric fields are integers. -/
structure DemoFileHeader where
  magic : List Byte
  version : Int
  headerSize : Int
  versionString : List Byte
  gameID : List Byte
  unixTime : Int
  scriptSize : Int
  demoStreamSize : Int
  gameTime : Int
  wallclockTime : Int
  numPlayers : Int
  playerStatSize : Int
  playerStatElemSize : Int
  numTeams : Int
  teamStatSize : Int
  teamStatElemSize : Int
  teamStatPeriod : Int
  winningAllyTeamsSize : Int
deriving DecidableEq, Repr

/-- The two fields of `DemoStreamChunkHeader`. `modGameTime` is the bit pattern
of the `float`: the recorder only stores it. -/
structure DemoStreamChunkHeader where
  modGameTime : Nat
  length : Nat
deriving DecidableEq, Repr

/-- Modelled from the spec: the record declarations of demofile.h,
PlayerStatistics.h, TeamStatistics.h and byteorder.h, which the recorder uses and
which are not part of the sources. For each record type: its `sizeof`, its
`swab()` (the in-place transform to the canonical byte order) and its object
representation (the bytes that `(char*) &x` reads). Every object representation
has exactly `sizeof` bytes, a chunk header has at least one byte, and a reader of
the canonical bytes recovers a chunk header whose fields fit their 32 bits and the
session identifier of a header. -/
structure Layout where
  PlayerStatistics : Type
  TeamStatistics : Type
  playerDefault : PlayerStatistics
  sizeofHeader : Nat
  sizeofChunkHeader : Nat
  sizeofPlayerStatistics : Nat
  sizeofTeamStatistics : Nat
  sizeofMagic : Nat
  sizeofVersionString : Nat
  sizeofGameID : Nat
  swabHeader : DemoFileHeader → DemoFileHeader
  swabChunk : DemoStreamChunkHeader → DemoStreamChunkHeader
  swabPlayer : PlayerStatistics → PlayerStatistics
  swabTeam : TeamStatistics → TeamStatistics
  swabDWord : Nat → Nat
  headerBytes : DemoFileHeader → List Byte
  chunkBytes : DemoStreamChunkHeader → List Byte
  playerBytes : PlayerStatistics → List Byte
  teamBytes : TeamStatistics → List Byte
  dwordBytes : Nat → List Byte
  readChunk : List Byte → DemoStreamChunkHeader
  readGameID : List Byte → List Byte
  headerBytes_length : ∀ h, (headerBytes h).length = sizeofHeader
  chunkBytes_length : ∀ c, (chunkBytes c).length = sizeofChunkHeader
  playerBytes_length : ∀ p, (playerBytes p).length = sizeofPlayerStatistics
  teamBytes_length : ∀ t, (teamBytes t).length = sizeofTeamStatistics
  dwordBytes_length : ∀ n, (dwordBytes n).length = 4
  sizeofChunkHeader_pos : 0 < sizeofChunkHeader
  readChunk_swab : ∀ c, c.modGameTime < 2 ^ 32 → c.length < 2 ^ 32 →
    readChunk (chunkBytes (swabChunk c)) = c
  readGameID_swab : ∀ h, h.gameID.length = sizeofGameID →
    readGameID (headerBytes (swabHeader h)) = h.gameID

/-- The functions and constants of other subsystems that the recorder calls. -/
structure Env where
  DEMOFILE_MAGIC : List Byte
  DEMOFILE_VERSION : Int
  syncVersion : String
  currentTime : Int
  currentTimeStr : String
  statsPeriod : Int
  createDirectory : String → Bool
  fileExists : String → Bool
  getBasename : String → String
  locateFile : String → String
  gzopen : String → Bool

/-- The data members of `CDemoRecorder`. `file` records whether `gzopen` returned
a handle. -/
structure CDemoRecorder (L : Layout) where
  isServerDemo : Bool
  demoName : String
  file : Bool
  fileHeader : DemoFileHeader
  playerStats : List L.PlayerStatistics
  teamStats : List (List L.TeamStatistics)
  winningAllyTeams : List Byte

/-- What `WriteDemoFile` hands to the detached writer thread: the `gzFile` and the
moved byte string. -/
structure WriterJob where
  file : Bool
  data : List Byte
deriving DecidableEq, Repr

/-! ## Integer conversions and library containers -/

/-- Conversion of an `int` to `size_t` (64 bits), as in a comparison with
`size()`, an argument of `resize` or an index of `operator[]`. -/
def toSizeT (i : Int) : Nat := (i % 2 ^ 64).toNat

/-- The cast `(unsigned) i` (32 bits). -/
def toUnsigned (i : Int) : Nat := (i % 2 ^ 32).toNat

/-- Conversion to `int` (32 bits, two's complement): a `size_t`, an `unsigned` or
a stream position stored in an `int`, and the result of `int` arithmetic. The
value is the one in the range of `int` that is congruent modulo 2^32. -/
def wrapInt (x : Int) : Int :=
  let m := x % 2 ^ 32
  if 2 ^ 31 ≤ m then m - 2 ^ 32 else m

/-- An upper bound of `std::vector::max_size()` on a 64-bit target
(`PTRDIFF_MAX`). -/
def vectorMaxSize : Nat := 2 ^ 63 - 1

/-- `std::vector::resize(n)`: throws `std::length_error` above `max_size()`,
otherwise truncates to `n` elements or appends value-initialised elements up to
`n`. -/
def vectorResize {α : Type} (v : List α) (n : Nat) (d : α) : Except Fault (List α) :=
  if vectorMaxSize < n then Except.error Fault.lengthError
  else Except.ok (v.take n ++ List.replicate (n - v.length) d)

/-- The UTF-8 bytes of one character. -/
def utf8Bytes (c : Char) : List Byte :=
  let n := c.toNat
  if n < 0x80 then [Fin.ofNat n]
  else if n < 0x800 then [Fin.ofNat (0xC0 + n / 64), Fin.ofNat (0x80 + n % 64)]
  else if n < 0x10000 then
    [Fin.ofNat (0xE0 + n / 4096), Fin.ofNat (0x80 + n / 64 % 64), Fin.ofNat (0x80 + n % 64)]
  else
    [Fin.ofNat (0xF0 + n / 262144), Fin.ofNat (0x80 + n / 4096 % 64),
      Fin.ofNat (0x80 + n / 64 % 64), Fin.ofNat (0x80 + n % 64)]

/-- The bytes of a C string (without the terminating NUL): a `std::string` holds
the UTF-8 bytes of its text. -/
def cstr (s : String) : List Byte := (s.toList.map utf8Bytes).flatten

/-- `strcpy(dst, src)` on a `char` array `dst`: the characters of `src` and the
terminating NUL replace the front of `dst`. -/
def strcpy (dst src : List Byte) : List Byte :=
  src ++ [0] ++ dst.drop (src.length + 1)

/-- `STRNCPY(dst, src, n)`: at most `n` characters of `src`, padded with NUL up to
`n`, replace the front of `dst`. -/
def strncpy (dst src : List Byte) (n : Nat) : List Byte :=
  src.take n ++ List.replicate (n - src.length) 0 ++ dst.drop n

/-- `memset(&fileHeader, 0, sizeof(DemoFileHeader))`. -/
def DemoFileHeader.zero (L : Layout) : DemoFileHeader :=
  { magic := List.replicate L.sizeofMagic 0
    version := 0
    headerSize := 0
    versionString := List.replicate L.sizeofVersionString 0
    gameID := List.replicate L.sizeofGameID 0
    unixTime := 0
    scriptSize := 0
    demoStreamSize := 0
    gameTime := 0
    wallclockTime := 0
    numPlayers := 0
    playerStatSize := 0
    playerStatElemSize := 0
    numTeams := 0
    teamStatSize := 0
    teamStatElemSize := 0
    teamStatPeriod := 0
    winningAllyTeamsSize := 0 }

/-! ## The methods of CDemoRecorder -/

namespace CDemoRecorder

variable {L : Layout}

/-- `CDemoRecorder::SetStream` (lines 44-51). -/
def SetStream (g : DemoStreams) (r : CDemoRecorder L) : Except Fault DemoStreams := do
  let g := if g.get r.isServerDemo = none
    then g.set r.isServerDemo (some StringStream.fresh) else g
  let s ← g.deref r.isServerDemo
  let s := s.clear
  let s := s.seekp 0
  pure (g.set r.isServerDemo (some s))

/-- The `while` loop of `SetName` (lines 137-141): `n` is the counter, `buf` the
current candidate, `oss` the name without suffix. The loop body runs at most 99
times, so 99 units of fuel are never used up before the loop condition fails. -/
def SetName.loop (E : Env) (oss : String) : Nat → Nat → String → String
  | 0, _, buf => buf
  | fuel + 1, n, buf =>
    if E.fileExists buf && decide (n < 99) then
      SetName.loop E oss fuel (n + 1) (oss ++ "_" ++ toString n ++ ".sdfz")
    else buf

/-- `CDemoRecorder::SetName` (lines 115-144). -/
def SetName (E : Env) (r : CDemoRecorder L) (mapName modName : String) : CDemoRecorder L :=
  let curTime := E.currentTimeStr
  let demoDir := if r.isServerDemo then "demos-server/" else "demos/"
  if !E.createDirectory demoDir then r
  else
    let oss := demoDir ++ curTime ++ "_" ++ E.getBasename mapName ++ "_" ++ E.syncVersion
    let buf := oss ++ ".sdfz"
    let buf := SetName.loop E oss 99 0 buf
    { r with demoName := E.locateFile buf }

/-- `CDemoRecorder::WriteFileHeader` (lines 207-234); the result carries the
returned position. `pos` is an `unsigned int`. -/
def WriteFileHeader (g : DemoStreams) (r : CDemoRecorder L) (updateStreamLength : Bool) :
    Except Fault (DemoStreams × Nat) := do
  let s ← g.deref r.isServerDemo
  let pos := s.tellp % 2 ^ 32
  let tmpHeader := r.fileHeader
  let tmpHeader := if !updateStreamLength then { tmpHeader with demoStreamSize := 0 } else tmpHeader
  let tmpHeader := L.swabHeader tmpHeader
  let s := s.seekp 0
  let s := s.write (L.headerBytes tmpHeader)
  let s := s.seekp pos
  pure (g.set r.isServerDemo (some s), pos)

/-- The value of `fileHeader` after the assignments of `SetFileHeader`
(lines 55-64). -/
def SetFileHeader.header (L : Layout) (E : Env) : DemoFileHeader :=
  let h := DemoFileHeader.zero L
  let h := { h with magic := strcpy h.magic E.DEMOFILE_MAGIC }
  let h := { h with version := E.DEMOFILE_VERSION }
  let h := { h with headerSize := L.sizeofHeader }
  let versionString := strncpy h.versionString (cstr E.syncVersion) (L.sizeofVersionString - 1)
  let h := { h with versionString := versionString }
  let h := { h with unixTime := E.currentTime }
  let h := { h with playerStatElemSize := L.sizeofPlayerStatistics }
  let h := { h with teamStatElemSize := L.sizeofTeamStatistics }
  let h := { h with teamStatPeriod := E.statsPeriod }
  let h := { h with winningAllyTeamsSize := 0 }
  h

/-- `CDemoRecorder::SetFileHeader` (lines 53-67). -/
def SetFileHeader (E : Env) (g : DemoStreams) (r : CDemoRecorder L) :
    Except Fault (DemoStreams × CDemoRecorder L) := do
  let r := { r with fileHeader := SetFileHeader.header L E }
  let (g, pos) ← WriteFileHeader g r false
  let s ← g.deref r.isServerDemo
  let s := s.seekp (pos + L.sizeofHeader)
  pure (g.set r.isServerDemo (some s), r)

/-- The data members when the constructor body starts: `isServerDemo` from the
initialiser list, empty string and vectors. -/
def ctor.members (L : Layout) (serverDemo : Bool) : CDemoRecorder L :=
  { isServerDemo := serverDemo
    demoName := ""
    file := false
    fileHeader := DemoFileHeader.zero L
    playerStats := []
    teamStats := []
    winningAllyTeams := [] }

/-- The constructor `CDemoRecorder::CDemoRecorder` (lines 25-32). -/
def ctor (L : Layout) (E : Env) (g : DemoStreams) (mapName modName : String)
    (serverDemo : Bool) : Except Fault (DemoStreams × CDemoRecorder L) := do
  let r := ctor.members L serverDemo
  let g ← SetStream g r
  let r := SetName E r mapName modName
  let (g, r) ← SetFileHeader E g r
  pure (g, { r with file := E.gzopen r.demoName })

/-- `CDemoRecorder::WriteDemoFile` (lines 69-90): `str()` returns a copy of the
character sequence, which is moved into the job of the writer thread. -/
def WriteDemoFile (g : DemoStreams) (r : CDemoRecorder L) :
    Except Fault (DemoStreams × WriterJob) := do
  let s ← g.deref r.isServerDemo
  let data := s.str
  pure (g, { file := r.file, data := data })

/-- The trailing-NUL loop of `WriteSetupText` (lines 94-97), as a function of the
current value of `length`. At `length == 0` the loop condition reads
`text[length - 1]`, an index outside the string. -/
def WriteSetupText.trim (text : List Byte) : Nat → Except Fault Nat
  | 0 => Except.error Fault.outOfRange
  | n + 1 => if text.getD n 0 = 0 then WriteSetupText.trim text n else Except.ok (n + 1)

/-- `CDemoRecorder::WriteSetupText` (lines 92-101). `length` is an `int`: a
negative value makes the loop condition read `text[length - 1]` outside the
string. -/
def WriteSetupText (g : DemoStreams) (r : CDemoRecorder L) (text : List Byte) :
    Except Fault (DemoStreams × CDemoRecorder L) := do
  let length : Int := wrapInt text.length
  if length < 0 then Except.error Fault.outOfRange else
  let length ← WriteSetupText.trim text length.toNat
  let r := { r with fileHeader := { r.fileHeader with scriptSize := length } }
  let s ← g.deref r.isServerDemo
  let s := s.write (text.take length)
  pure (g.set r.isServerDemo (some s), r)

/-- `CDemoRecorder::SaveToDemo` (lines 103-113). `buf` is the memory the pointer
refers to; reading `length` bytes from a shorter buffer is a fault. The sum is
stored in the `int` field `demoStreamSize`. -/
def SaveToDemo (g : DemoStreams) (r : CDemoRecorder L) (buf : List Byte) (length : Nat)
    (modGameTime : Nat) : Except Fault (DemoStreams × CDemoRecorder L) := do
  let chunkHeader : DemoStreamChunkHeader := { modGameTime := modGameTime, length := length }
  let chunkHeader := L.swabChunk chunkHeader
  let s ← g.deref r.isServerDemo
  let s := s.write (L.chunkBytes chunkHeader)
  if buf.length < length then Except.error Fault.outOfRange else
  let s := s.write (buf.take length)
  let r := { r with fileHeader := { r.fileHeader with
    demoStreamSize :=
      wrapInt (r.fileHeader.demoStreamSize + (length + L.sizeofChunkHeader : Nat)) } }
  pure (g.set r.isServerDemo (some s), r)

/-- `CDemoRecorder::SetGameID` (lines 146-150): `memcpy` reads
`sizeof(fileHeader.gameID)` bytes from `buf`. -/
def SetGameID (g : DemoStreams) (r : CDemoRecorder L) (buf : List Byte) :
    Except Fault (DemoStreams × CDemoRecorder L) := do
  if buf.length < L.sizeofGameID then Except.error Fault.outOfRange else
  let r := { r with fileHeader := { r.fileHeader with gameID := buf.take L.sizeofGameID } }
  let (g, _) ← WriteFileHeader g r false
  pure (g, r)

/-- `CDemoRecorder::SetTime` (lines 152-156). -/
def SetTime (r : CDemoRecorder L) (gameTime wallclockTime : Int) : CDemoRecorder L :=
  { r with fileHeader := { r.fileHeader with gameTime := gameTime, wallclockTime := wallclockTime } }

/-- `CDemoRecorder::InitializeStats` (lines 158-164). When a `resize` throws, the
error carries the data members as the throw leaves them: unchanged at the first
`resize`, with `playerStats` resized and `numTeams` assigned at the second. -/
def InitializeStats (r : CDemoRecorder L) (numPlayers numTeams : Int) :
    Except (Fault × CDemoRecorder L) (CDemoRecorder L) :=
  match vectorResize r.playerStats (toSizeT numPlayers) L.playerDefault with
  | Except.error e => Except.error (e, r)
  | Except.ok ps =>
    let r := { r with playerStats := ps }
    let r := { r with fileHeader := { r.fileHeader with numTeams := numTeams } }
    match vectorResize r.teamStats (toSizeT numTeams) [] with
    | Except.error e => Except.error (e, r)
    | Except.ok ts => Except.ok { r with teamStats := ts }

/-- `CDemoRecorder::AddNewPlayer` (lines 167-172): the comparison converts
`playerNum` to `size_t`; `playerNum + 1` is computed in `int`. -/
def AddNewPlayer (r : CDemoRecorder L) (name : String) (playerNum : Int) :
    Except Fault (CDemoRecorder L) := do
  if toSizeT playerNum ≥ r.playerStats.length then
    let ps ← vectorResize r.playerStats (toSizeT (wrapInt (playerNum + 1))) L.playerDefault
    pure { r with playerStats := ps }
  else pure r

/-- `CDemoRecorder::SetPlayerStats` (lines 176-182); `playerNum + 1` is computed
in `int`. -/
def SetPlayerStats (r : CDemoRecorder L) (playerNum : Int) (stats : L.PlayerStatistics) :
    Except Fault (CDemoRecorder L) := do
  let r ← if toSizeT playerNum ≥ r.playerStats.length then do
      let ps ← vectorResize r.playerStats (toSizeT (wrapInt (playerNum + 1))) L.playerDefault
      pure { r with playerStats := ps }
    else pure r
  if toSizeT playerNum < r.playerStats.length then
    pure { r with playerStats := r.playerStats.set (toSizeT playerNum) stats }
  else Except.error Fault.outOfRange

/-- `CDemoRecorder::SetTeamStats` (lines 185-194). The `assert` stops a build with
assertions; a build without them (`NDEBUG`) goes on to `teamStats[teamNum]`, an
index outside the vector whenever the asserted condition is false. -/
def SetTeamStats (r : CDemoRecorder L) (teamNum : Int) (stats : List L.TeamStatistics) :
    Except Fault (CDemoRecorder L) := do
  if ¬ (toUnsigned teamNum < r.teamStats.length) then Except.error Fault.assertion else
  if ¬ (toSizeT teamNum < r.teamStats.length) then Except.error Fault.outOfRange else
  let history : List L.TeamStatistics := []
  let history := stats.foldl (fun h x => h ++ [x]) history
  pure { r with teamStats := r.teamStats.set (toSizeT teamNum) history }

/-- `CDemoRecorder::SetWinningAllyTeams` (lines 198-202); the `size_t` product is
stored in an `int` field. -/
def SetWinningAllyTeams (r : CDemoRecorder L) (winningAllyTeamIDs : List Byte) :
    CDemoRecorder L :=
  let r := { r with fileHeader := { r.fileHeader with
    winningAllyTeamsSize := wrapInt (winningAllyTeamIDs.length * 1 : Nat) } }
  { r with winningAllyTeams := winningAllyTeamIDs }

/-- `CDemoRecorder::WritePlayerStats` (lines 237-250); `pos`, the cast of
`tellp()` and their difference are `int`, `numPlayers` is an `int` field. -/
def WritePlayerStats (g : DemoStreams) (r : CDemoRecorder L) :
    Except Fault (DemoStreams × CDemoRecorder L) := do
  let s ← g.deref r.isServerDemo
  let pos : Int := wrapInt s.tellp
  let s := r.playerStats.foldl
    (fun s stats => s.write (L.playerBytes (L.swabPlayer stats))) s
  let r := { r with fileHeader := { r.fileHeader with
    numPlayers := wrapInt r.playerStats.length } }
  let r := { r with fileHeader := { r.fileHeader with
    playerStatSize := wrapInt (wrapInt s.tellp - pos) } }
  pure (g.set r.isServerDemo (some s), { r with playerStats := [] })

/-- `CDemoRecorder::WriteWinnerList` (lines 255-270); `pos`, the cast of `tellp()`
and their difference are `int`. -/
def WriteWinnerList (g : DemoStreams) (r : CDemoRecorder L) :
    Except Fault (DemoStreams × CDemoRecorder L) := do
  if r.fileHeader.numTeams = 0 then pure (g, r) else
  let s ← g.deref r.isServerDemo
  let pos : Int := wrapInt s.tellp
  let s := r.winningAllyTeams.foldl (fun s b => s.write [b]) s
  let r := { r with winningAllyTeams := [] }
  let r := { r with fileHeader := { r.fileHeader with
    winningAllyTeamsSize := wrapInt (wrapInt s.tellp - pos) } }
  pure (g.set r.isServerDemo (some s), r)

/-- `CDemoRecorder::WriteTeamStats` (lines 273-294); `pos`, the cast of `tellp()`
and their difference are `int`, the count `c` is an `unsigned int`. -/
def WriteTeamStats (g : DemoStreams) (r : CDemoRecorder L) :
    Except Fault (DemoStreams × CDemoRecorder L) := do
  let s ← g.deref r.isServerDemo
  let pos : Int := wrapInt s.tellp
  let s := r.teamStats.foldl
    (fun s history => s.write (L.dwordBytes (L.swabDWord (history.length % 2 ^ 32)))) s
  let s := r.teamStats.foldl
    (fun s history => history.foldl
      (fun s stats => s.write (L.teamBytes (L.swabTeam stats))) s) s
  let r := { r with fileHeader := { r.fileHeader with
    teamStatSize := wrapInt (wrapInt s.tellp - pos) } }
  pure (g.set r.isServerDemo (some s), { r with teamStats := [] })

/-- The destructor `CDemoRecorder::~CDemoRecorder` (lines 34-42); the result
carries the job handed to the writer thread. -/
def dtor (g : DemoStreams) (r : CDemoRecorder L) :
    Except Fault (DemoStreams × CDemoRecorder L × WriterJob) := do
  let (g, r) ← WriteWinnerList g r
  let (g, r) ← WritePlayerStats g r
  let (g, r) ← WriteTeamStats g r
  let (g, _) ← WriteFileHeader g r true
  let (g, job) ← WriteDemoFile g r
  pure (g, r, job)

end CDemoRecorder

/-! ## Call sequences and the reader of the command stream -/

/-- The character sequence a stream slot holds before a recorder is constructed
(nothing for a null slot). -/
def DemoStreams.content (g : DemoStreams) (i : Bool) : List Byte :=
  match g.get i with
  | none => []
  | some s => s.buf

/-- A sequence of `SaveToDemo` calls: one call per batch `(modGameTime, payload)`,
in list order, each with `length` equal to the payload length. -/
def saveAll {L : Layout} (g : DemoStreams) (r : CDemoRecorder L) :
    List (Nat × List Byte) → Except Fault (DemoStreams × CDemoRecorder L)
  | [] => pure (g, r)
  | b :: rest => do
    let (g, r) ← CDemoRecorder.SaveToDemo g r b.2 b.2.length b.1
    saveAll g r rest

/-- The bytes of one chunk: the byte-swapped
`DemoStreamChunkHeader{modGameTime, length}` followed by the payload. -/
def chunkImage (L : Layout) (b : Nat × List Byte) : List Byte :=
  L.chunkBytes (L.swabChunk { modGameTime := b.1, length := b.2.length }) ++ b.2

/-- The command-stream region of a sequence of batches. -/
def chunkRegion (L : Layout) (batches : List (Nat × List Byte)) : List Byte :=
  (batches.map (chunkImage L)).flatten

/-- A reader of the command-stream region: as long as bytes remain, read a chunk
header, then as many payload bytes as its `length` field says. -/
def parseChunks (L : Layout) : Nat → List Byte → List (Nat × List Byte)
  | 0, _ => []
  | fuel + 1, bytes =>
    if bytes = [] then []
    else
      let c := L.readChunk (bytes.take L.sizeofChunkHeader)
      let rest := bytes.drop L.sizeofChunkHeader
      (c.modGameTime, rest.take c.length) :: parseChunks L fuel (rest.drop c.length)

/-- The reader run on a whole region; one unit of fuel per byte is enough, since
every chunk has at least one byte. -/
def parseRegion (L : Layout) (bytes : List Byte) : List (Nat × List Byte) :=
  parseChunks L bytes.length bytes

/-- The player-stats section of a list of records: their byte-swapped object
representations in order. -/
def playerSection (L : Layout) (ps : List L.PlayerStatistics) : List Byte :=
  (ps.map (fun p => L.playerBytes (L.swabPlayer p))).flatten

/-- The count array of the team-stats section: one byte-swapped 32-bit count per
team history, in team order. -/
def teamCounts (L : Layout) (ts : List (List L.TeamStatistics)) : List Byte :=
  (ts.map (fun history => L.dwordBytes (L.swabDWord (history.length % 2 ^ 32)))).flatten

/-- The record array of the team-stats section: the byte-swapped records of team
0, team 1, ... in team order, in history order within a team. -/
def teamRecords (L : Layout) (ts : List (List L.TeamStatistics)) : List Byte :=
  (ts.map (fun history => (history.map (fun t => L.teamBytes (L.swabTeam t))).flatten)).flatten

/-- The bytes that `WriteWinnerList` writes: nothing when `numTeams == 0` (the
early return), the stored winner ids otherwise. -/
def winnerSection {L : Layout} (r : CDemoRecorder L) : List Byte :=
  if r.fileHeader.numTeams = 0 then [] else r.winningAllyTeams

/-- The bytes that the three passes of the destructor write at the cursor, in
order: winner list, player statistics, team statistics. -/
def statsSections {L : Layout} (r : CDemoRecorder L) : List Byte :=
  winnerSection r ++ (playerSection L r.playerStats
    ++ (teamCounts L r.teamStats ++ teamRecords L r.teamStats))

/-- The data members after the three passes of the destructor; the sizes are
stored in `int` fields. -/
def afterPasses {L : Layout} (r : CDemoRecorder L) : CDemoRecorder L :=
  { r with
    winningAllyTeams := if r.fileHeader.numTeams = 0 then r.winningAllyTeams else []
    playerStats := []
    teamStats := []
    fileHeader := { r.fileHeader with
      winningAllyTeamsSize :=
        if r.fileHeader.numTeams = 0 then r.fileHeader.winningAllyTeamsSize
        else wrapInt r.winningAllyTeams.length
      numPlayers := wrapInt r.playerStats.length
      playerStatSize := wrapInt (playerSection L r.playerStats).length
      teamStatSize := wrapInt
        (teamCounts L r.teamStats ++ teamRecords L r.teamStats).length } }

/-- A sequence of `SetGameID` calls, one per identifier, in list order. -/
def setGameIDs {L : Layout} (g : DemoStreams) (r : CDemoRecorder L) :
    List (List Byte) → Except Fault (DemoStreams × CDemoRecorder L)
  | [] => pure (g, r)
  | gid :: rest => do
    let (g, r) ← CDemoRecorder.SetGameID g r gid
    setGameIDs g r rest

/-- The states of one recorder that a program can reach: the constructor, then
any sequence of calls of the public methods that return. The last index is the
list of batches `(modGameTime, payload)` recorded by `SaveToDemo` so far. The
argument `numTeams` of `InitializeStats`, which the method stores in the header,
is an `int`. -/
inductive Reachable (L : Layout) (E : Env) :
    DemoStreams → CDemoRecorder L → List (Nat × List Byte) → Prop
  | ctor (g0 : DemoStreams) (mapName modName : String) (serverDemo : Bool)
      (g : DemoStreams) (r : CDemoRecorder L) :
      CDemoRecorder.ctor L E g0 mapName modName serverDemo = Except.ok (g, r) →
      Reachable L E g r []
  | writeSetupText (g : DemoStreams) (r : CDemoRecorder L) (saved : List (Nat × List Byte))
      (text : List Byte) (g1 : DemoStreams) (r1 : CDemoRecorder L) :
      Reachable L E g r saved →
      CDemoRecorder.WriteSetupText g r text = Except.ok (g1, r1) →
      Reachable L E g1 r1 saved
  | saveToDemo (g : DemoStreams) (r : CDemoRecorder L) (saved : List (Nat × List Byte))
      (buf : List Byte) (length modGameTime : Nat) (g1 : DemoStreams) (r1 : CDemoRecorder L) :
      Reachable L E g r saved →
      CDemoRecorder.SaveToDemo g r buf length modGameTime = Except.ok (g1, r1) →
      Reachable L E g1 r1 (saved ++ [(modGameTime, buf.take length)])
  | setGameID (g : DemoStreams) (r : CDemoRecorder L) (saved : List (Nat × List Byte))
      (buf : List Byte) (g1 : DemoStreams) (r1 : CDemoRecorder L) :
      Reachable L E g r saved →
      CDemoRecorder.SetGameID g r buf = Except.ok (g1, r1) →
      Reachable L E g1 r1 saved
  | setTime (g : DemoStreams) (r : CDemoRecorder L) (saved : List (Nat × List Byte))
      (gameTime wallclockTime : Int) :
      Reachable L E g r saved →
      Reachable L E g (CDemoRecorder.SetTime r gameTime wallclockTime) saved
  | initializeStats (g : DemoStreams) (r : CDemoRecorder L) (saved : List (Nat × List Byte))
      (numPlayers numTeams : Int) (r1 : CDemoRecorder L) :
      Reachable L E g r saved →
      -2 ^ 31 ≤ numTeams → numTeams < 2 ^ 31 →
      CDemoRecorder.InitializeStats r numPlayers numTeams = Except.ok r1 →
      Reachable L E g r1 saved
  | addNewPlayer (g : DemoStreams) (r : CDemoRecorder L) (saved : List (Nat × List Byte))
      (name : String) (playerNum : Int) (r1 : CDemoRecorder L) :
      Reachable L E g r saved →
      CDemoRecorder.AddNewPlayer r name playerNum = Except.ok r1 →
      Reachable L E g r1 saved
  | setPlayerStats (g : DemoStreams) (r : CDemoRecorder L) (saved : List (Nat × List Byte))
      (playerNum : Int) (stats : L.PlayerStatistics) (r1 : CDemoRecorder L) :
      Reachable L E g r saved →
      CDemoRecorder.SetPlayerStats r playerNum stats = Except.ok r1 →
      Reachable L E g r1 saved
  | setTeamStats (g : DemoStreams) (r : CDemoRecorder L) (saved : List (Nat × List Byte))
      (teamNum : Int) (stats : List L.TeamStatistics) (r1 : CDemoRecorder L) :
      Reachable L E g r saved →
      CDemoRecorder.SetTeamStats r teamNum stats = Except.ok r1 →
      Reachable L E g r1 saved
  | setWinningAllyTeams (g : DemoStreams) (r : CDemoRecorder L)
      (saved : List (Nat × List Byte)) (winningAllyTeamIDs : List Byte) :
      Reachable L E g r saved →
      Reachable L E g (CDemoRecorder.SetWinningAllyTeams r winningAllyTeamIDs) saved

/-! ## The candidate names of SetName -/

/-- The name without suffix and extension that `SetName` builds in `oss`:
directory of the kind, time, map basename and engine version. -/
def SetName.stem (E : Env) (isServerDemo : Bool) (mapName : String) : String :=
  (if isServerDemo then "demos-server/" else "demos/") ++ E.currentTimeStr ++ "_"
    ++ E.getBasename mapName ++ "_" ++ E.syncVersion

/-- The candidates in the order in which `SetName` tries them: candidate 0 has no
suffix, candidate k+1 has the suffix `_k`. -/
def SetName.candidate (oss : String) : Nat → String
  | 0 => oss ++ ".sdfz"
  | k + 1 => oss ++ "_" ++ toString k ++ ".sdfz"

/-- The `while` loop of `SetName` (lines 137-141) with its condition as written
and a count of the `FileExists` calls: every evaluation of the loop condition
calls `FileExists` once (it is the left operand of `&&`). The result is `none`
when the fuel runs out before the condition fails. -/
def SetName.loopChecks (E : Env) (oss : String) :
    Nat → Nat → String → Nat → Option (String × Nat)
  | 0, _, _, _ => none
  | fuel + 1, n, buf, checks =>
    if E.fileExists buf && decide (n < 99) then
      SetName.loopChecks E oss fuel (n + 1) (oss ++ "_" ++ toString n ++ ".sdfz") (checks + 1)
    else some (buf, checks + 1)

/-! ## Two recorders on the two slots -/

/-- A call that a program makes on a recorder between its construction and its
destruction. -/
inductive Op (L : Layout) where
  | writeSetupText (text : List Byte)
  | saveToDemo (buf : List Byte) (length modGameTime : Nat)
  | setGameID (buf : List Byte)
  | setTime (gameTime wallclockTime : Int)
  | initializeStats (numPlayers numTeams : Int)
  | addNewPlayer (name : String) (playerNum : Int)
  | setPlayerStats (playerNum : Int) (stats : L.PlayerStatistics)
  | setTeamStats (teamNum : Int) (stats : List L.TeamStatistics)
  | setWinningAllyTeams (winningAllyTeamIDs : List Byte)

/-- One call on the recorder `r`, with the static streams `g` threaded through. -/
def step {L : Layout} (g : DemoStreams) (r : CDemoRecorder L) :
    Op L → Except Fault (DemoStreams × CDemoRecorder L)
  | Op.writeSetupText text => CDemoRecorder.WriteSetupText g r text
  | Op.saveToDemo buf length modGameTime => CDemoRecorder.SaveToDemo g r buf length modGameTime
  | Op.setGameID buf => CDemoRecorder.SetGameID g r buf
  | Op.setTime gameTime wallclockTime =>
    Except.ok (g, CDemoRecorder.SetTime r gameTime wallclockTime)
  | Op.initializeStats numPlayers numTeams =>
    match CDemoRecorder.InitializeStats r numPlayers numTeams with
    | Except.ok r1 => Except.ok (g, r1)
    | Except.error e => Except.error e.1
  | Op.addNewPlayer name playerNum =>
    (CDemoRecorder.AddNewPlayer r name playerNum).map (fun r1 => (g, r1))
  | Op.setPlayerStats playerNum stats =>
    (CDemoRecorder.SetPlayerStats r playerNum stats).map (fun r1 => (g, r1))
  | Op.setTeamStats teamNum stats =>
    (CDemoRecorder.SetTeamStats r teamNum stats).map (fun r1 => (g, r1))
  | Op.setWinningAllyTeams ids =>
    Except.ok (g, CDemoRecorder.SetWinningAllyTeams r ids)

/-- A sequence of calls on one recorder. -/
def runOps {L : Layout} (g : DemoStreams) (r : CDemoRecorder L) :
    List (Op L) → Except Fault (DemoStreams × CDemoRecorder L)
  | [] => Except.ok (g, r)
  | op :: rest => do
    let (g, r) ← step g r op
    runOps g r rest

/-- A sequential interleaving of calls on two recorders: an entry `(false, op)` is
a call on `client`, an entry `(true, op)` a call on `server`. -/
def runBoth {L : Layout} (g : DemoStreams) (client server : CDemoRecorder L) :
    List (Bool × Op L) → Except Fault (DemoStreams × CDemoRecorder L × CDemoRecorder L)
  | [] => Except.ok (g, client, server)
  | entry :: rest =>
    if entry.1 then do
      let (g, server) ← step g server entry.2
      runBoth g client server rest
    else do
      let (g, client) ← step g client entry.2
      runBoth g client server rest

/-- The calls of an interleaving that go to the recorder of one kind, in order. -/
def opsOf {L : Layout} (kind : Bool) (sched : List (Bool × Op L)) : List (Op L) :=
  (sched.filter (fun entry => entry.1 == kind)).map (fun entry => entry.2)

/-- A computation on the static streams that commutes with an assignment to slot
`j`: it neither reads nor writes that slot. -/
def Commutes {β : Type} (j : Bool) (f : DemoStreams → Except Fault (DemoStreams × β)) : Prop :=
  ∀ (g : DemoStreams) (x : Option StringStream),
    f (g.set j x) = (f g).map (fun p => (p.1.set j x, p.2))

/-! ## Byte order -/

/-- Modelled from the spec: the byte-order transforms of System/byteorder.h
(`swabDWord` and its relatives) and the `swab()` methods of the record types, none
of which is part of the sources. The spec says that the canonical order is
little-endian and that a transform is a symmetric byte swap of every multi-byte
numeric field. `toLE w n` is the image of the `w`-byte number `n`, least
significant byte first. -/
def toLE : Nat → Nat → List Byte
  | 0, _ => []
  | w + 1, n => Fin.ofNat n :: toLE w (n / 256)

/-- The number whose image, least significant byte first, is `bs`. -/
def ofLE : List Byte → Nat
  | [] => 0
  | b :: bs => b.val + 256 * ofLE bs

/-- Modelled from the spec: the byte swap of a `w`-byte numeric field, which
reverses the order of its bytes. -/
def byteSwap (w n : Nat) : Nat := ofLE (toLE w n).reverse

/-- Modelled from the spec: `swabDWord` of byteorder.h on a 32-bit value. On a
little-endian host the value is in canonical order already; on a big-endian host
its four bytes are swapped. -/
def swabDWordOn (hostBigEndian : Bool) (c : Nat) : Nat :=
  if hostBigEndian then byteSwap 4 c else c

/-- The `int` with a given 32-bit two's complement pattern. -/
def fromU32 (n : Nat) : Int := if n < 2 ^ 31 then (n : Int) else (n : Int) - 2 ^ 32

/-- Modelled from the spec: the swap of an `int` field. -/
def swabIntOn (hostBigEndian : Bool) (x : Int) : Int :=
  if hostBigEndian then fromU32 (byteSwap 4 (toUnsigned x)) else x

/-- Modelled from the spec: the swap of an unsigned 64-bit field. -/
def swabQWordOn (hostBigEndian : Bool) (x : Int) : Int :=
  if hostBigEndian then ((byteSwap 8 (toSizeT x) : Nat) : Int) else x

/-- Modelled from the spec: `DemoStreamChunkHeader::swab()`, the swap of the
`float` and of the 32-bit length. -/
def DemoStreamChunkHeader.swabOn (hostBigEndian : Bool) (c : DemoStreamChunkHeader) :
    DemoStreamChunkHeader :=
  { modGameTime := swabDWordOn hostBigEndian c.modGameTime
    length := swabDWordOn hostBigEndian c.length }

/-- Modelled from the spec: `DemoFileHeader::swab()`, the swap of every numeric
field (32-bit, the creation time 64-bit); the magic, the version string and the
session identifier are byte arrays and stay as they are. -/
def DemoFileHeader.swabOn (hostBigEndian : Bool) (h : DemoFileHeader) : DemoFileHeader :=
  { magic := h.magic
    version := swabIntOn hostBigEndian h.version
    headerSize := swabIntOn hostBigEndian h.headerSize
    versionString := h.versionString
    gameID := h.gameID
    unixTime := swabQWordOn hostBigEndian h.unixTime
    scriptSize := swabIntOn hostBigEndian h.scriptSize
    demoStreamSize := swabIntOn hostBigEndian h.demoStreamSize
    gameTime := swabIntOn hostBigEndian h.gameTime
    wallclockTime := swabIntOn hostBigEndian h.wallclockTime
    numPlayers := swabIntOn hostBigEndian h.numPlayers
    playerStatSize := swabIntOn hostBigEndian h.playerStatSize
    playerStatElemSize := swabIntOn hostBigEndian h.playerStatElemSize
    numTeams := swabIntOn hostBigEndian h.numTeams
    teamStatSize := swabIntOn hostBigEndian h.teamStatSize
    teamStatElemSize := swabIntOn hostBigEndian h.teamStatElemSize
    teamStatPeriod := swabIntOn hostBigEndian h.teamStatPeriod
    winningAllyTeamsSize := swabIntOn hostBigEndian h.winningAllyTeamsSize }

/-- A value of type `int`. -/
def IsInt (x : Int) : Prop := -2 ^ 31 ≤ x ∧ x < 2 ^ 31

/-- A header whose numeric fields have values of their types. -/
def DemoFileHeader.InRange (h : DemoFileHeader) : Prop :=
  IsInt h.version ∧ IsInt h.headerSize ∧ (0 ≤ h.unixTime ∧ h.unixTime < 2 ^ 64) ∧
  IsInt h.scriptSize ∧ IsInt h.demoStreamSize ∧ IsInt h.gameTime ∧ IsInt h.wallclockTime ∧
  IsInt h.numPlayers ∧ IsInt h.playerStatSize ∧ IsInt h.playerStatElemSize ∧
  IsInt h.numTeams ∧ IsInt h.teamStatSize ∧ IsInt h.teamStatElemSize ∧
  IsInt h.teamStatPeriod ∧ IsInt h.winningAllyTeamsSize

/-- Modelled from the spec: a `PlayerStatistics` or `TeamStatistics` value, a
fixed-size record of numeric fields, as the list of its fields: the width of the
field in bytes and its bit pattern. -/
abbrev NumericRecord := List (Nat × Nat)

/-- Modelled from the spec: `swab()` of a statistics record, the swap of every
numeric field. -/
def NumericRecord.swabOn (hostBigEndian : Bool) (x : NumericRecord) : NumericRecord :=
  x.map (fun f => (f.1, if hostBigEndian then byteSwap f.1 f.2 else f.2))

/-! ## A little-endian sample layout -/

/-- Four bytes of a 32-bit value, least significant first. -/
def le32 (n : Nat) : List Byte :=
  [Fin.ofNat n, Fin.ofNat (n / 2 ^ 8), Fin.ofNat (n / 2 ^ 16), Fin.ofNat (n / 2 ^ 24)]

/-- The 32-bit two's complement image of an `int`, least significant byte first. -/
def le32Int (i : Int) : List Byte := le32 (i % 2 ^ 32).toNat

/-- The 64-bit image of an integer, least significant byte first. -/
def le64Int (i : Int) : List Byte :=
  le32 ((i % 2 ^ 64).toNat % 2 ^ 32) ++ le32 ((i % 2 ^ 64).toNat / 2 ^ 32)

/-- The value of four little-endian bytes. -/
def rd32 (bs : List Byte) : Nat :=
  (bs.getD 0 0).val + 2 ^ 8 * (bs.getD 1 0).val + 2 ^ 16 * (bs.getD 2 0).val
    + 2 ^ 24 * (bs.getD 3 0).val

/-- A byte array of fixed size `n` holding `bs` (cut or NUL-padded to `n`). -/
def fixedArray (n : Nat) (bs : List Byte) : List Byte :=
  bs.take n ++ List.replicate (n - bs.length) 0

/-- The part of the sample header image before the session identifier. -/
def sampleHeaderFront (h : DemoFileHeader) : List Byte :=
  fixedArray 16 h.magic ++ le32Int h.version ++ le32Int h.headerSize
    ++ fixedArray 256 h.versionString

/-- The part of the sample header image after the session identifier. -/
def sampleHeaderBack (h : DemoFileHeader) : List Byte :=
  le64Int h.unixTime ++ le32Int h.scriptSize ++ le32Int h.demoStreamSize
    ++ le32Int h.gameTime ++ le32Int h.wallclockTime ++ le32Int h.numPlayers
    ++ le32Int h.playerStatSize ++ le32Int h.playerStatElemSize ++ le32Int h.numTeams
    ++ le32Int h.teamStatSize ++ le32Int h.teamStatElemSize ++ le32Int h.teamStatPeriod
    ++ le32Int h.winningAllyTeamsSize

/-- A statistics record of the sample layout: one 32-bit counter. -/
structure SampleStatistics where
  counter : Nat
deriving DecidableEq, Repr

/-- Modelled from the spec: a layout for a little-endian host, where the
canonical byte order is the host order and every `swab` leaves the value as it
is. The header is the field list of the spec with 32-bit numeric fields, a 64-bit
creation time, a 16-byte magic, a 256-byte version string and a 16-byte session
identifier; a chunk header is the `float` and the 32-bit length; a statistics
record is one 32-bit counter. It serves to run the model on concrete inputs. -/
def sampleLayout : Layout where
  PlayerStatistics := SampleStatistics
  TeamStatistics := SampleStatistics
  playerDefault := { counter := 0 }
  sizeofHeader := 352
  sizeofChunkHeader := 8
  sizeofPlayerStatistics := 4
  sizeofTeamStatistics := 4
  sizeofMagic := 16
  sizeofVersionString := 256
  sizeofGameID := 16
  swabHeader := id
  swabChunk := id
  swabPlayer := id
  swabTeam := id
  swabDWord := id
  headerBytes := fun h => sampleHeaderFront h ++ fixedArray 16 h.gameID ++ sampleHeaderBack h
  chunkBytes := fun c => le32 c.modGameTime ++ le32 c.length
  playerBytes := fun p => le32 p.counter
  teamBytes := fun t => le32 t.counter
  dwordBytes := le32
  readChunk := fun bs => { modGameTime := rd32 (bs.take 4), length := rd32 (bs.drop 4) }
  readGameID := fun bs => (bs.drop 280).take 16
  headerBytes_length := by
    intro h
    simp [sampleHeaderFront, sampleHeaderBack, fixedArray, le32Int, le64Int, le32]
    omega
  chunkBytes_length := by intro c; simp [le32]
  playerBytes_length := by intro p; simp [le32]
  teamBytes_length := by intro t; simp [le32]
  dwordBytes_length := by intro n; simp [le32]
  sizeofChunkHeader_pos := by decide
  readChunk_swab := by
    intro c h1 h2
    cases c with
    | mk t n =>
      simp only [id, le32, rd32, Fin.ofNat] at *
      simp
      constructor <;> omega
  readGameID_swab := by
    intro h hg
    have hfront : (sampleHeaderFront h).length = 280 := by
      simp [sampleHeaderFront, fixedArray, le32Int, le32]
      omega
    have hgid : (fixedArray 16 h.gameID) = h.gameID := by
      simp [fixedArray, hg]
    simp only [id, hgid, List.append_assoc]
    rw [List.drop_left' hfront, List.take_left' hg]

/-- A sample environment: every directory can be created, no file exists yet. -/
def sampleEnv : Env where
  DEMOFILE_MAGIC := cstr "spring demofile"
  DEMOFILE_VERSION := 5
  syncVersion := "105.0"
  currentTime := 1700000000
  currentTimeStr := "20231114_221320"
  statsPeriod := 16
  createDirectory := fun _ => true
  fileExists := fun _ => false
  getBasename := fun s => s
  locateFile := fun s => s
  gzopen := fun _ => true

/-- The client stream after `CDemoRecorder("DesertMap", "mod", false)` on the sample
layout, both slots null before: the header placeholder, cursor behind it. -/
def sampleStream : StringStream :=
  { buf := sampleLayout.headerBytes
      (sampleLayout.swabHeader (CDemoRecorder.SetFileHeader.header sampleLayout sampleEnv))
    pos := 352 }

/-- The two slots after that construction. -/
def sampleStreams : DemoStreams := { client := some sampleStream, server := none }

/-- The recorder that construction leaves. -/
def sampleRecorder : CDemoRecorder sampleLayout :=
  { isServerDemo := false
    demoName := (CDemoRecorder.SetName sampleEnv (CDemoRecorder.ctor.members sampleLayout false)
      "DesertMap" "mod").demoName
    file := sampleEnv.gzopen (CDemoRecorder.SetName sampleEnv
      (CDemoRecorder.ctor.members sampleLayout false) "DesertMap" "mod").demoName
    fileHeader := CDemoRecorder.SetFileHeader.header sampleLayout sampleEnv
    playerStats := []
    teamStats := []
    winningAllyTeams := [] }

/-- A server recorder next to `sampleRecorder`. -/
def sampleServerRecorder : CDemoRecorder sampleLayout :=
  { sampleRecorder with isServerDemo := true }

/-- Both slots hold a stream with the header placeholder. -/
def sampleBothStreams : DemoStreams :=
  { client := some sampleStream, server := some sampleStream }

/-- An interleaving: the client saves a batch, the server stores a winner list
and saves a batch, the client sets its times. -/
def sampleSchedule : List (Bool × Op sampleLayout) :=
  [(false, Op.saveToDemo [67, 77, 68, 49] 4 0x3FC00000),
   (true, Op.setWinningAllyTeams [1]),
   (true, Op.saveToDemo [1] 1 5),
   (false, Op.setTime 10 20)]

/-- The `demoStreamSize` field read from a header image of the sample layout: the
32-bit little-endian value at offset 308 (magic 16, version 4, headerSize 4,
versionString 256, gameID 16, unixTime 8, scriptSize 4). -/
def sampleStreamSizeField (image : List Byte) : Nat :=
  rd32 ((image.drop 308).take 4)

/-! ## Narrowing to 32 bits -/

theorem wrapInt_def (x : Int) : wrapInt x = (x + 2 ^ 31) % 2 ^ 32 - 2 ^ 31 := by
  unfold wrapInt
  simp only []
  split <;> omega

theorem wrapInt_natCast (n : Nat) (h : n < 2 ^ 31) : wrapInt (n : Int) = (n : Int) := by
  rw [wrapInt_def]
  omega

theorem wrapInt_sub (a b : Int) : wrapInt (wrapInt a - wrapInt b) = wrapInt (a - b) := by
  simp only [wrapInt_def]
  omega

theorem wrapInt_add_left (a b : Int) : wrapInt (wrapInt a + b) = wrapInt (a + b) := by
  simp only [wrapInt_def]
  omega

theorem wrapInt_idem (a : Int) : wrapInt (wrapInt a) = wrapInt a := by
  simp only [wrapInt_def]
  omega

/-! ## Stream lemmas -/

namespace StringStream

@[simp] theorem write_pos (s : StringStream) (d : List Byte) :
    (s.write d).pos = s.pos + d.length := rfl

@[simp] theorem tellp_eq (s : StringStream) : s.tellp = s.pos := rfl

@[simp] theorem clear_eq (s : StringStream) : s.clear = s := rfl

@[simp] theorem str_eq (s : StringStream) : s.str = s.buf := rfl

theorem write_buf (s : StringStream) (d : List Byte) :
    (s.write d).buf = s.buf.take s.pos ++ d ++ s.buf.drop (s.pos + d.length) := rfl

theorem write_buf_length (s : StringStream) (d : List Byte) (h : s.pos ≤ s.buf.length) :
    (s.write d).buf.length = max s.buf.length (s.pos + d.length) := by
  simp [write_buf]
  omega

theorem write_pos_le (s : StringStream) (d : List Byte) (h : s.pos ≤ s.buf.length) :
    (s.write d).pos ≤ (s.write d).buf.length := by
  rw [write_buf_length s d h]
  simp

theorem write_take (s : StringStream) (d : List Byte) (h : s.pos ≤ s.buf.length) :
    (s.write d).buf.take s.pos = s.buf.take s.pos := by
  rw [write_buf, List.append_assoc]
  exact List.take_left' (by simp [h])

theorem write_drop_take (s : StringStream) (d : List Byte) (h : s.pos ≤ s.buf.length) :
    ((s.write d).buf.drop s.pos).take d.length = d := by
  rw [write_buf, List.append_assoc, List.drop_left' (by simp [h])]
  exact List.take_left' rfl

theorem write_drop_drop (s : StringStream) (d : List Byte) (h : s.pos ≤ s.buf.length) :
    (s.write d).buf.drop (s.pos + d.length) = s.buf.drop (s.pos + d.length) := by
  rw [write_buf]
  exact List.drop_left' (by simp [h])

theorem write_at_end (s : StringStream) (d : List Byte) (h : s.pos = s.buf.length) :
    (s.write d).buf = s.buf ++ d := by
  rw [write_buf, h]
  simp

theorem write_nil (s : StringStream) (h : s.pos ≤ s.buf.length) : s.write [] = s := by
  cases s with
  | mk b p => simp [write]

theorem write_write (s : StringStream) (d e : List Byte) (h : s.pos ≤ s.buf.length) :
    (s.write d).write e = s.write (d ++ e) := by
  cases s with
  | mk b p =>
    simp only [write, List.length_append, mk.injEq]
    refine ⟨?_, by omega⟩
    simp only at h
    have h1 : (List.take p b ++ d ++ List.drop (p + d.length) b).take (p + d.length)
        = List.take p b ++ d := List.take_left' (by simp [h])
    have h2 : (List.take p b ++ d ++ List.drop (p + d.length) b).drop (p + d.length + e.length)
        = List.drop (p + (d.length + e.length)) b := by
      rw [show p + d.length + e.length = (List.take p b ++ d).length + e.length by simp [h]]
      rw [← List.drop_drop, List.drop_left, List.drop_drop]
      congr 1
      omega
    rw [h1, h2]
    simp

theorem seekp_of_le (s : StringStream) (p : Nat) (h : p ≤ s.buf.length) :
    s.seekp p = { s with pos := p } := by
  simp [seekp, h]

theorem foldl_write {α : Type} (f : α → List Byte) (xs : List α) :
    ∀ s : StringStream, s.pos ≤ s.buf.length →
      xs.foldl (fun s x => s.write (f x)) s = s.write (xs.map f).flatten := by
  induction xs with
  | nil => intro s h; simp [write_nil s h]
  | cons x rest ih =>
    intro s h
    rw [List.foldl_cons, ih _ (write_pos_le s (f x) h), write_write _ _ _ h]
    simp

theorem foldl_foldl_write {α : Type} (f : α → List Byte) (xss : List (List α)) :
    ∀ s : StringStream, s.pos ≤ s.buf.length →
      xss.foldl (fun s xs => xs.foldl (fun s x => s.write (f x)) s) s
        = s.write (xss.map (fun xs => (xs.map f).flatten)).flatten := by
  induction xss with
  | nil => intro s h; simp [write_nil s h]
  | cons xs rest ih =>
    intro s h
    rw [List.foldl_cons, foldl_write f xs s h, ih _ (write_pos_le s _ h), write_write _ _ _ h]
    simp

end StringStream

namespace DemoStreams

@[simp] theorem get_set_same (g : DemoStreams) (i : Bool) (x : Option StringStream) :
    (g.set i x).get i = x := by
  cases i <;> simp [get, set]

theorem get_set_other (g : DemoStreams) (i j : Bool) (x : Option StringStream) (h : j ≠ i) :
    (g.set i x).get j = g.get j := by
  cases i <;> cases j <;> simp_all [get, set]

@[simp] theorem set_set (g : DemoStreams) (i : Bool) (x y : Option StringStream) :
    (g.set i x).set i y = g.set i y := by
  cases i <;> simp [set]

theorem set_get_self (g : DemoStreams) (i : Bool) (s : StringStream) (h : g.get i = some s) :
    g.set i (some s) = g := by
  cases g with
  | mk c v => cases i <;> simp_all [get, set]

theorem deref_of_get (g : DemoStreams) (i : Bool) (s : StringStream) (h : g.get i = some s) :
    g.deref i = Except.ok s := by
  simp [deref, h]

end DemoStreams

namespace CDemoRecorder

variable {L : Layout}

theorem SaveToDemo_ok_take (g : DemoStreams) (r : CDemoRecorder L) (s : StringStream)
    (hs : g.get r.isServerDemo = some s) (buf : List Byte) (length t : Nat)
    (hl : length ≤ buf.length) :
    SaveToDemo g r buf length t = Except.ok
      (g.set r.isServerDemo (some ((s.write (L.chunkBytes (L.swabChunk
          { modGameTime := t, length := length }))).write (buf.take length))),
       { r with fileHeader := { r.fileHeader with demoStreamSize :=
          (wrapInt (r.fileHeader.demoStreamSize
            + (length + L.sizeofChunkHeader : Nat))) } }) := by
  simp [SaveToDemo, DemoStreams.deref_of_get g _ s hs, bind, Except.bind, pure, Except.pure,
    Nat.not_lt.mpr hl]

theorem SaveToDemo_ok (g : DemoStreams) (r : CDemoRecorder L) (s : StringStream)
    (hs : g.get r.isServerDemo = some s) (buf : List Byte) (t : Nat) :
    SaveToDemo g r buf buf.length t = Except.ok
      (g.set r.isServerDemo (some ((s.write (L.chunkBytes (L.swabChunk
          { modGameTime := t, length := buf.length }))).write buf)),
       { r with fileHeader := { r.fileHeader with demoStreamSize :=
          (wrapInt (r.fileHeader.demoStreamSize
            + (buf.length + L.sizeofChunkHeader : Nat))) } }) := by
  have h := SaveToDemo_ok_take g r s hs buf buf.length t (le_refl _)
  rwa [List.take_length] at h

theorem WriteFileHeader_ok (g : DemoStreams) (r : CDemoRecorder L) (s : StringStream)
    (hs : g.get r.isServerDemo = some s) (hp : s.pos ≤ s.buf.length) (u : Bool) :
    WriteFileHeader g r u = Except.ok
      (g.set r.isServerDemo (some
        { buf := L.headerBytes (L.swabHeader
            (if !u then { r.fileHeader with demoStreamSize := 0 } else r.fileHeader))
              ++ s.buf.drop L.sizeofHeader,
          pos := s.pos % 2 ^ 32 }), s.pos % 2 ^ 32) := by
  have h0 : s.seekp 0 = { s with pos := 0 } := StringStream.seekp_of_le s 0 (Nat.zero_le _)
  have hle : s.pos % 2 ^ 32 ≤ s.pos := Nat.mod_le _ _
  simp only [WriteFileHeader, DemoStreams.deref_of_get g _ s hs, bind, Except.bind, pure,
    Except.pure, h0, StringStream.tellp_eq]
  congr 3
  rw [StringStream.seekp_of_le]
  · simp [StringStream.write, L.headerBytes_length]
  · simp [StringStream.write, L.headerBytes_length]
    omega

theorem WriteFileHeader_ok_lt (g : DemoStreams) (r : CDemoRecorder L) (s : StringStream)
    (hs : g.get r.isServerDemo = some s) (hp : s.pos ≤ s.buf.length) (u : Bool)
    (h32 : s.pos < 2 ^ 32) :
    WriteFileHeader g r u = Except.ok
      (g.set r.isServerDemo (some
        { buf := L.headerBytes (L.swabHeader
            (if !u then { r.fileHeader with demoStreamSize := 0 } else r.fileHeader))
              ++ s.buf.drop L.sizeofHeader,
          pos := s.pos }), s.pos) := by
  have h := WriteFileHeader_ok g r s hs hp u
  rwa [Nat.mod_eq_of_lt h32] at h

theorem SetStream_ok (g : DemoStreams) (r : CDemoRecorder L) :
    SetStream g r = Except.ok
      (g.set r.isServerDemo (some { buf := g.content r.isServerDemo, pos := 0 })) := by
  cases hg : g.get r.isServerDemo with
  | none =>
    simp [SetStream, hg, DemoStreams.deref, DemoStreams.content, bind, Except.bind, pure,
      Except.pure, StringStream.fresh, StringStream.seekp]
  | some s =>
    simp [SetStream, hg, DemoStreams.deref, DemoStreams.content, bind, Except.bind, pure,
      Except.pure, StringStream.seekp]

@[simp] theorem SetName_isServerDemo (E : Env) (r : CDemoRecorder L) (mapName modName : String) :
    (SetName E r mapName modName).isServerDemo = r.isServerDemo := by
  unfold SetName
  simp only []
  split <;> split <;> rfl

theorem SetFileHeader_ok (E : Env) (g : DemoStreams) (r : CDemoRecorder L) (old : List Byte)
    (hs : g.get r.isServerDemo = some { buf := old, pos := 0 }) :
    SetFileHeader E g r = Except.ok
      (g.set r.isServerDemo (some
        { buf := L.headerBytes (L.swabHeader (SetFileHeader.header L E))
            ++ old.drop L.sizeofHeader,
          pos := L.sizeofHeader }),
       { r with fileHeader := SetFileHeader.header L E }) := by
  have hw := WriteFileHeader_ok g { r with fileHeader := SetFileHeader.header L E }
    { buf := old, pos := 0 } hs (Nat.zero_le _) false
  have hd : (SetFileHeader.header L E).demoStreamSize = 0 := rfl
  have hh : ({ SetFileHeader.header L E with demoStreamSize := 0 } : DemoFileHeader)
      = SetFileHeader.header L E := rfl
  simp only [SetFileHeader, hw, bind, Except.bind, pure, Except.pure, DemoStreams.deref,
    DemoStreams.get_set_same, DemoStreams.set_set, Bool.not_false, if_true, hh]
  rw [StringStream.seekp_of_le]
  · simp
  · simp [L.headerBytes_length]

theorem SetName_frame (E : Env) (r : CDemoRecorder L) (mapName modName : String) :
    SetName E r mapName modName
      = { r with demoName := (SetName E r mapName modName).demoName } := by
  unfold SetName
  simp only []
  split <;> split <;> rfl

/-- The constructor always returns: the header placeholder is at offset 0, the
cursor behind it, the statistics vectors are empty. -/
theorem ctor_ok (L : Layout) (E : Env) (g : DemoStreams) (mapName modName : String)
    (serverDemo : Bool) :
    ctor L E g mapName modName serverDemo = Except.ok
      (g.set serverDemo (some
        { buf := L.headerBytes (L.swabHeader (SetFileHeader.header L E))
            ++ (g.content serverDemo).drop L.sizeofHeader,
          pos := L.sizeofHeader }),
       { isServerDemo := serverDemo
         demoName := (SetName E (ctor.members L serverDemo) mapName modName).demoName
         file := E.gzopen (SetName E (ctor.members L serverDemo) mapName modName).demoName
         fileHeader := SetFileHeader.header L E
         playerStats := []
         teamStats := []
         winningAllyTeams := [] }) := by
  have h1 := SetStream_ok g (ctor.members L serverDemo)
  have hm : (ctor.members L serverDemo).isServerDemo = serverDemo := rfl
  rw [hm] at h1
  have h2 := SetFileHeader_ok E
    (g.set serverDemo (some { buf := g.content serverDemo, pos := 0 }))
    (SetName E (ctor.members L serverDemo) mapName modName) (g.content serverDemo)
    (by simp [hm])
  simp only [SetName_isServerDemo, hm, DemoStreams.set_set] at h2
  simp only [ctor, h1, h2, bind, Except.bind, pure, Except.pure, SetName_isServerDemo, hm]
  rw [SetName_frame E (ctor.members L serverDemo) mapName modName]
  rfl

theorem SetGameID_ok (g : DemoStreams) (r : CDemoRecorder L) (s : StringStream)
    (hs : g.get r.isServerDemo = some s) (hp : s.pos ≤ s.buf.length) (buf : List Byte)
    (hb : L.sizeofGameID ≤ buf.length) :
    SetGameID g r buf = Except.ok
      (g.set r.isServerDemo (some
        { buf := L.headerBytes (L.swabHeader
            { r.fileHeader with gameID := buf.take L.sizeofGameID, demoStreamSize := 0 })
              ++ s.buf.drop L.sizeofHeader,
          pos := s.pos % 2 ^ 32 }),
       { r with fileHeader := { r.fileHeader with gameID := buf.take L.sizeofGameID } }) := by
  have hw := WriteFileHeader_ok g
    { r with fileHeader := { r.fileHeader with gameID := buf.take L.sizeofGameID } } s hs hp false
  simp only [SetGameID, Nat.not_lt.mpr hb, if_false, hw, bind, Except.bind, pure, Except.pure]
  rfl

theorem WriteSetupText_ok_wrap (g : DemoStreams) (r : CDemoRecorder L) (s : StringStream)
    (hs : g.get r.isServerDemo = some s) (text : List Byte) (n : Nat)
    (hn : 0 ≤ wrapInt text.length)
    (ht : WriteSetupText.trim text (wrapInt text.length).toNat = Except.ok n) :
    WriteSetupText g r text = Except.ok
      (g.set r.isServerDemo (some (s.write (text.take n))),
       { r with fileHeader := { r.fileHeader with scriptSize := n } }) := by
  unfold WriteSetupText
  simp only [if_neg (Int.not_lt.mpr hn)]
  simp only [ht]
  simp only [DemoStreams.deref_of_get g _ s hs, bind, Except.bind, pure, Except.pure]

theorem WriteSetupText_ok (g : DemoStreams) (r : CDemoRecorder L) (s : StringStream)
    (hs : g.get r.isServerDemo = some s) (text : List Byte) (n : Nat)
    (hlen : text.length < 2 ^ 31)
    (ht : WriteSetupText.trim text text.length = Except.ok n) :
    WriteSetupText g r text = Except.ok
      (g.set r.isServerDemo (some (s.write (text.take n))),
       { r with fileHeader := { r.fileHeader with scriptSize := n } }) := by
  have hw := wrapInt_natCast text.length hlen
  apply WriteSetupText_ok_wrap g r s hs text n
  · rw [hw]
    exact Int.natCast_nonneg _
  · rw [hw, Int.toNat_ofNat]
    exact ht

theorem WriteWinnerList_skip (g : DemoStreams) (r : CDemoRecorder L)
    (h0 : r.fileHeader.numTeams = 0) :
    WriteWinnerList g r = Except.ok (g, r) := by
  simp [WriteWinnerList, h0, pure, Except.pure]

theorem WriteWinnerList_ok (g : DemoStreams) (r : CDemoRecorder L) (s : StringStream)
    (hs : g.get r.isServerDemo = some s) (hp : s.pos ≤ s.buf.length)
    (h0 : r.fileHeader.numTeams ≠ 0) :
    WriteWinnerList g r = Except.ok
      (g.set r.isServerDemo (some (s.write r.winningAllyTeams)),
       { r with
          winningAllyTeams := []
          fileHeader := { r.fileHeader with
            winningAllyTeamsSize := wrapInt r.winningAllyTeams.length } }) := by
  have hf := StringStream.foldl_write (fun b : Byte => [b]) r.winningAllyTeams s hp
  have hj : (r.winningAllyTeams.map (fun b : Byte => [b])).flatten = r.winningAllyTeams := by
    induction r.winningAllyTeams with
    | nil => rfl
    | cons b rest ih => simp [ih]
  rw [hj] at hf
  simp only [WriteWinnerList, h0, if_false, DemoStreams.deref_of_get g _ s hs, bind,
    Except.bind, pure, Except.pure, hf, StringStream.tellp_eq, StringStream.write_pos]
  congr 4
  rw [wrapInt_sub]
  congr 1
  push_cast
  ring

theorem playerSection_length (L : Layout) (ps : List L.PlayerStatistics) :
    (playerSection L ps).length = ps.length * L.sizeofPlayerStatistics := by
  induction ps with
  | nil => simp [playerSection]
  | cons p rest ih =>
    simp only [playerSection, List.map_cons, List.flatten_cons, List.length_append,
      L.playerBytes_length, List.length_cons] at ih ⊢
    rw [ih]
    ring

theorem WritePlayerStats_ok (g : DemoStreams) (r : CDemoRecorder L) (s : StringStream)
    (hs : g.get r.isServerDemo = some s) (hp : s.pos ≤ s.buf.length) :
    WritePlayerStats g r = Except.ok
      (g.set r.isServerDemo (some (s.write (playerSection L r.playerStats))),
       { r with
          playerStats := []
          fileHeader := { r.fileHeader with
            numPlayers := wrapInt r.playerStats.length
            playerStatSize := wrapInt (playerSection L r.playerStats).length } }) := by
  have hf := StringStream.foldl_write (fun p => L.playerBytes (L.swabPlayer p))
    r.playerStats s hp
  simp only [WritePlayerStats, DemoStreams.deref_of_get g _ s hs, bind, Except.bind, pure,
    Except.pure, hf, StringStream.tellp_eq, StringStream.write_pos]
  congr 4
  rw [wrapInt_sub]
  congr 1
  simp [playerSection]

theorem teamCounts_length (L : Layout) (ts : List (List L.TeamStatistics)) :
    (teamCounts L ts).length = 4 * ts.length := by
  induction ts with
  | nil => simp [teamCounts]
  | cons h rest ih =>
    simp only [teamCounts, List.map_cons, List.flatten_cons, List.length_append,
      L.dwordBytes_length, List.length_cons] at ih ⊢
    rw [ih]
    ring

theorem teamRecords_length (L : Layout) (ts : List (List L.TeamStatistics)) :
    (teamRecords L ts).length = L.sizeofTeamStatistics * (ts.map List.length).sum := by
  induction ts with
  | nil => simp [teamRecords]
  | cons h rest ih =>
    have hh : ((h.map (fun t => L.teamBytes (L.swabTeam t))).flatten).length
        = L.sizeofTeamStatistics * h.length := by
      induction h with
      | nil => simp
      | cons t more ih2 =>
        simp only [List.map_cons, List.flatten_cons, List.length_append, L.teamBytes_length,
          List.length_cons, ih2]
        ring
    simp only [teamRecords, List.map_cons, List.flatten_cons, List.length_append,
      List.sum_cons] at ih ⊢
    rw [ih, hh]
    ring

theorem WriteTeamStats_ok (g : DemoStreams) (r : CDemoRecorder L) (s : StringStream)
    (hs : g.get r.isServerDemo = some s) (hp : s.pos ≤ s.buf.length) :
    WriteTeamStats g r = Except.ok
      (g.set r.isServerDemo
        (some (s.write (teamCounts L r.teamStats ++ teamRecords L r.teamStats))),
       { r with
          teamStats := []
          fileHeader := { r.fileHeader with
            teamStatSize := (wrapInt
              (teamCounts L r.teamStats ++ teamRecords L r.teamStats).length) } }) := by
  have hf := StringStream.foldl_write (fun h : List L.TeamStatistics =>
    L.dwordBytes (L.swabDWord (h.length % 2 ^ 32))) r.teamStats s hp
  have hp1 := StringStream.write_pos_le s (teamCounts L r.teamStats) hp
  have hf2 := StringStream.foldl_foldl_write (fun t => L.teamBytes (L.swabTeam t))
    r.teamStats (s.write (teamCounts L r.teamStats)) hp1
  simp only [WriteTeamStats, DemoStreams.deref_of_get g _ s hs, bind, Except.bind, pure,
    Except.pure, StringStream.tellp_eq]
  rw [show (List.foldl
      (fun s history => s.write (L.dwordBytes (L.swabDWord (history.length % 2 ^ 32))))
      s r.teamStats) = s.write (teamCounts L r.teamStats) from hf]
  rw [show (List.foldl (fun s history => List.foldl
      (fun s stats => s.write (L.teamBytes (L.swabTeam stats))) s history)
      (s.write (teamCounts L r.teamStats)) r.teamStats)
        = (s.write (teamCounts L r.teamStats)).write (teamRecords L r.teamStats) from hf2]
  rw [StringStream.write_write _ _ _ hp]
  congr 4
  simp only [StringStream.write_pos]
  rw [wrapInt_sub]
  congr 1
  push_cast
  ring

theorem WriteDemoFile_ok (g : DemoStreams) (r : CDemoRecorder L) (s : StringStream)
    (hs : g.get r.isServerDemo = some s) :
    WriteDemoFile g r = Except.ok (g, { file := r.file, data := s.buf }) := by
  simp [WriteDemoFile, DemoStreams.deref_of_get g _ s hs, bind, Except.bind, pure, Except.pure]

theorem WriteWinnerList_spec (g : DemoStreams) (r : CDemoRecorder L) (s : StringStream)
    (hs : g.get r.isServerDemo = some s) (hp : s.pos ≤ s.buf.length) :
    WriteWinnerList g r = Except.ok
      (g.set r.isServerDemo (some (s.write (winnerSection r))),
       { r with
          winningAllyTeams := if r.fileHeader.numTeams = 0 then r.winningAllyTeams else []
          fileHeader := { r.fileHeader with
            winningAllyTeamsSize :=
              if r.fileHeader.numTeams = 0 then r.fileHeader.winningAllyTeamsSize
              else wrapInt r.winningAllyTeams.length } }) := by
  by_cases h0 : r.fileHeader.numTeams = 0
  · rw [WriteWinnerList_skip g r h0]
    simp only [winnerSection, if_pos h0, StringStream.write_nil s hp,
      DemoStreams.set_get_self g _ s hs]
  · rw [WriteWinnerList_ok g r s hs hp h0]
    simp [winnerSection, h0]

theorem passes_ok (g : DemoStreams) (r : CDemoRecorder L) (s : StringStream)
    (hs : g.get r.isServerDemo = some s) (hp : s.pos ≤ s.buf.length) :
    (do
      let (g, r) ← WriteWinnerList g r
      let (g, r) ← WritePlayerStats g r
      WriteTeamStats g r) = Except.ok
      (g.set r.isServerDemo (some (s.write (statsSections r))), afterPasses r) := by
  have hp1 := StringStream.write_pos_le s (winnerSection r) hp
  have hp2 := StringStream.write_pos_le _ (playerSection L r.playerStats) hp1
  have h1 := WriteWinnerList_spec g r s hs hp
  have h2 := WritePlayerStats_ok (g.set r.isServerDemo (some (s.write (winnerSection r))))
    { r with
      winningAllyTeams := if r.fileHeader.numTeams = 0 then r.winningAllyTeams else []
      fileHeader := { r.fileHeader with
        winningAllyTeamsSize :=
          if r.fileHeader.numTeams = 0 then r.fileHeader.winningAllyTeamsSize
          else wrapInt r.winningAllyTeams.length } }
    (s.write (winnerSection r)) (by simp) hp1
  have h3 := WriteTeamStats_ok
    (g.set r.isServerDemo (some ((s.write (winnerSection r)).write
      (playerSection L r.playerStats))))
    { r with
      winningAllyTeams := if r.fileHeader.numTeams = 0 then r.winningAllyTeams else []
      playerStats := []
      fileHeader := { r.fileHeader with
        winningAllyTeamsSize :=
          if r.fileHeader.numTeams = 0 then r.fileHeader.winningAllyTeamsSize
          else wrapInt r.winningAllyTeams.length
        numPlayers := wrapInt r.playerStats.length
        playerStatSize := wrapInt (playerSection L r.playerStats).length } }
    ((s.write (winnerSection r)).write (playerSection L r.playerStats)) (by simp) hp2
  simp only [DemoStreams.set_set] at h2 h3
  simp only [h1, h2, h3, bind, Except.bind]
  rw [StringStream.write_write _ _ _ hp1, StringStream.write_write _ _ _ hp]
  rfl

theorem dtor_ok (g : DemoStreams) (r : CDemoRecorder L) (s : StringStream)
    (hs : g.get r.isServerDemo = some s) (hp : s.pos ≤ s.buf.length) :
    dtor g r = Except.ok
      (g.set r.isServerDemo (some
        { buf := L.headerBytes (L.swabHeader (afterPasses r).fileHeader)
            ++ (s.write (statsSections r)).buf.drop L.sizeofHeader,
          pos := (s.write (statsSections r)).pos % 2 ^ 32 }),
       afterPasses r,
       { file := r.file,
         data := L.headerBytes (L.swabHeader (afterPasses r).fileHeader)
            ++ (s.write (statsSections r)).buf.drop L.sizeofHeader }) := by
  have hp3 := StringStream.write_pos_le s (statsSections r) hp
  have h123 := passes_ok g r s hs hp
  have h4 := WriteFileHeader_ok (g.set r.isServerDemo (some (s.write (statsSections r))))
    (afterPasses r) (s.write (statsSections r)) (by simp [afterPasses]) hp3 true
  have h5 := WriteDemoFile_ok (g.set r.isServerDemo (some
        { buf := L.headerBytes (L.swabHeader (afterPasses r).fileHeader)
            ++ (s.write (statsSections r)).buf.drop L.sizeofHeader,
          pos := (s.write (statsSections r)).pos % 2 ^ 32 })) (afterPasses r)
        { buf := L.headerBytes (L.swabHeader (afterPasses r).fileHeader)
            ++ (s.write (statsSections r)).buf.drop L.sizeofHeader,
          pos := (s.write (statsSections r)).pos % 2 ^ 32 } (by simp [afterPasses])
  have hi : (afterPasses r).isServerDemo = r.isServerDemo := rfl
  simp only [hi, DemoStreams.set_set, Bool.not_true, Bool.false_eq_true, if_false] at h4 h5
  unfold dtor
  cases hw : WriteWinnerList g r with
  | error e => simp [hw, bind, Except.bind] at h123
  | ok p1 =>
    cases hq : WritePlayerStats p1.1 p1.2 with
    | error e => simp [hw, hq, bind, Except.bind] at h123
    | ok p2 =>
      simp only [hw, hq, bind, Except.bind] at h123
      simp only [bind, Except.bind, hq, h123, h4, h5, pure, Except.pure]
      rfl

end CDemoRecorder

/-! ## The command stream -/

theorem chunkRegion_cons (L : Layout) (b : Nat × List Byte) (rest : List (Nat × List Byte)) :
    chunkRegion L (b :: rest) = chunkImage L b ++ chunkRegion L rest := by
  simp [chunkRegion]

theorem chunkRegion_length (L : Layout) (batches : List (Nat × List Byte)) :
    (chunkRegion L batches).length
      = (batches.map (fun b => L.sizeofChunkHeader + b.2.length)).sum := by
  induction batches with
  | nil => simp [chunkRegion]
  | cons b rest ih =>
    rw [chunkRegion_cons, List.length_append, ih]
    simp [chunkImage, L.chunkBytes_length]

theorem saveAll_ok {L : Layout} (batches : List (Nat × List Byte)) :
    ∀ (g : DemoStreams) (r : CDemoRecorder L) (s : StringStream),
      g.get r.isServerDemo = some s → s.pos ≤ s.buf.length →
      wrapInt r.fileHeader.demoStreamSize = r.fileHeader.demoStreamSize →
      saveAll g r batches = Except.ok
        (g.set r.isServerDemo (some (s.write (chunkRegion L batches))),
         { r with fileHeader := { r.fileHeader with demoStreamSize :=
            (wrapInt (r.fileHeader.demoStreamSize
              + ((batches.map (fun b => L.sizeofChunkHeader + b.2.length)).sum : Nat))) } }) := by
  induction batches with
  | nil =>
    intro g r s hs hp hd
    simp [saveAll, chunkRegion, StringStream.write_nil s hp, DemoStreams.set_get_self g _ s hs,
      pure, Except.pure, hd]
  | cons b rest ih =>
    intro g r s hs hp hd
    have h1 := CDemoRecorder.SaveToDemo_ok g r s hs b.2 b.1
    have hp1 := StringStream.write_pos_le s
      (L.chunkBytes (L.swabChunk { modGameTime := b.1, length := b.2.length })) hp
    have hp2 := StringStream.write_pos_le _ b.2 hp1
    have h2 := ih (g.set r.isServerDemo (some ((s.write (L.chunkBytes (L.swabChunk
          { modGameTime := b.1, length := b.2.length }))).write b.2)))
       { r with fileHeader := { r.fileHeader with demoStreamSize :=
          (wrapInt (r.fileHeader.demoStreamSize
            + (b.2.length + L.sizeofChunkHeader : Nat))) } }
       _ (by simp) hp2 (wrapInt_idem _)
    simp only [saveAll, h1, bind, Except.bind, h2, DemoStreams.set_set]
    rw [StringStream.write_write _ _ _ hp1, StringStream.write_write _ _ _ hp,
      chunkRegion_cons]
    simp only [chunkImage, List.append_assoc, List.map_cons, List.sum_cons]
    congr 4
    rw [wrapInt_add_left]
    congr 1
    push_cast
    ring

theorem parseChunks_region (L : Layout) (batches : List (Nat × List Byte))
    (hT : ∀ b ∈ batches, b.1 < 2 ^ 32 ∧ b.2.length < 2 ^ 32) :
    ∀ fuel, (chunkRegion L batches).length ≤ fuel →
      parseChunks L fuel (chunkRegion L batches) = batches := by
  induction batches with
  | nil =>
    intro fuel _
    cases fuel <;> simp [parseChunks, chunkRegion]
  | cons b rest ih =>
    intro fuel hf
    have hb := hT b (List.mem_cons_self _ _)
    have hrest : ∀ c ∈ rest, c.1 < 2 ^ 32 ∧ c.2.length < 2 ^ 32 :=
      fun c hc => hT c (List.mem_cons_of_mem _ hc)
    have hlen := L.chunkBytes_length (L.swabChunk { modGameTime := b.1, length := b.2.length })
    have hpos := L.sizeofChunkHeader_pos
    rw [chunkRegion_cons, List.length_append] at hf
    have himg : (chunkImage L b).length = L.sizeofChunkHeader + b.2.length := by
      simp [chunkImage, hlen]
    cases fuel with
    | zero => omega
    | succ f =>
      have hne : chunkRegion L (b :: rest) ≠ [] := by
        intro h
        have := congrArg List.length h
        rw [chunkRegion_cons, List.length_append, himg] at this
        simp at this
        omega
      have htake : (chunkRegion L (b :: rest)).take L.sizeofChunkHeader
          = L.chunkBytes (L.swabChunk { modGameTime := b.1, length := b.2.length }) := by
        rw [chunkRegion_cons, chunkImage, List.append_assoc]
        exact List.take_left' hlen
      have hdrop : (chunkRegion L (b :: rest)).drop L.sizeofChunkHeader
          = b.2 ++ chunkRegion L rest := by
        rw [chunkRegion_cons, chunkImage, List.append_assoc]
        exact List.drop_left' hlen
      have hread := L.readChunk_swab { modGameTime := b.1, length := b.2.length } hb.1 hb.2
      simp only [parseChunks, hne, if_false, htake, hdrop, hread]
      rw [List.take_left' rfl, List.drop_left' rfl, ih hrest f (by omega)]

/-! ## Invariants of the reachable states -/

theorem vectorResize_ok {α : Type} (v : List α) (n : Nat) (d : α) (w : List α)
    (h : vectorResize v n d = Except.ok w) :
    n ≤ vectorMaxSize ∧ w = v.take n ++ List.replicate (n - v.length) d := by
  unfold vectorResize at h
  split at h
  · cases h
  · injection h with h
    exact ⟨by omega, h.symm⟩

theorem InitializeStats_frame {L : Layout} (r r1 : CDemoRecorder L) (numPlayers numTeams : Int)
    (h : CDemoRecorder.InitializeStats r numPlayers numTeams = Except.ok r1) :
    r1.isServerDemo = r.isServerDemo ∧
      r1.fileHeader = { r.fileHeader with numTeams := numTeams } ∧
      r1.winningAllyTeams = r.winningAllyTeams := by
  unfold CDemoRecorder.InitializeStats at h
  cases h1 : vectorResize r.playerStats (toSizeT numPlayers) L.playerDefault with
  | error e => simp [h1] at h
  | ok ps =>
    cases h2 : vectorResize r.teamStats (toSizeT numTeams) ([] : List L.TeamStatistics) with
    | error e => simp [h1, h2] at h
    | ok ts =>
      simp only [h1, h2, Except.ok.injEq] at h
      subst h
      exact ⟨rfl, rfl, rfl⟩

theorem AddNewPlayer_frame {L : Layout} (r r1 : CDemoRecorder L) (name : String)
    (playerNum : Int) (h : CDemoRecorder.AddNewPlayer r name playerNum = Except.ok r1) :
    r1.isServerDemo = r.isServerDemo ∧ r1.fileHeader = r.fileHeader ∧
      r1.winningAllyTeams = r.winningAllyTeams ∧ r1.teamStats = r.teamStats := by
  unfold CDemoRecorder.AddNewPlayer at h
  split at h
  · cases h1 : vectorResize r.playerStats (toSizeT (wrapInt (playerNum + 1)))
        L.playerDefault with
    | error e => simp [h1, bind, Except.bind] at h
    | ok ps =>
      simp only [h1, bind, Except.bind, pure, Except.pure, Except.ok.injEq] at h
      subst h
      exact ⟨rfl, rfl, rfl, rfl⟩
  · simp only [pure, Except.pure, Except.ok.injEq] at h
    subst h
    exact ⟨rfl, rfl, rfl, rfl⟩

theorem SetPlayerStats_frame {L : Layout} (r r1 : CDemoRecorder L) (playerNum : Int)
    (stats : L.PlayerStatistics)
    (h : CDemoRecorder.SetPlayerStats r playerNum stats = Except.ok r1) :
    r1.isServerDemo = r.isServerDemo ∧ r1.fileHeader = r.fileHeader ∧
      r1.winningAllyTeams = r.winningAllyTeams ∧ r1.teamStats = r.teamStats := by
  unfold CDemoRecorder.SetPlayerStats at h
  split at h
  · cases h1 : vectorResize r.playerStats (toSizeT (wrapInt (playerNum + 1)))
        L.playerDefault with
    | error e => simp [h1, bind, Except.bind] at h
    | ok ps =>
      simp only [h1, bind, Except.bind, pure, Except.pure] at h
      split at h
      · simp only [Except.ok.injEq] at h
        subst h
        exact ⟨rfl, rfl, rfl, rfl⟩
      · cases h
  · simp only [bind, Except.bind, pure, Except.pure] at h
    split at h
    · simp only [Except.ok.injEq] at h
      subst h
      exact ⟨rfl, rfl, rfl, rfl⟩
    · cases h

theorem SetTeamStats_frame {L : Layout} (r r1 : CDemoRecorder L) (teamNum : Int)
    (stats : List L.TeamStatistics)
    (h : CDemoRecorder.SetTeamStats r teamNum stats = Except.ok r1) :
    r1.isServerDemo = r.isServerDemo ∧ r1.fileHeader = r.fileHeader ∧
      r1.winningAllyTeams = r.winningAllyTeams ∧ r1.playerStats = r.playerStats ∧
      r1.teamStats.length = r.teamStats.length := by
  unfold CDemoRecorder.SetTeamStats at h
  split at h
  · cases h
  · split at h
    · cases h
    · simp only [pure, Except.pure, Except.ok.injEq] at h
      subst h
      exact ⟨rfl, rfl, rfl, rfl, by simp⟩

theorem SaveToDemo_inv {L : Layout} (g g1 : DemoStreams) (r r1 : CDemoRecorder L)
    (s : StringStream) (hs : g.get r.isServerDemo = some s) (buf : List Byte)
    (length t : Nat) (h : CDemoRecorder.SaveToDemo g r buf length t = Except.ok (g1, r1)) :
    length ≤ buf.length ∧
    g1 = g.set r.isServerDemo (some ((s.write (L.chunkBytes (L.swabChunk
          { modGameTime := t, length := length }))).write (buf.take length))) ∧
    r1 = { r with fileHeader := { r.fileHeader with demoStreamSize :=
          (wrapInt (r.fileHeader.demoStreamSize
            + (length + L.sizeofChunkHeader : Nat))) } } := by
  by_cases hl : length ≤ buf.length
  · rw [CDemoRecorder.SaveToDemo_ok_take g r s hs buf length t hl] at h
    simp only [Except.ok.injEq, Prod.mk.injEq] at h
    exact ⟨hl, h.1.symm, h.2.symm⟩
  · exfalso
    simp [CDemoRecorder.SaveToDemo, DemoStreams.deref_of_get g _ s hs, bind, Except.bind,
      Nat.lt_of_not_le hl] at h

theorem SetGameID_inv {L : Layout} (g g1 : DemoStreams) (r r1 : CDemoRecorder L)
    (s : StringStream) (hs : g.get r.isServerDemo = some s) (hp : s.pos ≤ s.buf.length)
    (buf : List Byte) (h : CDemoRecorder.SetGameID g r buf = Except.ok (g1, r1)) :
    L.sizeofGameID ≤ buf.length ∧
    g1 = g.set r.isServerDemo (some
        { buf := L.headerBytes (L.swabHeader
            { r.fileHeader with gameID := buf.take L.sizeofGameID, demoStreamSize := 0 })
              ++ s.buf.drop L.sizeofHeader,
          pos := s.pos % 2 ^ 32 }) ∧
    r1 = { r with fileHeader := { r.fileHeader with gameID := buf.take L.sizeofGameID } } := by
  by_cases hl : L.sizeofGameID ≤ buf.length
  · rw [CDemoRecorder.SetGameID_ok g r s hs hp buf hl] at h
    simp only [Except.ok.injEq, Prod.mk.injEq] at h
    exact ⟨hl, h.1.symm, h.2.symm⟩
  · exfalso
    simp [CDemoRecorder.SetGameID, Nat.lt_of_not_le hl] at h

theorem WriteSetupText_inv {L : Layout} (g g1 : DemoStreams) (r r1 : CDemoRecorder L)
    (s : StringStream) (hs : g.get r.isServerDemo = some s) (text : List Byte)
    (h : CDemoRecorder.WriteSetupText g r text = Except.ok (g1, r1)) :
    ∃ n, CDemoRecorder.WriteSetupText.trim text (wrapInt text.length).toNat = Except.ok n ∧
      g1 = g.set r.isServerDemo (some (s.write (text.take n))) ∧
      r1 = { r with fileHeader := { r.fileHeader with scriptSize := n } } := by
  by_cases hn : 0 ≤ wrapInt text.length
  · cases ht : CDemoRecorder.WriteSetupText.trim text (wrapInt text.length).toNat with
    | error e =>
      exfalso
      unfold CDemoRecorder.WriteSetupText at h
      simp only [if_neg (Int.not_lt.mpr hn)] at h
      simp only [ht] at h
      simp only [bind, Except.bind] at h
      cases h
    | ok n =>
      rw [CDemoRecorder.WriteSetupText_ok_wrap g r s hs text n hn ht] at h
      simp only [Except.ok.injEq, Prod.mk.injEq] at h
      exact ⟨n, rfl, h.1.symm, h.2.symm⟩
  · exfalso
    unfold CDemoRecorder.WriteSetupText at h
    simp only [if_pos (Int.not_le.mp hn)] at h
    cases h

theorem StringStream.write_length_le (s : StringStream) (d : List Byte)
    (h : s.pos ≤ s.buf.length) : s.buf.length ≤ (s.write d).buf.length := by
  rw [StringStream.write_buf_length s d h]
  exact Nat.le_max_left _ _

/-- In every reachable state the recorder's slot holds a stream whose cursor lies
within the buffer, and `fileHeader.demoStreamSize` is the byte count of the
batches recorded so far, narrowed to `int`. -/
theorem Reachable.inv {L : Layout} {E : Env} {g : DemoStreams} {r : CDemoRecorder L}
    {saved : List (Nat × List Byte)} (h : Reachable L E g r saved) :
    ∃ s, g.get r.isServerDemo = some s ∧ s.pos ≤ s.buf.length ∧
      r.fileHeader.demoStreamSize = wrapInt ((chunkRegion L saved).length : Nat) := by
  induction h with
  | ctor g0 mapName modName serverDemo g r hc =>
    rw [CDemoRecorder.ctor_ok] at hc
    simp only [Except.ok.injEq, Prod.mk.injEq] at hc
    obtain ⟨hg, hr⟩ := hc
    subst hg hr
    refine ⟨{ buf := L.headerBytes (L.swabHeader (CDemoRecorder.SetFileHeader.header L E))
        ++ (g0.content serverDemo).drop L.sizeofHeader, pos := L.sizeofHeader },
      by simp, ?_, ?_⟩
    · simp [L.headerBytes_length]
    · have h0 : (CDemoRecorder.SetFileHeader.header L E).demoStreamSize = 0 := by
        simp [CDemoRecorder.SetFileHeader.header, DemoFileHeader.zero]
      simp only [h0, chunkRegion, List.map_nil, List.flatten_nil, List.length_nil]
      exact (wrapInt_natCast 0 (by decide)).symm
  | writeSetupText g r saved text g1 r1 _ hop ih =>
    obtain ⟨s, hs, hp, hd⟩ := ih
    obtain ⟨n, _, hg1, hr1⟩ := WriteSetupText_inv g g1 r r1 s hs text hop
    subst hg1 hr1
    exact ⟨s.write (text.take n), by simp, StringStream.write_pos_le s _ hp, hd⟩
  | saveToDemo g r saved buf length t g1 r1 _ hop ih =>
    obtain ⟨s, hs, hp, hd⟩ := ih
    obtain ⟨hl, hg1, hr1⟩ := SaveToDemo_inv g g1 r r1 s hs buf length t hop
    subst hg1 hr1
    have hp1 := StringStream.write_pos_le s
      (L.chunkBytes (L.swabChunk { modGameTime := t, length := length })) hp
    refine ⟨(s.write (L.chunkBytes (L.swabChunk { modGameTime := t, length := length }))).write
      (buf.take length), by simp, StringStream.write_pos_le _ _ hp1, ?_⟩
    simp only [hd, chunkRegion_length, List.map_append, List.sum_append, List.map_cons,
      List.map_nil, List.sum_cons, List.sum_nil, List.length_take, Nat.min_eq_left hl]
    rw [wrapInt_add_left]
    congr 1
    push_cast
    ring
  | setGameID g r saved buf g1 r1 _ hop ih =>
    obtain ⟨s, hs, hp, hd⟩ := ih
    obtain ⟨hl, hg1, hr1⟩ := SetGameID_inv g g1 r r1 s hs hp buf hop
    subst hg1 hr1
    refine ⟨{ buf := L.headerBytes (L.swabHeader
        { r.fileHeader with gameID := buf.take L.sizeofGameID, demoStreamSize := 0 })
          ++ s.buf.drop L.sizeofHeader, pos := s.pos % 2 ^ 32 }, by simp, ?_, hd⟩
    have hle : s.pos % 2 ^ 32 ≤ s.pos := Nat.mod_le _ _
    simp [L.headerBytes_length]
    omega
  | setTime g r saved gameTime wallclockTime _ ih => exact ih
  | initializeStats g r saved numPlayers numTeams r1 _ _ _ hop ih =>
    obtain ⟨s, hs, hp, hd⟩ := ih
    obtain ⟨h1, h2, _⟩ := InitializeStats_frame r r1 numPlayers numTeams hop
    exact ⟨s, by rw [h1]; exact hs, hp, by rw [h2]; exact hd⟩
  | addNewPlayer g r saved name playerNum r1 _ hop ih =>
    obtain ⟨s, hs, hp, hd⟩ := ih
    obtain ⟨h1, h2, _⟩ := AddNewPlayer_frame r r1 name playerNum hop
    exact ⟨s, by rw [h1]; exact hs, hp, by rw [h2]; exact hd⟩
  | setPlayerStats g r saved playerNum stats r1 _ hop ih =>
    obtain ⟨s, hs, hp, hd⟩ := ih
    obtain ⟨h1, h2, _⟩ := SetPlayerStats_frame r r1 playerNum stats hop
    exact ⟨s, by rw [h1]; exact hs, hp, by rw [h2]; exact hd⟩
  | setTeamStats g r saved teamNum stats r1 _ hop ih =>
    obtain ⟨s, hs, hp, hd⟩ := ih
    obtain ⟨h1, h2, _⟩ := SetTeamStats_frame r r1 teamNum stats hop
    exact ⟨s, by rw [h1]; exact hs, hp, by rw [h2]; exact hd⟩
  | setWinningAllyTeams g r saved ids _ ih => exact ih

/-- While the stream of a reachable state is shorter than 2^32 bytes, no header
write has moved the cursor: it lies behind the header and behind the batches
recorded so far. -/
theorem Reachable.inv_lt {L : Layout} {E : Env} {g : DemoStreams} {r : CDemoRecorder L}
    {saved : List (Nat × List Byte)} (h : Reachable L E g r saved) :
    ∀ s, g.get r.isServerDemo = some s → s.buf.length < 2 ^ 32 →
      L.sizeofHeader + (chunkRegion L saved).length ≤ s.pos := by
  induction h with
  | ctor g0 mapName modName serverDemo g r hc =>
    intro s hs hlt
    rw [CDemoRecorder.ctor_ok] at hc
    simp only [Except.ok.injEq, Prod.mk.injEq] at hc
    obtain ⟨hg, hr⟩ := hc
    subst hg hr
    simp only [DemoStreams.get_set_same, Option.some.injEq] at hs
    subst hs
    simp [chunkRegion]
  | writeSetupText g r saved text g1 r1 hprev hop ih =>
    intro s1 hs1 hlt
    obtain ⟨s, hs, hp, _⟩ := hprev.inv
    obtain ⟨n, _, hg1, hr1⟩ := WriteSetupText_inv g g1 r r1 s hs text hop
    subst hg1 hr1
    simp only [DemoStreams.get_set_same, Option.some.injEq] at hs1
    subst hs1
    have hle := StringStream.write_length_le s (text.take n) hp
    have := ih s hs (by omega)
    simp only [StringStream.write_pos]
    omega
  | saveToDemo g r saved buf length t g1 r1 hprev hop ih =>
    intro s1 hs1 hlt
    obtain ⟨s, hs, hp, _⟩ := hprev.inv
    obtain ⟨hl, hg1, hr1⟩ := SaveToDemo_inv g g1 r r1 s hs buf length t hop
    subst hg1 hr1
    simp only [DemoStreams.get_set_same, Option.some.injEq] at hs1
    subst hs1
    have hp1 := StringStream.write_pos_le s
      (L.chunkBytes (L.swabChunk { modGameTime := t, length := length })) hp
    have hle1 := StringStream.write_length_le s
      (L.chunkBytes (L.swabChunk { modGameTime := t, length := length })) hp
    have hle2 := StringStream.write_length_le _ (buf.take length) hp1
    have := ih s hs (by omega)
    simp only [StringStream.write_pos, chunkRegion_length, List.map_append, List.sum_append,
      List.map_cons, List.map_nil, List.sum_cons, List.sum_nil, List.length_take,
      Nat.min_eq_left hl, L.chunkBytes_length] at this ⊢
    omega
  | setGameID g r saved buf g1 r1 hprev hop ih =>
    intro s1 hs1 hlt
    obtain ⟨s, hs, hp, _⟩ := hprev.inv
    obtain ⟨hl, hg1, hr1⟩ := SetGameID_inv g g1 r r1 s hs hp buf hop
    subst hg1 hr1
    simp only [DemoStreams.get_set_same, Option.some.injEq] at hs1
    subst hs1
    simp only [List.length_append, L.headerBytes_length, List.length_drop] at hlt
    have := ih s hs (by omega)
    have hmod : s.pos % 2 ^ 32 = s.pos := Nat.mod_eq_of_lt (by omega)
    simp only [hmod]
    exact this
  | setTime g r saved gameTime wallclockTime _ ih => exact ih
  | initializeStats g r saved numPlayers numTeams r1 _ _ _ hop ih =>
    intro s hs hlt
    obtain ⟨h1, _, _⟩ := InitializeStats_frame r r1 numPlayers numTeams hop
    exact ih s (by rw [← h1]; exact hs) hlt
  | addNewPlayer g r saved name playerNum r1 _ hop ih =>
    intro s hs hlt
    obtain ⟨h1, _, _⟩ := AddNewPlayer_frame r r1 name playerNum hop
    exact ih s (by rw [← h1]; exact hs) hlt
  | setPlayerStats g r saved playerNum stats r1 _ hop ih =>
    intro s hs hlt
    obtain ⟨h1, _, _⟩ := SetPlayerStats_frame r r1 playerNum stats hop
    exact ih s (by rw [← h1]; exact hs) hlt
  | setTeamStats g r saved teamNum stats r1 _ hop ih =>
    intro s hs hlt
    obtain ⟨h1, _, _⟩ := SetTeamStats_frame r r1 teamNum stats hop
    exact ih s (by rw [← h1]; exact hs) hlt
  | setWinningAllyTeams g r saved ids _ ih => exact ih

/-! ## C1 -/

/-- C1: on a recorder fresh from its constructor, a sequence of `SaveToDemo`
calls with payloads P1..Pn and times T1..Tn succeeds; the bytes it puts at the
cursor, from the position after the header up to the new cursor, are the
concatenation in call order of the byte-swapped chunk header
`{modGameTime = Ti, length = |Pi|}` followed by `Pi` (literally appended to the
stream when the slot held nothing before), the bytes before are untouched,
reading that region chunk by chunk gives back (T1,P1)..(Tn,Pn), and
`fileHeader.demoStreamSize` is the sum of `sizeof(DemoStreamChunkHeader) + |Pi|`.
The hypotheses are the typing of the calls and of the field: a `float` and an
`unsigned` length have 32 bits, and the sum is a value of the `int` field
`demoStreamSize` (below 2^31). -/
theorem C1_SaveToDemo_round_trip (L : Layout) (E : Env) (g0 : DemoStreams)
    (mapName modName : String) (serverDemo : Bool) (batches : List (Nat × List Byte))
    (hT : ∀ b ∈ batches, b.1 < 2 ^ 32 ∧ b.2.length < 2 ^ 32)
    (hS : (batches.map (fun b => L.sizeofChunkHeader + b.2.length)).sum < 2 ^ 31) :
    ∃ g1 r1 s1 g2 r2 s2,
      CDemoRecorder.ctor L E g0 mapName modName serverDemo = Except.ok (g1, r1) ∧
      g1.get serverDemo = some s1 ∧ s1.pos = L.sizeofHeader ∧
      saveAll g1 r1 batches = Except.ok (g2, r2) ∧
      g2.get serverDemo = some s2 ∧
      s2.pos = s1.pos + (chunkRegion L batches).length ∧
      s2.buf.take s1.pos = s1.buf.take s1.pos ∧
      (s2.buf.drop s1.pos).take (s2.pos - s1.pos) = chunkRegion L batches ∧
      (g0.get serverDemo = none → s2.buf = s1.buf ++ chunkRegion L batches) ∧
      parseRegion L ((s2.buf.drop s1.pos).take (s2.pos - s1.pos)) = batches ∧
      r2.fileHeader.demoStreamSize
        = ((batches.map (fun b => L.sizeofChunkHeader + b.2.length)).sum : Nat) := by
  have hc := CDemoRecorder.ctor_ok L E g0 mapName modName serverDemo
  obtain ⟨s1, hs1⟩ : ∃ s1 : StringStream, s1 =
      { buf := L.headerBytes (L.swabHeader (CDemoRecorder.SetFileHeader.header L E))
          ++ (g0.content serverDemo).drop L.sizeofHeader,
        pos := L.sizeofHeader } := ⟨_, rfl⟩
  rw [← hs1] at hc
  have hp1 : s1.pos ≤ s1.buf.length := by
    rw [hs1]
    simp [L.headerBytes_length]
  have hpos1 : s1.pos = L.sizeofHeader := by rw [hs1]
  obtain ⟨r1, hr1⟩ : ∃ r1 : CDemoRecorder L, r1 =
      { isServerDemo := serverDemo
        demoName := (CDemoRecorder.SetName E (CDemoRecorder.ctor.members L serverDemo)
          mapName modName).demoName
        file := E.gzopen (CDemoRecorder.SetName E (CDemoRecorder.ctor.members L serverDemo)
          mapName modName).demoName
        fileHeader := CDemoRecorder.SetFileHeader.header L E
        playerStats := []
        teamStats := []
        winningAllyTeams := [] } := ⟨_, rfl⟩
  rw [← hr1] at hc
  have hsd : r1.isServerDemo = serverDemo := by rw [hr1]
  have hd0 : r1.fileHeader.demoStreamSize = 0 := by rw [hr1]; rfl
  have hsave := saveAll_ok batches (g0.set serverDemo (some s1)) r1 s1
    (by rw [hsd]; simp) hp1 (by rw [hd0]; exact wrapInt_natCast 0 (by decide))
  have hlen : (s1.pos + (chunkRegion L batches).length) - s1.pos
      = (chunkRegion L batches).length := by omega
  refine ⟨_, r1, s1, _, _, s1.write (chunkRegion L batches), hc, by simp, hpos1, hsave,
    by rw [hsd]; simp, rfl, StringStream.write_take s1 _ hp1, ?_, ?_, ?_, ?_⟩
  · rw [StringStream.write_pos, hlen]
    exact StringStream.write_drop_take s1 _ hp1
  · intro hnone
    apply StringStream.write_at_end
    rw [hs1]
    simp [DemoStreams.content, hnone, L.headerBytes_length]
  · rw [StringStream.write_pos, hlen, StringStream.write_drop_take s1 _ hp1]
    exact parseChunks_region L batches hT _ (le_refl _)
  · simp only [hd0, zero_add]
    exact wrapInt_natCast _ hS

/-- C1 at a concrete input: the sample layout, a fresh client slot, the one batch
of the scenario (time 1.5, payload "CMD1"). -/
theorem C1_SaveToDemo_round_trip_witness :
    (∀ b ∈ [((0x3FC00000 : Nat), ([67, 77, 68, 49] : List Byte))],
        b.1 < 2 ^ 32 ∧ b.2.length < 2 ^ 32) ∧
    (([((0x3FC00000 : Nat), ([67, 77, 68, 49] : List Byte))].map
        (fun b => sampleLayout.sizeofChunkHeader + b.2.length)).sum < 2 ^ 31) ∧
    ∃ g1 r1 s1 g2 r2 s2,
      CDemoRecorder.ctor sampleLayout sampleEnv ⟨none, none⟩ "DesertMap" "mod" false
        = Except.ok (g1, r1) ∧
      g1.get false = some s1 ∧ s1.pos = sampleLayout.sizeofHeader ∧
      saveAll g1 r1 [(0x3FC00000, [67, 77, 68, 49])] = Except.ok (g2, r2) ∧
      g2.get false = some s2 ∧
      s2.pos = s1.pos + (chunkRegion sampleLayout [(0x3FC00000, [67, 77, 68, 49])]).length ∧
      s2.buf.take s1.pos = s1.buf.take s1.pos ∧
      (s2.buf.drop s1.pos).take (s2.pos - s1.pos)
        = chunkRegion sampleLayout [(0x3FC00000, [67, 77, 68, 49])] ∧
      ((⟨none, none⟩ : DemoStreams).get false = none →
        s2.buf = s1.buf ++ chunkRegion sampleLayout [(0x3FC00000, [67, 77, 68, 49])]) ∧
      parseRegion sampleLayout ((s2.buf.drop s1.pos).take (s2.pos - s1.pos))
        = [(0x3FC00000, [67, 77, 68, 49])] ∧
      r2.fileHeader.demoStreamSize
        = (([((0x3FC00000 : Nat), ([67, 77, 68, 49] : List Byte))].map
            (fun b => sampleLayout.sizeofChunkHeader + b.2.length)).sum : Nat) :=
  ⟨by decide, by decide,
    C1_SaveToDemo_round_trip sampleLayout sampleEnv ⟨none, none⟩ "DesertMap" "mod"
      false [(0x3FC00000, [67, 77, 68, 49])] (by decide) (by decide)⟩

/-! ## The sample recorder -/

theorem sample_ctor :
    CDemoRecorder.ctor sampleLayout sampleEnv ⟨none, none⟩ "DesertMap" "mod" false
      = Except.ok (sampleStreams, sampleRecorder) := by
  rw [CDemoRecorder.ctor_ok]
  simp [sampleStreams, sampleStream, sampleRecorder, DemoStreams.set, DemoStreams.content,
    DemoStreams.get]
  rfl

theorem sampleStreams_get : sampleStreams.get sampleRecorder.isServerDemo = some sampleStream :=
  rfl

theorem sampleStream_length : sampleStream.buf.length = 352 :=
  sampleLayout.headerBytes_length _

theorem sampleStream_pos : sampleStream.pos ≤ sampleStream.buf.length := by
  rw [sampleStream_length]
  exact Nat.le_refl 352

theorem sample_content_length :
    (sampleStreams.content sampleRecorder.isServerDemo).length = 352 :=
  sampleStream_length

theorem content_of_get (g : DemoStreams) (i : Bool) (s : StringStream)
    (hs : g.get i = some s) : g.content i = s.buf := by
  simp [DemoStreams.content, hs]

/-! ## C2 -/

/-- The scenario of the spec on any layout: construction on a slot without earlier
content, one batch, a winner list, the destructor, statistics never initialised.
The final header keeps the winner-list size set by `SetWinningAllyTeams` although
`WriteWinnerList` wrote nothing. -/
theorem scenario_numTeams_zero (L : Layout) (E : Env) (g0 : DemoStreams)
    (mapName modName : String) (serverDemo : Bool) (h0 : g0.get serverDemo = none)
    (p : List Byte) (t : Nat) (W : List Byte)
    (hp31 : p.length + L.sizeofChunkHeader < 2 ^ 31) (hW : W.length < 2 ^ 31) :
    ∃ g1 r1 g2 r2 g3 r3 job,
      CDemoRecorder.ctor L E g0 mapName modName serverDemo = Except.ok (g1, r1) ∧
      CDemoRecorder.SaveToDemo g1 r1 p p.length t = Except.ok (g2, r2) ∧
      CDemoRecorder.dtor g2 (CDemoRecorder.SetWinningAllyTeams r2 W)
        = Except.ok (g3, r3, job) ∧
      r3.fileHeader.headerSize = L.sizeofHeader ∧ r3.fileHeader.scriptSize = 0 ∧
      r3.fileHeader.demoStreamSize = ((p.length + L.sizeofChunkHeader : Nat) : Int) ∧
      r3.fileHeader.winningAllyTeamsSize = W.length ∧
      r3.fileHeader.playerStatSize = 0 ∧ r3.fileHeader.teamStatSize = 0 ∧
      job.data.length = L.sizeofHeader + L.sizeofChunkHeader + p.length := by
  have hc := CDemoRecorder.ctor_ok L E g0 mapName modName serverDemo
  have hcont : g0.content serverDemo = [] := by simp [DemoStreams.content, h0]
  rw [hcont] at hc
  obtain ⟨s1, hs1⟩ : ∃ s1 : StringStream, s1 =
      { buf := L.headerBytes (L.swabHeader (CDemoRecorder.SetFileHeader.header L E))
          ++ ([] : List Byte).drop L.sizeofHeader,
        pos := L.sizeofHeader } := ⟨_, rfl⟩
  rw [← hs1] at hc
  have hb1 : s1.buf.length = L.sizeofHeader := by rw [hs1]; simp [L.headerBytes_length]
  have hq1 : s1.pos = L.sizeofHeader := by rw [hs1]
  obtain ⟨r1, hr1⟩ : ∃ r1 : CDemoRecorder L, r1 =
      { isServerDemo := serverDemo
        demoName := (CDemoRecorder.SetName E (CDemoRecorder.ctor.members L serverDemo)
          mapName modName).demoName
        file := E.gzopen (CDemoRecorder.SetName E (CDemoRecorder.ctor.members L serverDemo)
          mapName modName).demoName
        fileHeader := CDemoRecorder.SetFileHeader.header L E
        playerStats := []
        teamStats := []
        winningAllyTeams := [] } := ⟨_, rfl⟩
  rw [← hr1] at hc
  have hsd : r1.isServerDemo = serverDemo := by rw [hr1]
  have hfh : r1.fileHeader = CDemoRecorder.SetFileHeader.header L E := by rw [hr1]
  have hps : r1.playerStats = [] := by rw [hr1]
  have hts : r1.teamStats = [] := by rw [hr1]
  obtain ⟨s2, hs2⟩ : ∃ s2 : StringStream, s2 = (s1.write (L.chunkBytes (L.swabChunk
      { modGameTime := t, length := p.length }))).write p := ⟨_, rfl⟩
  have hsv := CDemoRecorder.SaveToDemo_ok (g0.set serverDemo (some s1)) r1 s1
    (by rw [hsd]; simp) p t
  rw [← hs2] at hsv
  have hb2 : s2.buf.length = L.sizeofHeader + L.sizeofChunkHeader + p.length := by
    rw [hs2, StringStream.write_write _ _ _ (by omega),
      StringStream.write_at_end _ _ (by omega)]
    simp [hb1, L.chunkBytes_length]
    omega
  have hq2 : s2.pos = s2.buf.length := by
    rw [hb2, hs2]
    simp [hq1, L.chunkBytes_length]
  obtain ⟨r2, hr2⟩ : ∃ r2 : CDemoRecorder L, r2 = CDemoRecorder.SetWinningAllyTeams
      { r1 with fileHeader := { r1.fileHeader with demoStreamSize :=
          (wrapInt (r1.fileHeader.demoStreamSize
            + (p.length + L.sizeofChunkHeader : Nat))) } } W := ⟨_, rfl⟩
  have hsd2 : r2.isServerDemo = r1.isServerDemo := by rw [hr2]; rfl
  have hnt : r2.fileHeader.numTeams = 0 := by
    rw [hr2]
    simp only [CDemoRecorder.SetWinningAllyTeams, hfh]
    rfl
  have hd := CDemoRecorder.dtor_ok
    ((g0.set serverDemo (some s1)).set r1.isServerDemo (some s2)) r2 s2
    (by rw [hsd2]; simp) (le_of_eq hq2)
  have h1 : r2.playerStats = [] := by rw [hr2]; exact hps
  have h2 : r2.teamStats = [] := by rw [hr2]; exact hts
  have hsec : statsSections r2 = [] := by
    simp [statsSections, winnerSection, hnt, h1, h2, playerSection, teamCounts, teamRecords]
  have f1 : (afterPasses r2).fileHeader.headerSize = L.sizeofHeader := by
    rw [hr2]
    simp only [afterPasses, CDemoRecorder.SetWinningAllyTeams, hfh]
    rfl
  have f2 : (afterPasses r2).fileHeader.scriptSize = 0 := by
    rw [hr2]
    simp only [afterPasses, CDemoRecorder.SetWinningAllyTeams, hfh]
    rfl
  have f3 : (afterPasses r2).fileHeader.demoStreamSize
      = ((p.length + L.sizeofChunkHeader : Nat) : Int) := by
    have hz : (CDemoRecorder.SetFileHeader.header L E).demoStreamSize = 0 := by
      simp [CDemoRecorder.SetFileHeader.header, DemoFileHeader.zero]
    rw [hr2]
    simp only [afterPasses, CDemoRecorder.SetWinningAllyTeams, hfh, hz, zero_add]
    exact wrapInt_natCast _ hp31
  have f4 : (afterPasses r2).fileHeader.winningAllyTeamsSize = W.length := by
    simp only [afterPasses, hnt, if_true]
    rw [hr2]
    simp only [CDemoRecorder.SetWinningAllyTeams, Nat.mul_one]
    exact wrapInt_natCast _ hW
  have f5 : (afterPasses r2).fileHeader.playerStatSize = 0 := by
    simp only [afterPasses, h1, playerSection, List.map_nil, List.flatten_nil, List.length_nil]
    exact wrapInt_natCast 0 (by decide)
  have f6 : (afterPasses r2).fileHeader.teamStatSize = 0 := by
    simp only [afterPasses, h2, teamCounts, teamRecords, List.map_nil, List.flatten_nil,
      List.append_nil, List.length_nil]
    exact wrapInt_natCast 0 (by decide)
  have f7 : (L.headerBytes (L.swabHeader (afterPasses r2).fileHeader)
      ++ (s2.write (statsSections r2)).buf.drop L.sizeofHeader).length
        = L.sizeofHeader + L.sizeofChunkHeader + p.length := by
    rw [hsec, StringStream.write_nil s2 (le_of_eq hq2)]
    simp [L.headerBytes_length, hb2]
    omega
  subst hr2
  exact ⟨_, _, _, _, _, _, _, hc, hsv, hd, f1, f2, f3, f4, f5, f6, f7⟩

/-- C2 (failing input): the scenario of the spec on the sample layout. A client
recorder is constructed on fresh slots, one batch (time 1.5, payload "CMD1") is
saved, the winner list `[2]` is set and the destructor runs; statistics were
never initialised, so `numTeams == 0`. `WriteWinnerList` returns early and
writes no winner byte, but the final header keeps `winningAllyTeamsSize == 1`
from `SetWinningAllyTeams`: the six sizes of the final header add up to 365,
while the image handed to the writer has 364 bytes. The player-stats section
therefore does not start `winningAllyTeamsSize` bytes after the winner-list
offset, and the image does not end where the header sizes say. -/
theorem C2_sections_numTeams_zero :
    ∃ g1 r1 g2 r2 g3 r3 job,
      CDemoRecorder.ctor sampleLayout sampleEnv ⟨none, none⟩ "DesertMap" "mod" false
        = Except.ok (g1, r1) ∧
      CDemoRecorder.SaveToDemo g1 r1 [67, 77, 68, 49] 4 0x3FC00000 = Except.ok (g2, r2) ∧
      CDemoRecorder.dtor g2 (CDemoRecorder.SetWinningAllyTeams r2 [2])
        = Except.ok (g3, r3, job) ∧
      r3.fileHeader.headerSize = 352 ∧ r3.fileHeader.scriptSize = 0 ∧
      r3.fileHeader.demoStreamSize = 12 ∧ r3.fileHeader.winningAllyTeamsSize = 1 ∧
      r3.fileHeader.playerStatSize = 0 ∧ r3.fileHeader.teamStatSize = 0 ∧
      job.data.length = 364 ∧
      r3.fileHeader.headerSize + r3.fileHeader.scriptSize + r3.fileHeader.demoStreamSize
          + r3.fileHeader.winningAllyTeamsSize + r3.fileHeader.playerStatSize
          + r3.fileHeader.teamStatSize ≠ (job.data.length : Int) := by
  obtain ⟨g1, r1, g2, r2, g3, r3, job, h1, h2, h3, h4, h5, h6, h7, h8, h9, h10⟩ :=
    scenario_numTeams_zero sampleLayout sampleEnv ⟨none, none⟩ "DesertMap" "mod" false rfl
      [67, 77, 68, 49] 0x3FC00000 [2] (by decide) (by decide)
  refine ⟨g1, r1, g2, r2, g3, r3, job, h1, h2, h3, h4, h5, h6, h7, h8, h9, h10, ?_⟩
  rw [h4, h5, h6, h7, h8, h9, h10]
  decide

/-! ## C3 -/

theorem setGameIDs_ok {L : Layout} (front : List (List Byte)) (gk : List Byte) :
    ∀ (g : DemoStreams) (r : CDemoRecorder L) (s : StringStream),
      g.get r.isServerDemo = some s → s.pos ≤ s.buf.length → L.sizeofHeader ≤ s.buf.length →
      s.pos < 2 ^ 32 →
      (∀ gid ∈ front ++ [gk], L.sizeofGameID ≤ gid.length) →
      setGameIDs g r (front ++ [gk]) = Except.ok
        (g.set r.isServerDemo (some
          { buf := L.headerBytes (L.swabHeader
              { r.fileHeader with gameID := gk.take L.sizeofGameID, demoStreamSize := 0 })
                ++ s.buf.drop L.sizeofHeader,
            pos := s.pos }),
         { r with fileHeader := { r.fileHeader with gameID := gk.take L.sizeofGameID } }) := by
  induction front with
  | nil =>
    intro g r s hs hp _ h32 hlen
    have h1 := CDemoRecorder.SetGameID_ok g r s hs hp gk (hlen gk (by simp))
    rw [Nat.mod_eq_of_lt h32] at h1
    simp only [List.nil_append, setGameIDs, h1, bind, Except.bind, pure, Except.pure]
  | cons gid rest ih =>
    intro g r s hs hp hH h32 hlen
    have h1 := CDemoRecorder.SetGameID_ok g r s hs hp gid (hlen gid (by simp))
    rw [Nat.mod_eq_of_lt h32] at h1
    have hlen2 : ∀ x ∈ rest ++ [gk], L.sizeofGameID ≤ x.length :=
      fun x hx => hlen x (by simp only [List.cons_append, List.mem_cons]; exact Or.inr hx)
    have hdrop : ∀ h : DemoFileHeader,
        (L.headerBytes (L.swabHeader h) ++ s.buf.drop L.sizeofHeader).drop L.sizeofHeader
          = s.buf.drop L.sizeofHeader :=
      fun h => List.drop_left' (L.headerBytes_length _)
    have h2 := ih
      (g.set r.isServerDemo (some
        { buf := L.headerBytes (L.swabHeader
            { r.fileHeader with gameID := gid.take L.sizeofGameID, demoStreamSize := 0 })
              ++ s.buf.drop L.sizeofHeader,
          pos := s.pos }))
      { r with fileHeader := { r.fileHeader with gameID := gid.take L.sizeofGameID } }
      { buf := L.headerBytes (L.swabHeader
            { r.fileHeader with gameID := gid.take L.sizeofGameID, demoStreamSize := 0 })
              ++ s.buf.drop L.sizeofHeader,
        pos := s.pos }
      (by simp)
      (by simp [L.headerBytes_length]; omega)
      (by simp [L.headerBytes_length])
      h32
      hlen2
    simp only [hdrop, DemoStreams.set_set] at h2
    simp only [List.cons_append, setGameIDs, h1, bind, Except.bind]
    exact h2

/-- C3: in every state reached after construction whose stream is shorter than
2^32 bytes (the cursor is held in an `unsigned int`), a sequence of `SetGameID`
calls with identifiers g1..gk (k >= 1, each of the 16 bytes of
`sizeof(fileHeader.gameID)`) succeeds; afterwards a reader of the header region at
offset 0 finds `gameID == gk`, every byte at an offset at or after
`sizeof(DemoFileHeader)` is unchanged, the stream length is unchanged and the
write cursor is where it was before the calls. -/
theorem C3_SetGameID_header_patch (L : Layout) (E : Env) (g : DemoStreams)
    (r : CDemoRecorder L) (saved : List (Nat × List Byte)) (hR : Reachable L E g r saved)
    (hlt : (g.content r.isServerDemo).length < 2 ^ 32)
    (front : List (List Byte)) (gk : List Byte)
    (hlen : ∀ gid ∈ front ++ [gk], gid.length = L.sizeofGameID) :
    ∃ s g1 r1 s1,
      g.get r.isServerDemo = some s ∧
      setGameIDs g r (front ++ [gk]) = Except.ok (g1, r1) ∧
      g1.get r.isServerDemo = some s1 ∧
      L.readGameID (s1.buf.take L.sizeofHeader) = gk ∧
      s1.buf.drop L.sizeofHeader = s.buf.drop L.sizeofHeader ∧
      s1.buf.length = s.buf.length ∧
      s1.pos = s.pos := by
  obtain ⟨s, hs, hp, _⟩ := hR.inv
  rw [content_of_get g _ s hs] at hlt
  have hh := hR.inv_lt s hs hlt
  have hH : L.sizeofHeader ≤ s.buf.length := by omega
  have hk : gk.take L.sizeofGameID = gk :=
    List.take_of_length_le (le_of_eq (hlen gk (by simp)))
  have hok := setGameIDs_ok front gk g r s hs hp hH (by omega)
    (fun x hx => le_of_eq (hlen x hx).symm)
  rw [hk] at hok
  refine ⟨s, _, _,
    { buf := L.headerBytes (L.swabHeader { r.fileHeader with gameID := gk, demoStreamSize := 0 })
        ++ s.buf.drop L.sizeofHeader, pos := s.pos }, hs, hok, by simp, ?_, ?_, ?_, rfl⟩
  · simp only []
    rw [List.take_left' (L.headerBytes_length _)]
    exact L.readGameID_swab _ (hlen gk (by simp))
  · exact List.drop_left' (L.headerBytes_length _)
  · simp [L.headerBytes_length]
    omega

/-- C3 at a concrete input: a client recorder fresh from its constructor on the
sample layout (a stream of 352 bytes), then `SetGameID` with sixteen bytes 1 and
with sixteen bytes 2. -/
theorem C3_SetGameID_header_patch_witness :
    CDemoRecorder.ctor sampleLayout sampleEnv ⟨none, none⟩ "DesertMap" "mod" false
      = Except.ok (sampleStreams, sampleRecorder) ∧
    (sampleStreams.content sampleRecorder.isServerDemo).length < 2 ^ 32 ∧
    (∀ gid ∈ [List.replicate 16 (1 : Byte)] ++ [List.replicate 16 (2 : Byte)],
      gid.length = sampleLayout.sizeofGameID) ∧
    ∃ s g1 r1 s1,
      sampleStreams.get sampleRecorder.isServerDemo = some s ∧
      setGameIDs sampleStreams sampleRecorder
          ([List.replicate 16 (1 : Byte)] ++ [List.replicate 16 (2 : Byte)])
        = Except.ok (g1, r1) ∧
      g1.get sampleRecorder.isServerDemo = some s1 ∧
      sampleLayout.readGameID (s1.buf.take sampleLayout.sizeofHeader)
        = List.replicate 16 (2 : Byte) ∧
      s1.buf.drop sampleLayout.sizeofHeader = s.buf.drop sampleLayout.sizeofHeader ∧
      s1.buf.length = s.buf.length ∧
      s1.pos = s.pos :=
  ⟨sample_ctor, by rw [sample_content_length]; decide, by decide,
    C3_SetGameID_header_patch sampleLayout sampleEnv sampleStreams sampleRecorder []
      (Reachable.ctor ⟨none, none⟩ "DesertMap" "mod" false _ _ sample_ctor)
      (by rw [sample_content_length]; decide)
      [List.replicate 16 (1 : Byte)] (List.replicate 16 (2 : Byte)) (by decide)⟩

/-! ## C4 -/

theorem toSizeT_natCast (m : Nat) (h : m < 2 ^ 64) : toSizeT (m : Int) = m := by
  unfold toSizeT
  omega

theorem toUnsigned_natCast (m : Nat) (h : m < 2 ^ 32) : toUnsigned (m : Int) = m := by
  unfold toUnsigned
  omega

theorem SetPlayerStats_grow {L : Layout} (r : CDemoRecorder L) (m : Nat)
    (stats : L.PlayerStatistics) (hm : m + 1 < 2 ^ 31) (hfew : r.playerStats.length ≤ m) :
    CDemoRecorder.SetPlayerStats r (m : Int) stats = Except.ok
      { r with playerStats := (List.set
          (r.playerStats ++ List.replicate (m + 1 - r.playerStats.length) L.playerDefault)
          m stats) } := by
  have h1 : toSizeT (m : Int) = m := toSizeT_natCast m (by omega)
  have h2 : toSizeT (wrapInt ((m : Int) + 1)) = m + 1 := by
    have hw := wrapInt_natCast (m + 1) hm
    have := toSizeT_natCast (m + 1) (by omega)
    push_cast at this hw
    rw [hw]
    exact this
  have h3 : ¬ (vectorMaxSize < m + 1) := by
    unfold vectorMaxSize
    omega
  have h4 : r.playerStats.take (m + 1) = r.playerStats := List.take_of_length_le (by omega)
  simp only [CDemoRecorder.SetPlayerStats, h1, h2, ge_iff_le, hfew, if_true, vectorResize, h3,
    if_false, bind, Except.bind, pure, Except.pure, h4]
  rw [if_pos (by simp; omega)]

/-- C4: for an index m >= 0 and a recorder with a live stream whose `playerStats`
holds fewer than m+1 entries, `SetPlayerStats(m, s)` followed by
`WritePlayerStats` succeeds and writes at the cursor exactly the m+1 byte-swapped
records of a list `recs` in which the entries recorded before are unchanged, the
entries that were absent below m are value-initialised and entry m is `s`;
afterwards `numPlayers == m+1` and
`playerStatSize == (m+1) * sizeof(PlayerStatistics)`. The hypotheses are the
typing of the values: m+1, computed in `int`, is below 2^31, and so is the cursor
behind the section, which the pass narrows to `int` to compute the section
size. -/
theorem C4_late_player_statistics (L : Layout) (g : DemoStreams) (r : CDemoRecorder L)
    (s : StringStream) (m : Nat) (stats : L.PlayerStatistics)
    (hs : g.get r.isServerDemo = some s) (hp : s.pos ≤ s.buf.length)
    (hm : m + 1 < 2 ^ 31) (hsz : s.pos + (m + 1) * L.sizeofPlayerStatistics < 2 ^ 31)
    (hfew : r.playerStats.length < m + 1) :
    ∃ r1 g2 r2 recs,
      CDemoRecorder.SetPlayerStats r (m : Int) stats = Except.ok r1 ∧
      CDemoRecorder.WritePlayerStats g r1 = Except.ok (g2, r2) ∧
      r1.playerStats = recs ∧
      recs.length = m + 1 ∧
      (∀ i, i < r.playerStats.length → recs[i]? = r.playerStats[i]?) ∧
      (∀ i, r.playerStats.length ≤ i → i < m → recs[i]? = some L.playerDefault) ∧
      recs[m]? = some stats ∧
      g2.get r.isServerDemo = some (s.write (playerSection L recs)) ∧
      (playerSection L recs).length = (m + 1) * L.sizeofPlayerStatistics ∧
      r2.fileHeader.numPlayers = ((m + 1 : Nat) : Int) ∧
      r2.fileHeader.playerStatSize = (((m + 1) * L.sizeofPlayerStatistics : Nat) : Int) := by
  have hle : r.playerStats.length ≤ m := by omega
  have h1 := SetPlayerStats_grow r m stats hm hle
  obtain ⟨recs, hrecs⟩ : ∃ recs : List L.PlayerStatistics, recs = List.set
      (r.playerStats ++ List.replicate (m + 1 - r.playerStats.length) L.playerDefault)
      m stats := ⟨_, rfl⟩
  rw [← hrecs] at h1
  have hlen : recs.length = m + 1 := by
    rw [hrecs]
    simp
    omega
  have h2 := CDemoRecorder.WritePlayerStats_ok g { r with playerStats := recs } s hs hp
  refine ⟨_, _, _, recs, h1, h2, rfl, hlen, ?_, ?_, ?_, by simp, ?_, ?_, ?_⟩
  · intro i hi
    rw [hrecs, List.getElem?_set_ne (by omega), List.getElem?_append_left hi]
  · intro i hi1 hi2
    rw [hrecs, List.getElem?_set_ne (by omega), List.getElem?_append_right hi1]
    rw [List.getElem?_replicate]
    rw [if_pos (by omega)]
  · rw [hrecs, List.getElem?_set_self]
    simp
    omega
  · rw [CDemoRecorder.playerSection_length, hlen]
  · simp only [hlen]
    exact wrapInt_natCast _ hm
  · simp only [CDemoRecorder.playerSection_length, hlen]
    exact wrapInt_natCast _ (Nat.lt_of_le_of_lt (Nat.le_add_left _ _) hsz)

/-- C4 at a concrete input: index 5 on a client recorder of the sample layout
fresh from its constructor, which has no player entry yet. The section gets 6
records and `numPlayers == 6`. -/
theorem C4_late_player_statistics_witness :
    ∃ g r s,
      CDemoRecorder.ctor sampleLayout sampleEnv ⟨none, none⟩ "DesertMap" "mod" false
        = Except.ok (g, r) ∧
      g.get r.isServerDemo = some s ∧ s.pos ≤ s.buf.length ∧
      5 + 1 < 2 ^ 31 ∧ s.pos + (5 + 1) * sampleLayout.sizeofPlayerStatistics < 2 ^ 31 ∧
      r.playerStats.length < 5 + 1 ∧
      ∃ r1 g2 r2 recs,
        CDemoRecorder.SetPlayerStats r ((5 : Nat) : Int) ({ counter := 7 } : SampleStatistics)
          = Except.ok r1 ∧
        CDemoRecorder.WritePlayerStats g r1 = Except.ok (g2, r2) ∧
        r1.playerStats = recs ∧
        recs.length = 5 + 1 ∧
        (∀ i, i < r.playerStats.length → recs[i]? = r.playerStats[i]?) ∧
        (∀ i, r.playerStats.length ≤ i → i < 5 → recs[i]? = some sampleLayout.playerDefault) ∧
        recs[5]? = some ({ counter := 7 } : SampleStatistics) ∧
        g2.get r.isServerDemo = some (s.write (playerSection sampleLayout recs)) ∧
        (playerSection sampleLayout recs).length
          = (5 + 1) * sampleLayout.sizeofPlayerStatistics ∧
        r2.fileHeader.numPlayers = ((5 + 1 : Nat) : Int) ∧
        r2.fileHeader.playerStatSize
          = (((5 + 1) * sampleLayout.sizeofPlayerStatistics : Nat) : Int) :=
  ⟨_, _, _, CDemoRecorder.ctor_ok sampleLayout sampleEnv ⟨none, none⟩ "DesertMap" "mod" false,
    DemoStreams.get_set_same _ _ _,
    by simp [sampleLayout.headerBytes_length],
    by decide, by decide, by decide,
    C4_late_player_statistics sampleLayout _ _ _ 5 { counter := 7 }
      (DemoStreams.get_set_same _ _ _) (by simp [sampleLayout.headerBytes_length])
      (by decide) (by decide) (by decide)⟩

/-! ## C5 -/

/-- C5 (counterexample): on a client recorder of the sample layout fresh from its
constructor (statistics never initialised, `numTeams == 0`),
`SetWinningAllyTeams([2])` followed by `WriteWinnerList` leaves the stream as it
was: not one byte longer, the cursor not moved, so the byte 0x02 is not written,
while the header's `winningAllyTeamsSize` is 1. -/
theorem C5_numTeams_zero_writes_nothing :
    ∃ g r s g1 r1 s1,
      CDemoRecorder.ctor sampleLayout sampleEnv ⟨none, none⟩ "DesertMap" "mod" false
        = Except.ok (g, r) ∧
      g.get r.isServerDemo = some s ∧
      CDemoRecorder.WriteWinnerList g (CDemoRecorder.SetWinningAllyTeams r [2])
        = Except.ok (g1, r1) ∧
      g1.get r.isServerDemo = some s1 ∧
      s1 = s ∧ s1 ≠ s.write [2] ∧ s1.buf.length = s.buf.length ∧
      r1.fileHeader.winningAllyTeamsSize = 1 :=
  ⟨_, _, _, _, _, _,
    CDemoRecorder.ctor_ok sampleLayout sampleEnv ⟨none, none⟩ "DesertMap" "mod" false,
    DemoStreams.get_set_same _ _ _,
    CDemoRecorder.WriteWinnerList_skip _ _ rfl,
    DemoStreams.get_set_same _ _ _,
    rfl,
    fun h => by
      have := congrArg StringStream.pos h
      simp at this,
    rfl, rfl⟩

/-- C5 (amended): for every recorder with a live stream and every id sequence W
that ends below offset 2^31 when written at the cursor (the pass narrows the
cursor to `int` and stores the difference in the `int` field
`winningAllyTeamsSize`), if `numTeams != 0` then `SetWinningAllyTeams(W)` followed by `WriteWinnerList`
succeeds and writes exactly the bytes of W in order at the current cursor (the
cursor advances by |W|), and the header's `winningAllyTeamsSize` equals |W|; if
`numTeams == 0` the pass returns early and leaves streams and recorder as they
are. -/
theorem C5_winner_list (L : Layout) (g : DemoStreams) (r : CDemoRecorder L)
    (s : StringStream) (W : List Byte)
    (hs : g.get r.isServerDemo = some s) (hp : s.pos ≤ s.buf.length)
    (hW : s.pos + W.length < 2 ^ 31) :
    (r.fileHeader.numTeams ≠ 0 →
      ∃ g1 r1 s1,
        CDemoRecorder.WriteWinnerList g (CDemoRecorder.SetWinningAllyTeams r W)
          = Except.ok (g1, r1) ∧
        g1.get r.isServerDemo = some s1 ∧
        s1 = s.write W ∧
        s1.buf.take s.pos = s.buf.take s.pos ∧
        (s1.buf.drop s.pos).take W.length = W ∧
        s1.pos = s.pos + W.length ∧
        r1.fileHeader.winningAllyTeamsSize = W.length) ∧
    (r.fileHeader.numTeams = 0 →
      CDemoRecorder.WriteWinnerList g (CDemoRecorder.SetWinningAllyTeams r W)
        = Except.ok (g, CDemoRecorder.SetWinningAllyTeams r W)) := by
  constructor
  · intro h0
    have h1 := CDemoRecorder.WriteWinnerList_ok g (CDemoRecorder.SetWinningAllyTeams r W) s
      hs hp h0
    exact ⟨_, _, s.write W, h1, by simp [CDemoRecorder.SetWinningAllyTeams],
      rfl, StringStream.write_take s W hp, StringStream.write_drop_take s W hp, rfl,
      wrapInt_natCast _ (Nat.lt_of_le_of_lt (Nat.le_add_left _ _) hW)⟩
  · intro h0
    exact CDemoRecorder.WriteWinnerList_skip g _ h0

/-- C5 (amended) at a concrete input: the recorder that construction leaves on
the sample layout, with `numTeams` set to 2, and W = [2]. The winner section is
the single byte 0x02. -/
theorem C5_winner_list_witness :
    (sampleStreams.get ({ sampleRecorder with fileHeader :=
        { sampleRecorder.fileHeader with numTeams := 2 } } :
          CDemoRecorder sampleLayout).isServerDemo = some sampleStream ∧
      sampleStream.pos ≤ sampleStream.buf.length ∧
      ({ sampleRecorder with fileHeader :=
        { sampleRecorder.fileHeader with numTeams := 2 } } :
          CDemoRecorder sampleLayout).fileHeader.numTeams ≠ 0 ∧
      sampleStream.pos + ([2] : List Byte).length < 2 ^ 31) ∧
    ∃ g1 r1 s1,
      CDemoRecorder.WriteWinnerList sampleStreams
          (CDemoRecorder.SetWinningAllyTeams
            ({ sampleRecorder with fileHeader :=
                { sampleRecorder.fileHeader with numTeams := 2 } } :
              CDemoRecorder sampleLayout) [2])
        = Except.ok (g1, r1) ∧
      g1.get false = some s1 ∧
      s1 = sampleStream.write [2] ∧
      s1.buf.take sampleStream.pos = sampleStream.buf.take sampleStream.pos ∧
      (s1.buf.drop sampleStream.pos).take 1 = [2] ∧
      s1.pos = sampleStream.pos + 1 ∧
      r1.fileHeader.winningAllyTeamsSize = 1 :=
  ⟨⟨rfl, sampleStream_pos, by decide, by decide⟩,
    (C5_winner_list sampleLayout sampleStreams
      { sampleRecorder with fileHeader := { sampleRecorder.fileHeader with numTeams := 2 } }
      sampleStream [2] rfl sampleStream_pos (by decide)).1 (by decide)⟩

/-! ## C6 -/

theorem teamCounts_of_lt (L : Layout) (ts : List (List L.TeamStatistics))
    (h : ∀ history ∈ ts, history.length < 2 ^ 32) :
    teamCounts L ts
      = (ts.map (fun history => L.dwordBytes (L.swabDWord history.length))).flatten := by
  unfold teamCounts
  congr 1
  apply List.map_congr_left
  intro history hmem
  rw [Nat.mod_eq_of_lt (h history hmem)]

/-- C6: for every recorder with a live stream and every `teamStats` state with T
team histories of lengths L0..L(T-1), `WriteTeamStats` succeeds and writes at the
cursor first the T byte-swapped 32-bit counts (`teamCounts`, 4*T bytes, the i-th
the count Li, every Li being a value of `unsigned int`), then the byte-swapped
records of team 0, team 1, ... in team order
and history order (`teamRecords`), and sets
`teamStatSize == 4*T + sizeof(TeamStatistics) * (L0 + ... + L(T-1))`. The
hypothesis is the typing of the values: the section ends below offset 2^31 (the
pass narrows the cursor to `int` and stores the difference in the `int` field
`teamStatSize`). -/
theorem C6_WriteTeamStats (L : Layout) (g : DemoStreams) (r : CDemoRecorder L)
    (s : StringStream) (hs : g.get r.isServerDemo = some s) (hp : s.pos ≤ s.buf.length)
    (hsz : s.pos + (4 * r.teamStats.length
      + L.sizeofTeamStatistics * (r.teamStats.map List.length).sum) < 2 ^ 31) :
    ∃ g1 r1 s1,
      CDemoRecorder.WriteTeamStats g r = Except.ok (g1, r1) ∧
      g1.get r.isServerDemo = some s1 ∧
      s1 = s.write (teamCounts L r.teamStats ++ teamRecords L r.teamStats) ∧
      s1.buf.take s.pos = s.buf.take s.pos ∧
      (s1.buf.drop s.pos).take (4 * r.teamStats.length) = teamCounts L r.teamStats ∧
      ((s1.buf.drop s.pos).drop (4 * r.teamStats.length)).take
          (L.sizeofTeamStatistics * (r.teamStats.map List.length).sum)
        = teamRecords L r.teamStats ∧
      s1.pos = s.pos + (4 * r.teamStats.length
        + L.sizeofTeamStatistics * (r.teamStats.map List.length).sum) ∧
      r1.fileHeader.teamStatSize = ((4 * r.teamStats.length
        + L.sizeofTeamStatistics * (r.teamStats.map List.length).sum : Nat) : Int) ∧
      ((∀ history ∈ r.teamStats, history.length < 2 ^ 32) →
        teamCounts L r.teamStats = (r.teamStats.map
          (fun history => L.dwordBytes (L.swabDWord history.length))).flatten) := by
  have h1 := CDemoRecorder.WriteTeamStats_ok g r s hs hp
  have hc := CDemoRecorder.teamCounts_length L r.teamStats
  have hr := CDemoRecorder.teamRecords_length L r.teamStats
  have hd := StringStream.write_drop_take s
    (teamCounts L r.teamStats ++ teamRecords L r.teamStats) hp
  have hsplit : ∀ (l : List Byte), l.take (teamCounts L r.teamStats
      ++ teamRecords L r.teamStats).length
        = teamCounts L r.teamStats ++ teamRecords L r.teamStats →
      l.take (4 * r.teamStats.length) = teamCounts L r.teamStats ∧
      (l.drop (4 * r.teamStats.length)).take
        (L.sizeofTeamStatistics * (r.teamStats.map List.length).sum)
          = teamRecords L r.teamStats := by
    intro l hl
    have ht : l.take (4 * r.teamStats.length)
        = (l.take (teamCounts L r.teamStats ++ teamRecords L r.teamStats).length).take
            (4 * r.teamStats.length) := by
      rw [List.take_take, List.length_append, hc]
      congr 1
      omega
    have hdd : (l.drop (4 * r.teamStats.length)).take
        (L.sizeofTeamStatistics * (r.teamStats.map List.length).sum)
          = (l.take (teamCounts L r.teamStats ++ teamRecords L r.teamStats).length).drop
              (4 * r.teamStats.length) := by
      rw [List.drop_take, List.length_append, hc, hr]
      congr 1
      omega
    rw [ht, hdd, hl]
    exact ⟨List.take_left' hc, List.drop_left' hc⟩
  obtain ⟨hA, hB⟩ := hsplit _ hd
  refine ⟨_, _, s.write (teamCounts L r.teamStats ++ teamRecords L r.teamStats), h1,
    by simp, rfl, StringStream.write_take s _ hp, hA, hB, ?_, ?_, teamCounts_of_lt L _⟩
  · simp [hc, hr]
  · simp only [List.length_append, hc, hr]
    exact wrapInt_natCast _ (Nat.lt_of_le_of_lt (Nat.le_add_left _ _) hsz)

/-- C6 at a concrete input: the recorder that construction leaves on the sample
layout, with two team histories of lengths 2 and 1. -/
theorem C6_WriteTeamStats_witness :
    (sampleStreams.get ({ sampleRecorder with
        teamStats := [[{ counter := 1 }, { counter := 2 }], [{ counter := 3 }]] } :
          CDemoRecorder sampleLayout).isServerDemo = some sampleStream ∧
      sampleStream.pos ≤ sampleStream.buf.length ∧
      sampleStream.pos + (4 * 2 + sampleLayout.sizeofTeamStatistics * (2 + 1)) < 2 ^ 31) ∧
    ∃ g1 r1 s1,
      CDemoRecorder.WriteTeamStats sampleStreams
          ({ sampleRecorder with
              teamStats := [[{ counter := 1 }, { counter := 2 }], [{ counter := 3 }]] } :
            CDemoRecorder sampleLayout)
        = Except.ok (g1, r1) ∧
      g1.get false = some s1 ∧
      s1 = sampleStream.write
        (teamCounts sampleLayout [[{ counter := 1 }, { counter := 2 }], [{ counter := 3 }]]
          ++ teamRecords sampleLayout
            [[{ counter := 1 }, { counter := 2 }], [{ counter := 3 }]]) ∧
      s1.buf.take sampleStream.pos = sampleStream.buf.take sampleStream.pos ∧
      (s1.buf.drop sampleStream.pos).take (4 * 2)
        = teamCounts sampleLayout [[{ counter := 1 }, { counter := 2 }], [{ counter := 3 }]] ∧
      ((s1.buf.drop sampleStream.pos).drop (4 * 2)).take (4 * 3)
        = teamRecords sampleLayout
            [[{ counter := 1 }, { counter := 2 }], [{ counter := 3 }]] ∧
      s1.pos = sampleStream.pos + (4 * 2 + 4 * 3) ∧
      r1.fileHeader.teamStatSize = ((4 * 2 + 4 * 3 : Nat) : Int) := by
  obtain ⟨g1, r1, s1, h1, h2, h3, h4, h5, h6, h7, h8, _⟩ :=
    C6_WriteTeamStats sampleLayout sampleStreams
      { sampleRecorder with
          teamStats := [[{ counter := 1 }, { counter := 2 }], [{ counter := 3 }]] }
      sampleStream rfl sampleStream_pos (by decide)
  exact ⟨⟨rfl, sampleStream_pos, by decide⟩, g1, r1, s1, h1, h2, h3, h4, h5, h6, h7, h8⟩

/-! ## C7 -/

/-- C7: from every state reached after construction whose image stays below 2^31
bytes through the three passes (so that the cursor is a value of `unsigned int`
and the running total a value of the `int` field), the three passes of the
destructor succeed, and the final `WriteFileHeader(true)` then overwrites exactly
the first `sizeof(DemoFileHeader)` bytes of the stream with the byte-swapped
`fileHeader`, whose `demoStreamSize` is the byte count of the batches recorded by
`SaveToDemo`; every later byte and the stream length are unchanged, the cursor is
back at its prior position, which is the value returned, and the recorder that
the destructor leaves is the one the passes left (the in-memory `fileHeader` is
not changed by the header write). -/
theorem C7_final_header_write (L : Layout) (E : Env) (g : DemoStreams)
    (r : CDemoRecorder L) (saved : List (Nat × List Byte)) (hR : Reachable L E g r saved)
    (hlt : (g.content r.isServerDemo).length + (statsSections r).length < 2 ^ 31) :
    ∃ g1 r1 g2 r2 g3 r3 s3 g4 s4 job,
      CDemoRecorder.WriteWinnerList g r = Except.ok (g1, r1) ∧
      CDemoRecorder.WritePlayerStats g1 r1 = Except.ok (g2, r2) ∧
      CDemoRecorder.WriteTeamStats g2 r2 = Except.ok (g3, r3) ∧
      g3.get r.isServerDemo = some s3 ∧
      CDemoRecorder.WriteFileHeader g3 r3 true = Except.ok (g4, s3.pos) ∧
      g4.get r.isServerDemo = some s4 ∧
      s4.buf.take L.sizeofHeader = L.headerBytes (L.swabHeader r3.fileHeader) ∧
      r3.fileHeader.demoStreamSize
        = ((saved.map (fun b => L.sizeofChunkHeader + b.2.length)).sum : Nat) ∧
      s4.buf.drop L.sizeofHeader = s3.buf.drop L.sizeofHeader ∧
      s4.buf.length = s3.buf.length ∧
      s4.pos = s3.pos ∧
      CDemoRecorder.dtor g r = Except.ok (g4, r3, job) := by
  obtain ⟨s, hs, hp, hd⟩ := hR.inv
  rw [content_of_get g _ s hs] at hlt
  have hh := hR.inv_lt s hs (by omega)
  have h32 : (s.write (statsSections r)).pos < 2 ^ 32 := by
    simp only [StringStream.write_pos]
    omega
  rw [wrapInt_natCast _ (by omega)] at hd
  have hp3 := StringStream.write_pos_le s (statsSections r) hp
  have h123 := CDemoRecorder.passes_ok g r s hs hp
  have hdt := CDemoRecorder.dtor_ok g r s hs hp
  rw [Nat.mod_eq_of_lt h32] at hdt
  have h4 := CDemoRecorder.WriteFileHeader_ok_lt
    (g.set r.isServerDemo (some (s.write (statsSections r))))
    (afterPasses r) (s.write (statsSections r)) (by simp [afterPasses]) hp3 true h32
  have hi : (afterPasses r).isServerDemo = r.isServerDemo := rfl
  simp only [hi, DemoStreams.set_set, Bool.not_true, Bool.false_eq_true, if_false] at h4
  have hlen3 : L.sizeofHeader ≤ (s.write (statsSections r)).buf.length := by
    rw [StringStream.write_buf_length s _ hp]
    omega
  cases hw : CDemoRecorder.WriteWinnerList g r with
  | error e => simp [hw, bind, Except.bind] at h123
  | ok p1 =>
    cases hq : CDemoRecorder.WritePlayerStats p1.1 p1.2 with
    | error e => simp [hw, hq, bind, Except.bind] at h123
    | ok p2 =>
      simp only [hw, hq, bind, Except.bind] at h123
      refine ⟨p1.1, p1.2, p2.1, p2.2, _, _, s.write (statsSections r), _,
        { buf := L.headerBytes (L.swabHeader (afterPasses r).fileHeader)
            ++ (s.write (statsSections r)).buf.drop L.sizeofHeader,
          pos := (s.write (statsSections r)).pos }, _,
        rfl, hq, h123, by simp, h4, by simp, ?_, ?_, ?_, ?_, rfl, hdt⟩
      · exact List.take_left' (L.headerBytes_length _)
      · rw [← chunkRegion_length]
        exact hd
      · exact List.drop_left' (L.headerBytes_length _)
      · simp only [List.length_append, L.headerBytes_length, List.length_drop]
        omega

/-- A reachable state of the sample layout: a client recorder constructed on
fresh slots that has recorded one batch (time 1.5, payload "CMD1"). -/
theorem sample_reachable :
    ∃ (g : DemoStreams) (r : CDemoRecorder sampleLayout),
      Reachable sampleLayout sampleEnv g r [(0x3FC00000, [67, 77, 68, 49])] := by
  have hc := CDemoRecorder.ctor_ok sampleLayout sampleEnv ⟨none, none⟩ "DesertMap" "mod" false
  have hR0 := Reachable.ctor ⟨none, none⟩ "DesertMap" "mod" false _ _ hc
  obtain ⟨s, hs, _⟩ := hR0.inv
  have hsv := CDemoRecorder.SaveToDemo_ok _ _ s hs [67, 77, 68, 49] 0x3FC00000
  exact ⟨_, _, Reachable.saveToDemo _ _ [] [67, 77, 68, 49] 4 0x3FC00000 _ _ hR0 hsv⟩

/-- The same reachable state with its sizes: the stream has 364 bytes and the
three passes of the destructor have nothing to write. -/
theorem sample_reachable_small :
    ∃ (g : DemoStreams) (r : CDemoRecorder sampleLayout),
      Reachable sampleLayout sampleEnv g r [(0x3FC00000, [67, 77, 68, 49])] ∧
      (g.content r.isServerDemo).length = 364 ∧ (statsSections r).length = 0 := by
  have hR0 := Reachable.ctor (L := sampleLayout) (E := sampleEnv) ⟨none, none⟩
    "DesertMap" "mod" false _ _ sample_ctor
  have hsv := CDemoRecorder.SaveToDemo_ok sampleStreams sampleRecorder sampleStream
    sampleStreams_get [67, 77, 68, 49] 0x3FC00000
  have hq : sampleStream.pos = sampleStream.buf.length := by
    rw [sampleStream_length]
    rfl
  refine ⟨_, _, Reachable.saveToDemo _ _ [] [67, 77, 68, 49] 4 0x3FC00000 _ _ hR0 hsv, ?_, ?_⟩
  · rw [content_of_get _ _ _ (DemoStreams.get_set_same _ _ _),
      StringStream.write_write _ _ _ sampleStream_pos,
      StringStream.write_at_end _ _ hq, List.length_append, sampleStream_length]
    simp [sampleLayout.chunkBytes_length]
    rfl
  · rfl

/-- C7 at a concrete input: a client recorder of the sample layout that has
recorded one batch of 4 payload bytes; its stream has 364 bytes. -/
theorem C7_final_header_write_witness :
    ∃ g r,
      Reachable sampleLayout sampleEnv g r [(0x3FC00000, [67, 77, 68, 49])] ∧
      (g.content r.isServerDemo).length + (statsSections r).length < 2 ^ 31 ∧
      ∃ g1 r1 g2 r2 g3 r3 s3 g4 s4 job,
        CDemoRecorder.WriteWinnerList g r = Except.ok (g1, r1) ∧
        CDemoRecorder.WritePlayerStats g1 r1 = Except.ok (g2, r2) ∧
        CDemoRecorder.WriteTeamStats g2 r2 = Except.ok (g3, r3) ∧
        g3.get r.isServerDemo = some s3 ∧
        CDemoRecorder.WriteFileHeader g3 r3 true = Except.ok (g4, s3.pos) ∧
        g4.get r.isServerDemo = some s4 ∧
        s4.buf.take sampleLayout.sizeofHeader
          = sampleLayout.headerBytes (sampleLayout.swabHeader r3.fileHeader) ∧
        r3.fileHeader.demoStreamSize
          = ((([((0x3FC00000 : Nat), ([67, 77, 68, 49] : List Byte))]).map
              (fun b => sampleLayout.sizeofChunkHeader + b.2.length)).sum : Nat) ∧
        s4.buf.drop sampleLayout.sizeofHeader = s3.buf.drop sampleLayout.sizeofHeader ∧
        s4.buf.length = s3.buf.length ∧
        s4.pos = s3.pos ∧
        CDemoRecorder.dtor g r = Except.ok (g4, r3, job) := by
  obtain ⟨g, r, hR, h1, h2⟩ := sample_reachable_small
  have hlt : (g.content r.isServerDemo).length + (statsSections r).length < 2 ^ 31 := by
    rw [h1, h2]
    decide
  exact ⟨g, r, hR, hlt, C7_final_header_write sampleLayout sampleEnv g r _ hR hlt⟩

/-! ## C8 -/

theorem trim_zeros (pre : List Byte) (k : Nat) :
    CDemoRecorder.WriteSetupText.trim (pre ++ List.replicate k 0) (pre.length + k)
      = CDemoRecorder.WriteSetupText.trim (pre ++ List.replicate k 0) pre.length := by
  induction k with
  | zero => rfl
  | succ j ih =>
    have hget : (pre ++ List.replicate (j + 1) (0 : Byte)).getD (pre.length + j) 0 = 0 := by
      rw [List.getD_eq_getElem?_getD, List.getElem?_append_right (by omega)]
      simp [List.getElem?_replicate]
    rw [show pre.length + (j + 1) = (pre.length + j) + 1 by omega,
      CDemoRecorder.WriteSetupText.trim, if_pos hget]
    have hext : ∀ n, n ≤ pre.length + j →
        CDemoRecorder.WriteSetupText.trim (pre ++ List.replicate (j + 1) 0) n
          = CDemoRecorder.WriteSetupText.trim (pre ++ List.replicate j 0) n := by
      intro n
      induction n with
      | zero => intro _; rfl
      | succ i ihi =>
        intro hi
        have hsame : (pre ++ List.replicate (j + 1) (0 : Byte)).getD i 0
            = (pre ++ List.replicate j (0 : Byte)).getD i 0 := by
          rw [List.getD_eq_getElem?_getD, List.getD_eq_getElem?_getD]
          by_cases hlt : i < pre.length
          · rw [List.getElem?_append_left hlt, List.getElem?_append_left hlt]
          · rw [List.getElem?_append_right (by omega), List.getElem?_append_right (by omega)]
            simp only [List.getElem?_replicate]
            rw [if_pos (by omega), if_pos (by omega)]
        simp only [CDemoRecorder.WriteSetupText.trim, hsame, ihi (by omega)]
    rw [hext _ (le_refl _), ih, hext _ (by omega)]

theorem trim_text (body : List Byte) (c : Byte) (k : Nat) (hc : c ≠ 0) :
    CDemoRecorder.WriteSetupText.trim (body ++ [c] ++ List.replicate k 0)
        (body ++ [c] ++ List.replicate k 0).length
      = Except.ok (body.length + 1) := by
  have h := trim_zeros (body ++ [c]) k
  have hl : (body ++ [c] ++ List.replicate k (0 : Byte)).length = (body ++ [c]).length + k := by
    simp
    omega
  rw [hl, h]
  have hget : (body ++ [c] ++ List.replicate k (0 : Byte)).getD body.length 0 = c := by
    rw [List.getD_eq_getElem?_getD, List.append_assoc, List.getElem?_append_right (le_refl _)]
    simp
  rw [show (body ++ [c]).length = body.length + 1 by simp,
    CDemoRecorder.WriteSetupText.trim, if_neg (by rw [hget]; exact hc)]

/-- C8 (counterexample): on a client recorder of the sample layout fresh from its
constructor, `WriteSetupText` with the two-byte text "a\0" (one trailing NUL)
stores `scriptSize == 1` and writes one byte, not two: the cursor advances by 1
and the stream grows by 1, so the bytes written do not exceed `scriptSize`. -/
theorem C8_trailing_NUL_not_written :
    ∃ g1 r1 s1,
      CDemoRecorder.ctor sampleLayout sampleEnv ⟨none, none⟩ "DesertMap" "mod" false
        = Except.ok (sampleStreams, sampleRecorder) ∧
      sampleStreams.get sampleRecorder.isServerDemo = some sampleStream ∧
      CDemoRecorder.WriteSetupText sampleStreams sampleRecorder [97, 0]
        = Except.ok (g1, r1) ∧
      g1.get sampleRecorder.isServerDemo = some s1 ∧
      r1.fileHeader.scriptSize = 1 ∧
      s1 = sampleStream.write [97] ∧
      s1.pos = sampleStream.pos + 1 ∧
      s1.pos ≠ sampleStream.pos + ([97, 0] : List Byte).length ∧
      s1.buf.length = sampleStream.buf.length + 1 := by
  have hw := CDemoRecorder.WriteSetupText_ok sampleStreams sampleRecorder sampleStream
    sampleStreams_get [97, 0] 1 (by decide) rfl
  refine ⟨_, _, sampleStream.write [97], sample_ctor, sampleStreams_get, hw,
    DemoStreams.get_set_same _ _ _, rfl, rfl, rfl, ?_, ?_⟩
  · simp
  · rw [StringStream.write_at_end sampleStream [97] (by rw [sampleStream_length]; rfl)]
    simp

/-- C8 (amended): for every setup text that ends in k NUL bytes after a last
non-NUL byte `c` (so |text| = |body| + 1 + k) and whose length is a value of
`int` (below 2^31), on a recorder with a live stream
`WriteSetupText` succeeds, stores the trimmed length |text| - k in
`fileHeader.scriptSize` and writes at the cursor exactly the first |text| - k
bytes, the text without its trailing NULs: the number of bytes written equals the
stored `scriptSize`. -/
theorem C8_setup_text (L : Layout) (g : DemoStreams) (r : CDemoRecorder L) (s : StringStream)
    (body : List Byte) (c : Byte) (k : Nat)
    (hs : g.get r.isServerDemo = some s) (hp : s.pos ≤ s.buf.length) (hc : c ≠ 0)
    (hlen : (body ++ [c] ++ List.replicate k (0 : Byte)).length < 2 ^ 31) :
    ∃ g1 r1 s1,
      CDemoRecorder.WriteSetupText g r (body ++ [c] ++ List.replicate k 0)
        = Except.ok (g1, r1) ∧
      g1.get r.isServerDemo = some s1 ∧
      r1.fileHeader.scriptSize
        = (((body ++ [c] ++ List.replicate k (0 : Byte)).length - k : Nat) : Int) ∧
      s1 = s.write (body ++ [c]) ∧
      s1.buf.take s.pos = s.buf.take s.pos ∧
      (s1.buf.drop s.pos).take ((body ++ [c] ++ List.replicate k (0 : Byte)).length - k)
        = body ++ [c] ∧
      s1.pos = s.pos + ((body ++ [c] ++ List.replicate k (0 : Byte)).length - k) := by
  have ht := trim_text body c k hc
  have h1 := CDemoRecorder.WriteSetupText_ok g r s hs _ _ hlen ht
  have htake : (body ++ [c] ++ List.replicate k (0 : Byte)).take (body.length + 1)
      = body ++ [c] := List.take_left' (by simp)
  rw [htake] at h1
  have hl : (body ++ [c] ++ List.replicate k (0 : Byte)).length - k = (body ++ [c]).length := by
    simp
    omega
  refine ⟨_, _, s.write (body ++ [c]), h1, by simp, ?_, rfl, StringStream.write_take s _ hp,
    ?_, ?_⟩
  · rw [hl]
    simp
  · rw [hl]
    exact StringStream.write_drop_take s _ hp
  · rw [hl]
    rfl

/-- C8 (amended) at a concrete input: the text "ab" followed by two NUL bytes on
the recorder that construction leaves on the sample layout. -/
theorem C8_setup_text_witness :
    (sampleStreams.get sampleRecorder.isServerDemo = some sampleStream ∧
      sampleStream.pos ≤ sampleStream.buf.length ∧ (98 : Byte) ≠ 0 ∧
      (([97] : List Byte) ++ [98] ++ List.replicate 2 (0 : Byte)).length < 2 ^ 31) ∧
    ∃ g1 r1 s1,
      CDemoRecorder.WriteSetupText sampleStreams sampleRecorder
          ([97] ++ [98] ++ List.replicate 2 0)
        = Except.ok (g1, r1) ∧
      g1.get sampleRecorder.isServerDemo = some s1 ∧
      r1.fileHeader.scriptSize
        = (((([97] : List Byte) ++ [98] ++ List.replicate 2 (0 : Byte)).length - 2 : Nat) : Int) ∧
      s1 = sampleStream.write ([97] ++ [98]) ∧
      s1.buf.take sampleStream.pos = sampleStream.buf.take sampleStream.pos ∧
      (s1.buf.drop sampleStream.pos).take
          ((([97] : List Byte) ++ [98] ++ List.replicate 2 (0 : Byte)).length - 2)
        = [97] ++ [98] ∧
      s1.pos = sampleStream.pos
        + ((([97] : List Byte) ++ [98] ++ List.replicate 2 (0 : Byte)).length - 2) :=
  ⟨⟨sampleStreams_get, sampleStream_pos, by decide, by decide⟩,
    C8_setup_text sampleLayout sampleStreams sampleRecorder sampleStream [97] 98 2
      sampleStreams_get sampleStream_pos (by decide) (by decide)⟩

/-! ## C9 -/

theorem foldl_push_back {α : Type} (xs : List α) :
    ∀ acc : List α, xs.foldl (fun h x => h ++ [x]) acc = acc ++ xs := by
  induction xs with
  | nil => intro acc; simp
  | cons x rest ih => intro acc; simp [ih]

/-- C9 (failing input): on the recorder that construction leaves (no team slot
yet), `SetTeamStats(0, H)` does not grow the collection to one slot. The asserted
condition `(unsigned)teamNum < teamStats.size()` is false, so a build with
assertions stops; the index 0 is not below `teamStats.size()` either, so a build
without them reads `teamStats[0]` outside the vector. In both builds the call
does not succeed, and no slot holds H. -/
theorem C9_assertion_on_new_slot :
    sampleRecorder.teamStats.length = 0 ∧
    ¬ (toUnsigned 0 < sampleRecorder.teamStats.length) ∧
    ¬ (toSizeT 0 < sampleRecorder.teamStats.length) ∧
    CDemoRecorder.SetTeamStats sampleRecorder 0 [({ counter := 1 } : SampleStatistics)]
      = Except.error Fault.assertion ∧
    ∀ r1 : CDemoRecorder sampleLayout,
      CDemoRecorder.SetTeamStats sampleRecorder 0 [({ counter := 1 } : SampleStatistics)]
        ≠ Except.ok r1 :=
  ⟨rfl, by decide, by decide, rfl, fun r1 h => by cases h⟩

/-- What `SetTeamStats` does for a team index t >= 0 (an `int`) and a history
sequence H: it succeeds when t is below the current number of team
slots: the number of slots is unchanged, slot t afterwards holds exactly H and
every other slot is unchanged. When t is not below the number of slots the
collection does not grow: the assertion fails. -/
theorem SetTeamStats_slot (L : Layout) (r : CDemoRecorder L) (t : Nat)
    (H : List L.TeamStatistics) (ht : t < 2 ^ 31) :
    (t < r.teamStats.length →
      ∃ r1, CDemoRecorder.SetTeamStats r (t : Int) H = Except.ok r1 ∧
        r1.teamStats.length = r.teamStats.length ∧
        r1.teamStats[t]? = some H ∧
        ∀ i, i ≠ t → r1.teamStats[i]? = r.teamStats[i]?) ∧
    (r.teamStats.length ≤ t →
      CDemoRecorder.SetTeamStats r (t : Int) H = Except.error Fault.assertion) := by
  have h1 : toUnsigned (t : Int) = t := toUnsigned_natCast t (by omega)
  have h2 : toSizeT (t : Int) = t := toSizeT_natCast t (by omega)
  constructor
  · intro hlt
    refine ⟨{ r with teamStats := r.teamStats.set t H }, ?_, by simp, ?_, ?_⟩
    · simp [CDemoRecorder.SetTeamStats, h1, h2, hlt, foldl_push_back, pure, Except.pure]
    · simp [List.getElem?_set_self hlt]
    · intro i hi
      simp [List.getElem?_set_ne (Ne.symm hi)]
  · intro hge
    simp [CDemoRecorder.SetTeamStats, h1, Nat.not_lt.mpr hge]

/-- `SetTeamStats` at a concrete input: team 1 of a recorder with two empty team
slots. -/
theorem SetTeamStats_slot_sample :
    ((1 : Nat) < 2 ^ 31 ∧
      1 < ({ sampleRecorder with teamStats := [[], []] } :
        CDemoRecorder sampleLayout).teamStats.length) ∧
    ∃ r1, CDemoRecorder.SetTeamStats
        ({ sampleRecorder with teamStats := [[], []] } : CDemoRecorder sampleLayout)
        ((1 : Nat) : Int) [({ counter := 1 } : SampleStatistics)] = Except.ok r1 ∧
      r1.teamStats.length = 2 ∧
      r1.teamStats[1]? = some [({ counter := 1 } : SampleStatistics)] ∧
      ∀ i, i ≠ 1 → r1.teamStats[i]? = ([[], []] : List (List SampleStatistics))[i]? :=
  ⟨⟨by decide, by decide⟩,
    (SetTeamStats_slot sampleLayout { sampleRecorder with teamStats := [[], []] } 1
      [{ counter := 1 }] (by decide)).1 (by decide)⟩

/-! ## C10 -/

/-- C10 (failing input): a recorder of the sample layout with three recorded
player entries. `AddNewPlayer(name, -1)` returns and leaves no entry at all: the
comparison with `size()` converts -1 to the largest `size_t`, so the branch runs
`resize(-1 + 1)`. `SetPlayerStats(-1, s)` does the same resize and then writes
`playerStats[-1]`, outside the vector. -/
theorem C10_negative_player_number :
    ∃ r1,
      CDemoRecorder.AddNewPlayer
        ({ sampleRecorder with playerStats := [{ counter := 1 }, { counter := 2 },
            { counter := 3 }] } : CDemoRecorder sampleLayout) "late" (-1) = Except.ok r1 ∧
      r1.playerStats = [] ∧
      CDemoRecorder.SetPlayerStats
        ({ sampleRecorder with playerStats := [{ counter := 1 }, { counter := 2 },
            { counter := 3 }] } : CDemoRecorder sampleLayout) (-1) { counter := 9 }
        = Except.error Fault.outOfRange :=
  ⟨_, rfl, rfl, rfl⟩

/-! ## C11 -/

/-- The destructor of a recorder without statistics and with `numTeams == 0`:
the passes write nothing, the header is rewritten, every byte behind the header
stays. -/
theorem dtor_no_stats {L : Layout} (g : DemoStreams) (r : CDemoRecorder L) (s : StringStream)
    (hs : g.get r.isServerDemo = some s) (hp : s.pos ≤ s.buf.length)
    (h0 : r.fileHeader.numTeams = 0) (h1 : r.playerStats = []) (h2 : r.teamStats = []) :
    CDemoRecorder.dtor g r = Except.ok
      (g.set r.isServerDemo (some
        { buf := L.headerBytes (L.swabHeader (afterPasses r).fileHeader)
            ++ s.buf.drop L.sizeofHeader,
          pos := s.pos % 2 ^ 32 }),
       afterPasses r,
       { file := r.file,
         data := L.headerBytes (L.swabHeader (afterPasses r).fileHeader)
            ++ s.buf.drop L.sizeofHeader }) := by
  have hsec : statsSections r = [] := by
    simp [statsSections, winnerSection, h0, h1, h2, playerSection, teamCounts, teamRecords]
  have hd := CDemoRecorder.dtor_ok g r s hs hp
  rw [hsec, StringStream.write_nil s hp] at hd
  exact hd

/-- Two recordings of the same kind in one process, on any layout: the first
recorder is constructed on a null slot, records one batch and is destroyed; the
second is constructed on the same slot and destroyed at once. The stream the
second recorder starts from still holds the chunk of the first recording behind
the header, and so does the image it finalizes. -/
theorem second_recording (L : Layout) (E : Env) (g0 : DemoStreams)
    (mapName modName : String) (serverDemo : Bool) (h0 : g0.get serverDemo = none)
    (p : List Byte) (t : Nat) :
    ∃ g1 r1 g2 r2 g3 r3 job g4 r4 s4 g5 r5 job2,
      CDemoRecorder.ctor L E g0 mapName modName serverDemo = Except.ok (g1, r1) ∧
      CDemoRecorder.SaveToDemo g1 r1 p p.length t = Except.ok (g2, r2) ∧
      CDemoRecorder.dtor g2 r2 = Except.ok (g3, r3, job) ∧
      CDemoRecorder.ctor L E g3 mapName modName serverDemo = Except.ok (g4, r4) ∧
      g4.get serverDemo = some s4 ∧
      s4.pos = L.sizeofHeader ∧
      s4.buf.length = L.sizeofHeader + L.sizeofChunkHeader + p.length ∧
      s4.buf.drop L.sizeofHeader = chunkImage L (t, p) ∧
      CDemoRecorder.dtor g4 r4 = Except.ok (g5, r5, job2) ∧
      job2.data.length = L.sizeofHeader + L.sizeofChunkHeader + p.length ∧
      job2.data.drop L.sizeofHeader = chunkImage L (t, p) := by
  -- first recorder
  have hc := CDemoRecorder.ctor_ok L E g0 mapName modName serverDemo
  have hcont : g0.content serverDemo = [] := by simp [DemoStreams.content, h0]
  rw [hcont] at hc
  obtain ⟨s1, hs1⟩ : ∃ s1 : StringStream, s1 =
      { buf := L.headerBytes (L.swabHeader (CDemoRecorder.SetFileHeader.header L E))
          ++ ([] : List Byte).drop L.sizeofHeader,
        pos := L.sizeofHeader } := ⟨_, rfl⟩
  rw [← hs1] at hc
  have hb1 : s1.buf.length = L.sizeofHeader := by rw [hs1]; simp [L.headerBytes_length]
  have hq1 : s1.pos = L.sizeofHeader := by rw [hs1]
  obtain ⟨r1, hr1⟩ : ∃ r1 : CDemoRecorder L, r1 =
      { isServerDemo := serverDemo
        demoName := (CDemoRecorder.SetName E (CDemoRecorder.ctor.members L serverDemo)
          mapName modName).demoName
        file := E.gzopen (CDemoRecorder.SetName E (CDemoRecorder.ctor.members L serverDemo)
          mapName modName).demoName
        fileHeader := CDemoRecorder.SetFileHeader.header L E
        playerStats := []
        teamStats := []
        winningAllyTeams := [] } := ⟨_, rfl⟩
  rw [← hr1] at hc
  have hsd : r1.isServerDemo = serverDemo := by rw [hr1]
  obtain ⟨s2, hs2⟩ : ∃ s2 : StringStream, s2 = (s1.write (L.chunkBytes (L.swabChunk
      { modGameTime := t, length := p.length }))).write p := ⟨_, rfl⟩
  have hsv := CDemoRecorder.SaveToDemo_ok (g0.set serverDemo (some s1)) r1 s1
    (by rw [hsd]; simp) p t
  rw [← hs2] at hsv
  have hs2e : s2.buf = s1.buf ++ chunkImage L (t, p) := by
    rw [hs2, StringStream.write_write _ _ _ (by omega),
      StringStream.write_at_end _ _ (by omega)]
    rfl
  have himg : (chunkImage L (t, p)).length = L.sizeofChunkHeader + p.length := by
    simp [chunkImage, L.chunkBytes_length]
  have hb2 : s2.buf.length = L.sizeofHeader + L.sizeofChunkHeader + p.length := by
    rw [hs2e, List.length_append, hb1, himg]
    omega
  have hq2 : s2.pos ≤ s2.buf.length := by
    rw [hb2, hs2]
    simp [hq1, L.chunkBytes_length]
  have hdrop2 : s2.buf.drop L.sizeofHeader = chunkImage L (t, p) := by
    rw [hs2e]
    exact List.drop_left' hb1
  obtain ⟨r2, hr2⟩ : ∃ r2 : CDemoRecorder L, r2 =
      { r1 with fileHeader := { r1.fileHeader with demoStreamSize :=
          (wrapInt (r1.fileHeader.demoStreamSize
            + (p.length + L.sizeofChunkHeader : Nat))) } } := ⟨_, rfl⟩
  rw [← hr2] at hsv
  have hsd2 : r2.isServerDemo = serverDemo := by rw [hr2]; exact hsd
  have hd := dtor_no_stats ((g0.set serverDemo (some s1)).set r1.isServerDemo (some s2)) r2 s2
    (by rw [hsd2, hsd]; simp) hq2 (by rw [hr2, hr1]; rfl) (by rw [hr2, hr1]) (by rw [hr2, hr1])
  rw [hdrop2] at hd
  -- second recorder
  obtain ⟨g3, hg3⟩ : ∃ g3 : DemoStreams, g3 =
      ((g0.set serverDemo (some s1)).set r1.isServerDemo (some s2)).set r2.isServerDemo (some
        { buf := L.headerBytes (L.swabHeader (afterPasses r2).fileHeader)
            ++ chunkImage L (t, p),
          pos := s2.pos % 2 ^ 32 }) := ⟨_, rfl⟩
  rw [← hg3] at hd
  have hcont3 : (g3.content serverDemo).drop L.sizeofHeader = chunkImage L (t, p) := by
    rw [hg3, hsd2]
    simp only [DemoStreams.content, DemoStreams.get_set_same]
    exact List.drop_left' (L.headerBytes_length _)
  have hc2 := CDemoRecorder.ctor_ok L E g3 mapName modName serverDemo
  rw [hcont3] at hc2
  obtain ⟨s4, hs4⟩ : ∃ s4 : StringStream, s4 =
      { buf := L.headerBytes (L.swabHeader (CDemoRecorder.SetFileHeader.header L E))
          ++ chunkImage L (t, p),
        pos := L.sizeofHeader } := ⟨_, rfl⟩
  rw [← hs4, ← hr1] at hc2
  have hb4 : s4.buf.length = L.sizeofHeader + L.sizeofChunkHeader + p.length := by
    rw [hs4]
    simp only [List.length_append, L.headerBytes_length, himg]
    omega
  have hq4 : s4.pos ≤ s4.buf.length := by
    rw [hb4, hs4]
    simp only []
    omega
  have hdrop4 : s4.buf.drop L.sizeofHeader = chunkImage L (t, p) := by
    rw [hs4]
    exact List.drop_left' (L.headerBytes_length _)
  have hd2 := dtor_no_stats (g3.set serverDemo (some s4)) r1 s4
    (by rw [hsd]; simp) hq4 (by rw [hr1]; rfl) (by rw [hr1]) (by rw [hr1])
  rw [hdrop4] at hd2
  refine ⟨_, _, _, _, _, _, _, _, _, s4, _, _, _, hc, hsv, hd, hc2, by simp,
    by rw [hs4], hb4, hdrop4, hd2, ?_, ?_⟩
  · simp only [List.length_append, L.headerBytes_length, himg]
    omega
  · exact List.drop_left' (L.headerBytes_length _)

/-- C11 (failing input): two client recordings in one process on the sample
layout. The first recorder saves one batch (time 1.5, payload "CMD1") and is
destroyed; the second recorder is constructed on the same slot and destroyed at
once. `SetStream` calls `clear()`, which resets the error flags only: the stream
the second recorder starts from has 364 bytes instead of 0, and the image it
finalizes ends with the 12 chunk bytes of the first recording. -/
theorem C11_slot_keeps_earlier_recording :
    ∃ g1 r1 g2 r2 g3 r3 job g4 r4 s4 g5 r5 job2,
      CDemoRecorder.ctor sampleLayout sampleEnv ⟨none, none⟩ "DesertMap" "mod" false
        = Except.ok (g1, r1) ∧
      CDemoRecorder.SaveToDemo g1 r1 [67, 77, 68, 49] 4 0x3FC00000 = Except.ok (g2, r2) ∧
      CDemoRecorder.dtor g2 r2 = Except.ok (g3, r3, job) ∧
      CDemoRecorder.ctor sampleLayout sampleEnv g3 "DesertMap" "mod" false
        = Except.ok (g4, r4) ∧
      g4.get false = some s4 ∧
      s4.pos = 352 ∧
      s4.buf.length = 364 ∧
      s4.buf.drop 352 = chunkImage sampleLayout (0x3FC00000, [67, 77, 68, 49]) ∧
      CDemoRecorder.dtor g4 r4 = Except.ok (g5, r5, job2) ∧
      job2.data.length = 364 ∧
      job2.data.drop 352 = chunkImage sampleLayout (0x3FC00000, [67, 77, 68, 49]) :=
  second_recording sampleLayout sampleEnv ⟨none, none⟩ "DesertMap" "mod" false rfl
    [67, 77, 68, 49] 0x3FC00000

/-! ## C12 -/

/-- C12 (counterexample): `WriteDemoFile` on the recorder that construction leaves
on the sample layout. The job gets the 352 bytes of the stream, and afterwards the
slot still holds the same stream with its 352 bytes: it is not empty. -/
theorem C12_stream_not_emptied :
    ∃ g1 job s1,
      CDemoRecorder.WriteDemoFile sampleStreams sampleRecorder = Except.ok (g1, job) ∧
      job.data.length = 352 ∧
      g1.get sampleRecorder.isServerDemo = some s1 ∧
      s1 = sampleStream ∧ s1.buf.length = 352 ∧ s1.buf ≠ [] := by
  refine ⟨_, _, sampleStream,
    CDemoRecorder.WriteDemoFile_ok sampleStreams sampleRecorder sampleStream sampleStreams_get,
    sampleStream_length, sampleStreams_get, rfl, sampleStream_length, ?_⟩
  intro h
  have := congrArg List.length h
  rw [sampleStream_length] at this
  exact absurd this (by decide)

/-- C12 (amended): for every recorder with a live stream, `WriteDemoFile` succeeds
and hands the writer job the `gzFile` and exactly the full character sequence of
the recorder's stream, byte for byte; `str()` returns a copy, so the streams are
left as they are (content and cursor kept). For the destructor as a whole: the
data of the job is the content of the stream that the destructor leaves, header
through team-stats section. -/
theorem C12_WriteDemoFile (L : Layout) (g : DemoStreams) (r : CDemoRecorder L)
    (s : StringStream) (hs : g.get r.isServerDemo = some s) (hp : s.pos ≤ s.buf.length) :
    (∃ job, CDemoRecorder.WriteDemoFile g r = Except.ok (g, job) ∧
      job.data = s.buf ∧ job.file = r.file) ∧
    (∃ g1 r1 job s1, CDemoRecorder.dtor g r = Except.ok (g1, r1, job) ∧
      g1.get r.isServerDemo = some s1 ∧ job.data = s1.buf ∧
      s1.buf.take L.sizeofHeader = L.headerBytes (L.swabHeader r1.fileHeader) ∧
      s1.buf.drop L.sizeofHeader = (s.write (statsSections r)).buf.drop L.sizeofHeader) := by
  constructor
  · exact ⟨_, CDemoRecorder.WriteDemoFile_ok g r s hs, rfl, rfl⟩
  · refine ⟨_, _, _,
      { buf := L.headerBytes (L.swabHeader (afterPasses r).fileHeader)
          ++ (s.write (statsSections r)).buf.drop L.sizeofHeader,
        pos := (s.write (statsSections r)).pos % 2 ^ 32 },
      CDemoRecorder.dtor_ok g r s hs hp, by simp, rfl, ?_, ?_⟩
    · exact List.take_left' (L.headerBytes_length _)
    · exact List.drop_left' (L.headerBytes_length _)

/-- C12 (amended) at a concrete input: the recorder that construction leaves on
the sample layout. -/
theorem C12_WriteDemoFile_witness :
    (sampleStreams.get sampleRecorder.isServerDemo = some sampleStream ∧
      sampleStream.pos ≤ sampleStream.buf.length) ∧
    (∃ job, CDemoRecorder.WriteDemoFile sampleStreams sampleRecorder
        = Except.ok (sampleStreams, job) ∧
      job.data = sampleStream.buf ∧ job.file = sampleRecorder.file) ∧
    (∃ g1 r1 job s1, CDemoRecorder.dtor sampleStreams sampleRecorder = Except.ok (g1, r1, job) ∧
      g1.get sampleRecorder.isServerDemo = some s1 ∧ job.data = s1.buf ∧
      s1.buf.take sampleLayout.sizeofHeader
        = sampleLayout.headerBytes (sampleLayout.swabHeader r1.fileHeader) ∧
      s1.buf.drop sampleLayout.sizeofHeader
        = (sampleStream.write (statsSections sampleRecorder)).buf.drop
            sampleLayout.sizeofHeader) :=
  ⟨⟨sampleStreams_get, sampleStream_pos⟩,
    C12_WriteDemoFile sampleLayout sampleStreams sampleRecorder sampleStream sampleStreams_get
      sampleStream_pos⟩

/-! ## C13 -/

theorem DemoStreams.set_comm (g : DemoStreams) (i j : Bool) (x y : Option StringStream)
    (h : j ≠ i) : (g.set i x).set j y = (g.set j y).set i x := by
  cases i <;> cases j <;> simp_all [DemoStreams.set]

theorem DemoStreams.set_get (g : DemoStreams) (j : Bool) : g.set j (g.get j) = g := by
  cases g with
  | mk c v => cases j <;> simp [DemoStreams.set, DemoStreams.get]

theorem DemoStreams.deref_set_other (g : DemoStreams) (i j : Bool) (x : Option StringStream)
    (h : i ≠ j) : (g.set j x).deref i = g.deref i := by
  simp [DemoStreams.deref, DemoStreams.get_set_other g j i x h]

theorem DemoStreams.eq_set_of_get (g g2 : DemoStreams) (i : Bool)
    (h : g2.get i = g.get i) : g2 = g.set (!i) (g2.get (!i)) := by
  cases g with
  | mk c v =>
    cases g2 with
    | mk c2 v2 => cases i <;> simp_all [DemoStreams.set, DemoStreams.get]

theorem Commutes.pure {β : Type} (j : Bool) (a : β) :
    Commutes j (fun g => Except.ok (g, a)) := by
  intro g x
  rfl

theorem Commutes.bind {β γ : Type} (j : Bool)
    (f : DemoStreams → Except Fault (DemoStreams × β))
    (k : β → DemoStreams → Except Fault (DemoStreams × γ))
    (hf : Commutes j f) (hk : ∀ b, Commutes j (k b)) :
    Commutes j (fun g => f g >>= fun p => k p.2 p.1) := by
  intro g x
  simp only [hf g x]
  cases hfg : f g with
  | error e => rfl
  | ok p =>
    simp only [Except.map, bind, Except.bind]
    exact hk p.2 p.1 x

theorem Commutes.frame {β : Type} {j : Bool} {f : DemoStreams → Except Fault (DemoStreams × β)}
    (hf : Commutes j f) (g g1 : DemoStreams) (b : β) (h : f g = Except.ok (g1, b)) :
    g1.get j = g.get j := by
  have h1 := hf g (g.get j)
  rw [DemoStreams.set_get, h] at h1
  simp only [Except.map, Except.ok.injEq, Prod.mk.injEq, and_true] at h1
  have h2 := congrArg (fun d => DemoStreams.get d j) h1
  simp only [DemoStreams.get_set_same] at h2
  exact h2

theorem Commutes.transfer {β : Type} {i : Bool}
    {f : DemoStreams → Except Fault (DemoStreams × β)}
    (hf : Commutes (!i) f) (g g2 g1 : DemoStreams) (b : β)
    (hg : g2.get i = g.get i) (h : f g = Except.ok (g1, b)) :
    ∃ g3, f g2 = Except.ok (g3, b) ∧ g3.get i = g1.get i ∧ g3.get (!i) = g2.get (!i) := by
  have h1 := hf g (g2.get (!i))
  rw [← DemoStreams.eq_set_of_get g g2 i hg, h] at h1
  refine ⟨_, h1, ?_, ?_⟩
  · exact DemoStreams.get_set_other _ _ _ _ (by cases i <;> decide)
  · exact DemoStreams.get_set_same _ _ _

theorem WriteFileHeader_commutes {L : Layout} (r : CDemoRecorder L) (u : Bool) (j : Bool)
    (hj : r.isServerDemo ≠ j) : Commutes j (fun g => CDemoRecorder.WriteFileHeader g r u) := by
  intro g x
  simp only [CDemoRecorder.WriteFileHeader, DemoStreams.deref_set_other g _ j x hj]
  cases g.deref r.isServerDemo with
  | error e => rfl
  | ok s =>
    simp only [bind, Except.bind, pure, Except.pure, Except.map,
      DemoStreams.set_comm g j r.isServerDemo x _ hj]

theorem WriteSetupText_commutes {L : Layout} (r : CDemoRecorder L) (text : List Byte)
    (j : Bool) (hj : r.isServerDemo ≠ j) :
    Commutes j (fun g => CDemoRecorder.WriteSetupText g r text) := by
  intro g x
  simp only [CDemoRecorder.WriteSetupText]
  by_cases hn : wrapInt (text.length : Int) < 0
  · simp only [if_pos hn]
    rfl
  · simp only [if_neg hn]
    cases CDemoRecorder.WriteSetupText.trim text (wrapInt (text.length : Int)).toNat with
    | error e => rfl
    | ok n =>
      simp only [bind, Except.bind, DemoStreams.deref_set_other g _ j x hj]
      cases g.deref r.isServerDemo with
      | error e => rfl
      | ok s =>
        simp only [pure, Except.pure, Except.map,
          DemoStreams.set_comm g j r.isServerDemo x _ hj]

theorem SaveToDemo_commutes {L : Layout} (r : CDemoRecorder L) (buf : List Byte)
    (length t : Nat) (j : Bool) (hj : r.isServerDemo ≠ j) :
    Commutes j (fun g => CDemoRecorder.SaveToDemo g r buf length t) := by
  intro g x
  simp only [CDemoRecorder.SaveToDemo, DemoStreams.deref_set_other g _ j x hj]
  cases g.deref r.isServerDemo with
  | error e => rfl
  | ok s =>
    simp only [bind, Except.bind, pure, Except.pure]
    split
    · rfl
    · simp only [Except.map, DemoStreams.set_comm g j r.isServerDemo x _ hj]

theorem SetGameID_commutes {L : Layout} (r : CDemoRecorder L) (buf : List Byte)
    (j : Bool) (hj : r.isServerDemo ≠ j) :
    Commutes j (fun g => CDemoRecorder.SetGameID g r buf) := by
  intro g x
  have hw := WriteFileHeader_commutes
    { r with fileHeader := { r.fileHeader with gameID := buf.take L.sizeofGameID } } false j hj
      g x
  simp only [CDemoRecorder.SetGameID] at hw ⊢
  split
  · rfl
  · simp only [bind, Except.bind]
    rw [hw]
    cases CDemoRecorder.WriteFileHeader g
      { r with fileHeader := { r.fileHeader with gameID := buf.take L.sizeofGameID } } false with
    | error e => rfl
    | ok p => rfl

theorem WriteWinnerList_commutes {L : Layout} (r : CDemoRecorder L)
    (j : Bool) (hj : r.isServerDemo ≠ j) :
    Commutes j (fun g => CDemoRecorder.WriteWinnerList g r) := by
  intro g x
  simp only [CDemoRecorder.WriteWinnerList]
  split
  · rfl
  · simp only [DemoStreams.deref_set_other g _ j x hj]
    cases g.deref r.isServerDemo with
    | error e => rfl
    | ok s =>
      simp only [bind, Except.bind, pure, Except.pure, Except.map,
        DemoStreams.set_comm g j r.isServerDemo x _ hj]

theorem WritePlayerStats_commutes {L : Layout} (r : CDemoRecorder L)
    (j : Bool) (hj : r.isServerDemo ≠ j) :
    Commutes j (fun g => CDemoRecorder.WritePlayerStats g r) := by
  intro g x
  simp only [CDemoRecorder.WritePlayerStats, DemoStreams.deref_set_other g _ j x hj]
  cases g.deref r.isServerDemo with
  | error e => rfl
  | ok s =>
    simp only [bind, Except.bind, pure, Except.pure, Except.map,
      DemoStreams.set_comm g j r.isServerDemo x _ hj]

theorem WriteTeamStats_commutes {L : Layout} (r : CDemoRecorder L)
    (j : Bool) (hj : r.isServerDemo ≠ j) :
    Commutes j (fun g => CDemoRecorder.WriteTeamStats g r) := by
  intro g x
  simp only [CDemoRecorder.WriteTeamStats, DemoStreams.deref_set_other g _ j x hj]
  cases g.deref r.isServerDemo with
  | error e => rfl
  | ok s =>
    simp only [bind, Except.bind, pure, Except.pure, Except.map,
      DemoStreams.set_comm g j r.isServerDemo x _ hj]

theorem WriteDemoFile_commutes {L : Layout} (r : CDemoRecorder L)
    (j : Bool) (hj : r.isServerDemo ≠ j) :
    Commutes j (fun g => CDemoRecorder.WriteDemoFile g r) := by
  intro g x
  simp only [CDemoRecorder.WriteDemoFile, DemoStreams.deref_set_other g _ j x hj]
  cases g.deref r.isServerDemo with
  | error e => rfl
  | ok s => rfl

theorem WriteWinnerList_kind {L : Layout} (g g1 : DemoStreams) (r r1 : CDemoRecorder L)
    (h : CDemoRecorder.WriteWinnerList g r = Except.ok (g1, r1)) :
    r1.isServerDemo = r.isServerDemo := by
  unfold CDemoRecorder.WriteWinnerList at h
  split at h
  · simp only [pure, Except.pure, Except.ok.injEq, Prod.mk.injEq] at h
    rw [← h.2]
  · cases hd : g.deref r.isServerDemo with
    | error e => simp [hd, bind, Except.bind] at h
    | ok s =>
      simp only [hd, bind, Except.bind, pure, Except.pure, Except.ok.injEq, Prod.mk.injEq] at h
      rw [← h.2]

theorem WritePlayerStats_kind {L : Layout} (g g1 : DemoStreams) (r r1 : CDemoRecorder L)
    (h : CDemoRecorder.WritePlayerStats g r = Except.ok (g1, r1)) :
    r1.isServerDemo = r.isServerDemo := by
  unfold CDemoRecorder.WritePlayerStats at h
  cases hd : g.deref r.isServerDemo with
  | error e => simp [hd, bind, Except.bind] at h
  | ok s =>
    simp only [hd, bind, Except.bind, pure, Except.pure, Except.ok.injEq, Prod.mk.injEq] at h
    rw [← h.2]

theorem WriteTeamStats_kind {L : Layout} (g g1 : DemoStreams) (r r1 : CDemoRecorder L)
    (h : CDemoRecorder.WriteTeamStats g r = Except.ok (g1, r1)) :
    r1.isServerDemo = r.isServerDemo := by
  unfold CDemoRecorder.WriteTeamStats at h
  cases hd : g.deref r.isServerDemo with
  | error e => simp [hd, bind, Except.bind] at h
  | ok s =>
    simp only [hd, bind, Except.bind, pure, Except.pure, Except.ok.injEq, Prod.mk.injEq] at h
    rw [← h.2]

theorem dtor_commutes {L : Layout} (r : CDemoRecorder L) (j : Bool)
    (hj : r.isServerDemo ≠ j) : Commutes j (fun g => CDemoRecorder.dtor g r) := by
  intro g x
  have c1 : CDemoRecorder.WriteWinnerList (g.set j x) r
      = (CDemoRecorder.WriteWinnerList g r).map (fun p => (p.1.set j x, p.2)) :=
    WriteWinnerList_commutes r j hj g x
  simp only [CDemoRecorder.dtor, c1]
  cases h1 : CDemoRecorder.WriteWinnerList g r with
  | error e => rfl
  | ok p1 =>
    have k1 : p1.2.isServerDemo ≠ j := by
      rw [WriteWinnerList_kind g p1.1 r p1.2 h1]
      exact hj
    have c2 : CDemoRecorder.WritePlayerStats (p1.1.set j x) p1.2
        = (CDemoRecorder.WritePlayerStats p1.1 p1.2).map (fun p => (p.1.set j x, p.2)) :=
      WritePlayerStats_commutes p1.2 j k1 p1.1 x
    simp only [Except.map, bind, Except.bind, c2]
    cases h2 : CDemoRecorder.WritePlayerStats p1.1 p1.2 with
    | error e => rfl
    | ok p2 =>
      have k2 : p2.2.isServerDemo ≠ j := by
        rw [WritePlayerStats_kind p1.1 p2.1 p1.2 p2.2 h2]
        exact k1
      have c3 : CDemoRecorder.WriteTeamStats (p2.1.set j x) p2.2
          = (CDemoRecorder.WriteTeamStats p2.1 p2.2).map (fun p => (p.1.set j x, p.2)) :=
        WriteTeamStats_commutes p2.2 j k2 p2.1 x
      simp only [c3]
      cases h3 : CDemoRecorder.WriteTeamStats p2.1 p2.2 with
      | error e => rfl
      | ok p3 =>
        have k3 : p3.2.isServerDemo ≠ j := by
          rw [WriteTeamStats_kind p2.1 p3.1 p2.2 p3.2 h3]
          exact k2
        have c4 : CDemoRecorder.WriteFileHeader (p3.1.set j x) p3.2 true
            = (CDemoRecorder.WriteFileHeader p3.1 p3.2 true).map
                (fun p => (p.1.set j x, p.2)) :=
          WriteFileHeader_commutes p3.2 true j k3 p3.1 x
        simp only [Except.map, c4]
        cases h4 : CDemoRecorder.WriteFileHeader p3.1 p3.2 true with
        | error e => rfl
        | ok p4 =>
          have c5 : CDemoRecorder.WriteDemoFile (p4.1.set j x) p3.2
              = (CDemoRecorder.WriteDemoFile p4.1 p3.2).map (fun p => (p.1.set j x, p.2)) :=
            WriteDemoFile_commutes p3.2 j k3 p4.1 x
          simp only [c5]
          cases h5 : CDemoRecorder.WriteDemoFile p4.1 p3.2 with
          | error e => rfl
          | ok p5 => rfl

theorem step_commutes {L : Layout} (r : CDemoRecorder L) (op : Op L) (j : Bool)
    (hj : r.isServerDemo ≠ j) : Commutes j (fun g => step g r op) := by
  cases op with
  | writeSetupText text => exact WriteSetupText_commutes r text j hj
  | saveToDemo buf length t => exact SaveToDemo_commutes r buf length t j hj
  | setGameID buf => exact SetGameID_commutes r buf j hj
  | setTime a b => intro g x; rfl
  | initializeStats a b =>
    intro g x
    simp only [step]
    cases CDemoRecorder.InitializeStats r a b <;> rfl
  | addNewPlayer name n =>
    intro g x
    simp only [step]
    cases CDemoRecorder.AddNewPlayer r name n <;> rfl
  | setPlayerStats n stats =>
    intro g x
    simp only [step]
    cases CDemoRecorder.SetPlayerStats r n stats <;> rfl
  | setTeamStats n stats =>
    intro g x
    simp only [step]
    cases CDemoRecorder.SetTeamStats r n stats <;> rfl
  | setWinningAllyTeams ids => intro g x; rfl

theorem step_kind {L : Layout} (g g1 : DemoStreams) (r r1 : CDemoRecorder L) (op : Op L)
    (h : step g r op = Except.ok (g1, r1)) : r1.isServerDemo = r.isServerDemo := by
  cases op with
  | writeSetupText text =>
    simp only [step, CDemoRecorder.WriteSetupText] at h
    by_cases hn : wrapInt (text.length : Int) < 0
    · simp only [if_pos hn] at h
      cases h
    · simp only [if_neg hn] at h
      cases ht : CDemoRecorder.WriteSetupText.trim text (wrapInt (text.length : Int)).toNat with
      | error e =>
        simp only [ht, bind, Except.bind] at h
        cases h
      | ok n =>
        cases hd : g.deref r.isServerDemo with
        | error e =>
          simp only [ht, hd, bind, Except.bind] at h
          cases h
        | ok s =>
          simp only [ht, hd, bind, Except.bind, pure, Except.pure, Except.ok.injEq,
            Prod.mk.injEq] at h
          rw [← h.2]
  | saveToDemo buf length t =>
    simp only [step, CDemoRecorder.SaveToDemo] at h
    cases hd : g.deref r.isServerDemo with
    | error e => simp [hd, bind, Except.bind] at h
    | ok s =>
      simp only [hd, bind, Except.bind, pure, Except.pure] at h
      split at h
      · cases h
      · simp only [Except.ok.injEq, Prod.mk.injEq] at h
        rw [← h.2]
  | setGameID buf =>
    simp only [step, CDemoRecorder.SetGameID] at h
    split at h
    · cases h
    · cases hw : CDemoRecorder.WriteFileHeader g
        { r with fileHeader := { r.fileHeader with gameID := buf.take L.sizeofGameID } }
        false with
      | error e => simp [hw, bind, Except.bind] at h
      | ok p =>
        simp only [hw, bind, Except.bind, pure, Except.pure, Except.ok.injEq,
          Prod.mk.injEq] at h
        rw [← h.2]
  | setTime a b =>
    simp only [step, Except.ok.injEq, Prod.mk.injEq] at h
    rw [← h.2]
    rfl
  | initializeStats a b =>
    simp only [step] at h
    cases hi : CDemoRecorder.InitializeStats r a b with
    | error e => simp [hi, Except.map] at h
    | ok r2 =>
      simp only [hi, Except.map, Except.ok.injEq, Prod.mk.injEq] at h
      rw [← h.2]
      exact (InitializeStats_frame r r2 a b hi).1
  | addNewPlayer name n =>
    simp only [step] at h
    cases hi : CDemoRecorder.AddNewPlayer r name n with
    | error e => simp [hi, Except.map] at h
    | ok r2 =>
      simp only [hi, Except.map, Except.ok.injEq, Prod.mk.injEq] at h
      rw [← h.2]
      exact (AddNewPlayer_frame r r2 name n hi).1
  | setPlayerStats n stats =>
    simp only [step] at h
    cases hi : CDemoRecorder.SetPlayerStats r n stats with
    | error e => simp [hi, Except.map] at h
    | ok r2 =>
      simp only [hi, Except.map, Except.ok.injEq, Prod.mk.injEq] at h
      rw [← h.2]
      exact (SetPlayerStats_frame r r2 n stats hi).1
  | setTeamStats n stats =>
    simp only [step] at h
    cases hi : CDemoRecorder.SetTeamStats r n stats with
    | error e => simp [hi, Except.map] at h
    | ok r2 =>
      simp only [hi, Except.map, Except.ok.injEq, Prod.mk.injEq] at h
      rw [← h.2]
      exact (SetTeamStats_frame r r2 n stats hi).1
  | setWinningAllyTeams ids =>
    simp only [step, Except.ok.injEq, Prod.mk.injEq] at h
    rw [← h.2]
    rfl

theorem opsOf_cons_same {L : Layout} (kind : Bool) (op : Op L) (rest : List (Bool × Op L)) :
    opsOf kind ((kind, op) :: rest) = op :: opsOf kind rest := by
  simp [opsOf]

theorem opsOf_cons_other {L : Layout} (kind b : Bool) (op : Op L)
    (rest : List (Bool × Op L)) (h : b ≠ kind) :
    opsOf kind ((b, op) :: rest) = opsOf kind rest := by
  simp [opsOf, h]

/-- An interleaved run that returns is, slot by slot, the run of each recorder on
its own calls. -/
theorem runBoth_split {L : Layout} (sched : List (Bool × Op L)) :
    ∀ (g gc gs : DemoStreams) (client server : CDemoRecorder L)
      (g1 : DemoStreams) (c1 s1 : CDemoRecorder L),
      client.isServerDemo = false → server.isServerDemo = true →
      gc.get false = g.get false → gs.get true = g.get true →
      runBoth g client server sched = Except.ok (g1, c1, s1) →
      ∃ gc1 gs1,
        runOps gc client (opsOf false sched) = Except.ok (gc1, c1) ∧
        runOps gs server (opsOf true sched) = Except.ok (gs1, s1) ∧
        gc1.get false = g1.get false ∧ gs1.get true = g1.get true ∧
        gc1.get true = gc.get true ∧ gs1.get false = gs.get false ∧
        c1.isServerDemo = false ∧ s1.isServerDemo = true := by
  induction sched with
  | nil =>
    intro g gc gs client server g1 c1 s1 hc hs hgc hgs hrun
    simp only [runBoth, Except.ok.injEq, Prod.mk.injEq] at hrun
    obtain ⟨h1, h2, h3⟩ := hrun
    subst h1 h2 h3
    exact ⟨gc, gs, rfl, rfl, hgc, hgs, rfl, rfl, hc, hs⟩
  | cons entry rest ih =>
    intro g gc gs client server g1 c1 s1 hc hs hgc hgs hrun
    obtain ⟨b, op⟩ := entry
    cases b with
    | true =>
      simp only [runBoth, if_true] at hrun
      cases hst : step g server op with
      | error e => simp [hst, bind, Except.bind] at hrun
      | ok p =>
        simp only [hst, bind, Except.bind] at hrun
        have hcm : Commutes (!true) (fun g => step g server op) :=
          step_commutes server op false (by rw [hs]; decide)
        obtain ⟨gs2, hgs2, hsame, hother⟩ :=
          hcm.transfer g gs p.1 p.2 hgs hst
        have hfr : p.1.get false = g.get false := Commutes.frame hcm g p.1 p.2 hst
        have hk : p.2.isServerDemo = true := by
          rw [step_kind g p.1 server p.2 op hst]
          exact hs
        obtain ⟨gc1, gs1, h1, h2, h3, h4, h5, h6, h7, h8⟩ :=
          ih p.1 gc gs2 client p.2 g1 c1 s1 hc hk (by rw [hfr]; exact hgc) hsame hrun
        refine ⟨gc1, gs1, ?_, ?_, h3, h4, h5, ?_, h7, h8⟩
        · rw [opsOf_cons_other false true op rest (by decide)]
          exact h1
        · rw [opsOf_cons_same]
          simp only [runOps, hgs2, bind, Except.bind]
          exact h2
        · rw [h6]
          exact hother
    | false =>
      simp only [runBoth, Bool.false_eq_true, if_false] at hrun
      cases hst : step g client op with
      | error e => simp [hst, bind, Except.bind] at hrun
      | ok p =>
        simp only [hst, bind, Except.bind] at hrun
        have hcm : Commutes (!false) (fun g => step g client op) :=
          step_commutes client op true (by rw [hc]; decide)
        obtain ⟨gc2, hgc2, hsame, hother⟩ :=
          hcm.transfer g gc p.1 p.2 hgc hst
        have hfr : p.1.get true = g.get true := Commutes.frame hcm g p.1 p.2 hst
        have hk : p.2.isServerDemo = false := by
          rw [step_kind g p.1 client p.2 op hst]
          exact hc
        obtain ⟨gc1, gs1, h1, h2, h3, h4, h5, h6, h7, h8⟩ :=
          ih p.1 gc2 gs p.2 server g1 c1 s1 hk hs hsame (by rw [hfr]; exact hgs) hrun
        refine ⟨gc1, gs1, ?_, ?_, h3, h4, ?_, h6, h7, h8⟩
        · rw [opsOf_cons_same]
          simp only [runOps, hgc2, bind, Except.bind]
          exact h1
        · rw [opsOf_cons_other true false op rest (by decide)]
          exact h2
        · rw [h5]
          exact hother

/-- The image that the destructor hands over depends only on the recorder and its
own slot. -/
theorem dtor_image_local {L : Layout} (g g2 ga : DemoStreams) (r ra : CDemoRecorder L)
    (job : WriterJob) (hg : g2.get r.isServerDemo = g.get r.isServerDemo)
    (h : CDemoRecorder.dtor g r = Except.ok (ga, ra, job)) :
    ga.get (!r.isServerDemo) = g.get (!r.isServerDemo) ∧
    ∃ gb, CDemoRecorder.dtor g2 r = Except.ok (gb, ra, job) ∧
      gb.get r.isServerDemo = ga.get r.isServerDemo := by
  have hcm : Commutes (!r.isServerDemo) (fun g => CDemoRecorder.dtor g r) :=
    dtor_commutes r (!r.isServerDemo) (by cases r.isServerDemo <;> decide)
  obtain ⟨gb, h1, h2, _⟩ := hcm.transfer g g2 ga (ra, job) hg h
  exact ⟨Commutes.frame hcm g ga (ra, job) h, gb, h1, h2⟩

/-- C13: one client recorder and one server recorder on the two static slots.
Every call, the constructor and the destructor leave the slot of the other kind
as it is. For every sequential interleaving of calls on the two recorders that
returns, each recorder ends in the state, and its slot in the content, that its
own calls produce when they run alone from the same start; and whichever
recorder is finalized first, the recorder and the image that each destructor
hands to the writer are those of the run alone. -/
theorem C13_disjoint_sessions (L : Layout) (E : Env) (g : DemoStreams)
    (client server : CDemoRecorder L)
    (hc : client.isServerDemo = false) (hs : server.isServerDemo = true)
    (sched : List (Bool × Op L)) (g1 : DemoStreams) (c1 s1 : CDemoRecorder L)
    (hrun : runBoth g client server sched = Except.ok (g1, c1, s1)) :
    (∀ (g0 : DemoStreams) (r : CDemoRecorder L) (op : Op L) (g2 : DemoStreams)
        (r2 : CDemoRecorder L), step g0 r op = Except.ok (g2, r2) →
        g2.get (!r.isServerDemo) = g0.get (!r.isServerDemo)) ∧
    (∀ (g0 : DemoStreams) (mapName modName : String) (kind : Bool) (g2 : DemoStreams)
        (r2 : CDemoRecorder L),
        CDemoRecorder.ctor L E g0 mapName modName kind = Except.ok (g2, r2) →
        g2.get (!kind) = g0.get (!kind)) ∧
    (∀ (g0 : DemoStreams) (r : CDemoRecorder L) (g2 : DemoStreams) (r2 : CDemoRecorder L)
        (job : WriterJob), CDemoRecorder.dtor g0 r = Except.ok (g2, r2, job) →
        g2.get (!r.isServerDemo) = g0.get (!r.isServerDemo)) ∧
    ∃ gc gs,
      runOps g client (opsOf false sched) = Except.ok (gc, c1) ∧
      runOps g server (opsOf true sched) = Except.ok (gs, s1) ∧
      gc.get false = g1.get false ∧ gs.get true = g1.get true ∧
      gc.get true = g.get true ∧ gs.get false = g.get false ∧
      (∀ ga ra jc gb rb js,
        CDemoRecorder.dtor g1 c1 = Except.ok (ga, ra, jc) →
        CDemoRecorder.dtor ga s1 = Except.ok (gb, rb, js) →
        (∃ x, CDemoRecorder.dtor gc c1 = Except.ok (x, ra, jc)) ∧
        (∃ y, CDemoRecorder.dtor gs s1 = Except.ok (y, rb, js))) ∧
      (∀ ga ra js gb rb jc,
        CDemoRecorder.dtor g1 s1 = Except.ok (ga, ra, js) →
        CDemoRecorder.dtor ga c1 = Except.ok (gb, rb, jc) →
        (∃ x, CDemoRecorder.dtor gs s1 = Except.ok (x, ra, js)) ∧
        (∃ y, CDemoRecorder.dtor gc c1 = Except.ok (y, rb, jc))) := by
  refine ⟨?_, ?_, ?_, ?_⟩
  · intro g0 r op g2 r2 h
    exact Commutes.frame
      (step_commutes r op (!r.isServerDemo) (by cases r.isServerDemo <;> decide)) g0 g2 r2 h
  · intro g0 mapName modName kind g2 r2 h
    rw [CDemoRecorder.ctor_ok] at h
    simp only [Except.ok.injEq, Prod.mk.injEq] at h
    rw [← h.1]
    exact DemoStreams.get_set_other _ _ _ _ (by cases kind <;> decide)
  · intro g0 r g2 r2 job h
    exact (dtor_image_local g0 g0 g2 r r2 job rfl h).1
  · obtain ⟨gc, gs, h1, h2, h3, h4, h5, h6, h7, h8⟩ :=
      runBoth_split sched g g g client server g1 c1 s1 hc hs rfl rfl hrun
    refine ⟨gc, gs, h1, h2, h3, h4, h5, h6, ?_, ?_⟩
    · intro ga ra jc gb rb js hd1 hd2
      have a1 := dtor_image_local g1 gc ga c1 ra jc (by rw [h7]; exact h3) hd1
      have hga : gs.get s1.isServerDemo = ga.get s1.isServerDemo := by
        have := a1.1
        rw [h7] at this
        rw [h8, h4]
        exact this.symm
      have a2 := dtor_image_local ga gs gb s1 rb js hga hd2
      obtain ⟨x, hx, _⟩ := a1.2
      obtain ⟨y, hy, _⟩ := a2.2
      exact ⟨⟨x, hx⟩, ⟨y, hy⟩⟩
    · intro ga ra js gb rb jc hd1 hd2
      have a1 := dtor_image_local g1 gs ga s1 ra js (by rw [h8]; exact h4) hd1
      have hga : gc.get c1.isServerDemo = ga.get c1.isServerDemo := by
        have := a1.1
        rw [h8] at this
        rw [h7, h3]
        exact this.symm
      have a2 := dtor_image_local ga gc gb c1 rb jc hga hd2
      obtain ⟨x, hx, _⟩ := a1.2
      obtain ⟨y, hy, _⟩ := a2.2
      exact ⟨⟨x, hx⟩, ⟨y, hy⟩⟩

/-- C13 at a concrete input: the sample schedule on a client and a server
recorder of the sample layout. -/
theorem C13_disjoint_sessions_witness :
    ∃ g1 c1 s1,
      (sampleRecorder.isServerDemo = false ∧ sampleServerRecorder.isServerDemo = true ∧
        runBoth sampleBothStreams sampleRecorder sampleServerRecorder sampleSchedule
          = Except.ok (g1, c1, s1)) ∧
      ∃ gc gs,
        runOps sampleBothStreams sampleRecorder (opsOf false sampleSchedule)
          = Except.ok (gc, c1) ∧
        runOps sampleBothStreams sampleServerRecorder (opsOf true sampleSchedule)
          = Except.ok (gs, s1) ∧
        gc.get false = g1.get false ∧ gs.get true = g1.get true ∧
        gc.get true = sampleBothStreams.get true ∧
        gs.get false = sampleBothStreams.get false := by
  have hrun : ∃ g1 c1 s1,
      runBoth sampleBothStreams sampleRecorder sampleServerRecorder sampleSchedule
        = Except.ok (g1, c1, s1) := ⟨_, _, _, rfl⟩
  obtain ⟨g1, c1, s1, hrun⟩ := hrun
  obtain ⟨gc, gs, h1, h2, h3, h4, h5, h6, _⟩ :=
    (C13_disjoint_sessions sampleLayout sampleEnv sampleBothStreams sampleRecorder
      sampleServerRecorder rfl rfl sampleSchedule g1 c1 s1 hrun).2.2.2
  exact ⟨g1, c1, s1, ⟨rfl, rfl, hrun⟩, gc, gs, h1, h2, h3, h4, h5, h6⟩

/-! ## C14 -/

/-- The four format constants of a header. -/
theorem header_constants_ctor (L : Layout) (E : Env) :
    (CDemoRecorder.SetFileHeader.header L E).version = E.DEMOFILE_VERSION ∧
    (CDemoRecorder.SetFileHeader.header L E).headerSize = (L.sizeofHeader : Int) ∧
    (CDemoRecorder.SetFileHeader.header L E).playerStatElemSize
      = (L.sizeofPlayerStatistics : Int) ∧
    (CDemoRecorder.SetFileHeader.header L E).teamStatElemSize
      = (L.sizeofTeamStatistics : Int) :=
  ⟨rfl, rfl, rfl, rfl⟩

/-- In every reachable state the header carries the format constants. -/
theorem Reachable.constants {L : Layout} {E : Env} {g : DemoStreams} {r : CDemoRecorder L}
    {saved : List (Nat × List Byte)} (h : Reachable L E g r saved) :
    r.fileHeader.version = E.DEMOFILE_VERSION ∧
    r.fileHeader.headerSize = (L.sizeofHeader : Int) ∧
    r.fileHeader.playerStatElemSize = (L.sizeofPlayerStatistics : Int) ∧
    r.fileHeader.teamStatElemSize = (L.sizeofTeamStatistics : Int) := by
  induction h with
  | ctor g0 mapName modName serverDemo g r hc =>
    rw [CDemoRecorder.ctor_ok] at hc
    simp only [Except.ok.injEq, Prod.mk.injEq] at hc
    obtain ⟨_, hr⟩ := hc
    subst hr
    exact header_constants_ctor L E
  | writeSetupText g r saved text g1 r1 hR hop ih =>
    obtain ⟨s, hs, _⟩ := hR.inv
    obtain ⟨n, _, _, hr1⟩ := WriteSetupText_inv g g1 r r1 s hs text hop
    subst hr1
    exact ih
  | saveToDemo g r saved buf length t g1 r1 hR hop ih =>
    obtain ⟨s, hs, _⟩ := hR.inv
    obtain ⟨_, _, hr1⟩ := SaveToDemo_inv g g1 r r1 s hs buf length t hop
    subst hr1
    exact ih
  | setGameID g r saved buf g1 r1 hR hop ih =>
    obtain ⟨s, hs, hp, _⟩ := hR.inv
    obtain ⟨_, _, hr1⟩ := SetGameID_inv g g1 r r1 s hs hp buf hop
    subst hr1
    exact ih
  | setTime g r saved gameTime wallclockTime _ ih => exact ih
  | initializeStats g r saved numPlayers numTeams r1 _ _ _ hop ih =>
    obtain ⟨_, h2, _⟩ := InitializeStats_frame r r1 numPlayers numTeams hop
    rw [h2]
    exact ih
  | addNewPlayer g r saved name playerNum r1 _ hop ih =>
    obtain ⟨_, h2, _⟩ := AddNewPlayer_frame r r1 name playerNum hop
    rw [h2]
    exact ih
  | setPlayerStats g r saved playerNum stats r1 _ hop ih =>
    obtain ⟨_, h2, _⟩ := SetPlayerStats_frame r r1 playerNum stats hop
    rw [h2]
    exact ih
  | setTeamStats g r saved teamNum stats r1 _ hop ih =>
    obtain ⟨_, h2, _⟩ := SetTeamStats_frame r r1 teamNum stats hop
    rw [h2]
    exact ih
  | setWinningAllyTeams g r saved ids _ ih => exact ih

/-- C14: immediately after construction the write cursor equals
`fileHeader.headerSize` and `scriptSize`, `demoStreamSize`, `numPlayers`,
`numTeams`, `playerStatSize`, `teamStatSize` and `winningAllyTeamsSize` are 0. In
every state reached by public calls, and after each pass of the destructor up to
the recorder that the destructor leaves with the final header write,
`version == DEMOFILE_VERSION`, `headerSize == sizeof(DemoFileHeader)`,
`playerStatElemSize == sizeof(PlayerStatistics)` and
`teamStatElemSize == sizeof(TeamStatistics)`; the header bytes of the final image
are those of that header. -/
theorem C14_format_constants (L : Layout) (E : Env) :
    (∀ (g0 : DemoStreams) (mapName modName : String) (serverDemo : Bool),
      ∃ g r s,
        CDemoRecorder.ctor L E g0 mapName modName serverDemo = Except.ok (g, r) ∧
        g.get serverDemo = some s ∧
        (s.pos : Int) = r.fileHeader.headerSize ∧
        r.fileHeader.scriptSize = 0 ∧ r.fileHeader.demoStreamSize = 0 ∧
        r.fileHeader.numPlayers = 0 ∧ r.fileHeader.numTeams = 0 ∧
        r.fileHeader.playerStatSize = 0 ∧ r.fileHeader.teamStatSize = 0 ∧
        r.fileHeader.winningAllyTeamsSize = 0) ∧
    (∀ (g : DemoStreams) (r : CDemoRecorder L) (saved : List (Nat × List Byte)),
      Reachable L E g r saved →
      (r.fileHeader.version = E.DEMOFILE_VERSION ∧
        r.fileHeader.headerSize = (L.sizeofHeader : Int) ∧
        r.fileHeader.playerStatElemSize = (L.sizeofPlayerStatistics : Int) ∧
        r.fileHeader.teamStatElemSize = (L.sizeofTeamStatistics : Int)) ∧
      ∃ g1 r1 g2 r2 g3 r3 g4 job,
        CDemoRecorder.WriteWinnerList g r = Except.ok (g1, r1) ∧
        CDemoRecorder.WritePlayerStats g1 r1 = Except.ok (g2, r2) ∧
        CDemoRecorder.WriteTeamStats g2 r2 = Except.ok (g3, r3) ∧
        CDemoRecorder.dtor g r = Except.ok (g4, r3, job) ∧
        job.data.take L.sizeofHeader = L.headerBytes (L.swabHeader r3.fileHeader) ∧
        (∀ x : CDemoRecorder L, x = r1 ∨ x = r2 ∨ x = r3 →
          x.fileHeader.version = E.DEMOFILE_VERSION ∧
          x.fileHeader.headerSize = (L.sizeofHeader : Int) ∧
          x.fileHeader.playerStatElemSize = (L.sizeofPlayerStatistics : Int) ∧
          x.fileHeader.teamStatElemSize = (L.sizeofTeamStatistics : Int))) := by
  constructor
  · intro g0 mapName modName serverDemo
    exact ⟨_, _, _, CDemoRecorder.ctor_ok L E g0 mapName modName serverDemo,
      DemoStreams.get_set_same _ _ _, rfl, rfl, rfl, rfl, rfl, rfl, rfl, rfl⟩
  · intro g r saved hR
    have hk := hR.constants
    obtain ⟨s, hs, hp, _⟩ := hR.inv
    have hp1 := StringStream.write_pos_le s (winnerSection r) hp
    have hp2 := StringStream.write_pos_le _ (playerSection L r.playerStats) hp1
    have h1 := CDemoRecorder.WriteWinnerList_spec g r s hs hp
    have h2 := CDemoRecorder.WritePlayerStats_ok
      (g.set r.isServerDemo (some (s.write (winnerSection r))))
      { r with
        winningAllyTeams := if r.fileHeader.numTeams = 0 then r.winningAllyTeams else []
        fileHeader := { r.fileHeader with
          winningAllyTeamsSize :=
            if r.fileHeader.numTeams = 0 then r.fileHeader.winningAllyTeamsSize
            else wrapInt r.winningAllyTeams.length } }
      (s.write (winnerSection r)) (by simp) hp1
    have h3 := CDemoRecorder.WriteTeamStats_ok
      (g.set r.isServerDemo (some ((s.write (winnerSection r)).write
        (playerSection L r.playerStats))))
      { r with
        winningAllyTeams := if r.fileHeader.numTeams = 0 then r.winningAllyTeams else []
        playerStats := []
        fileHeader := { r.fileHeader with
          winningAllyTeamsSize :=
            if r.fileHeader.numTeams = 0 then r.fileHeader.winningAllyTeamsSize
            else wrapInt r.winningAllyTeams.length
          numPlayers := wrapInt r.playerStats.length
          playerStatSize := wrapInt (playerSection L r.playerStats).length } }
      ((s.write (winnerSection r)).write (playerSection L r.playerStats)) (by simp) hp2
    simp only [DemoStreams.set_set] at h2 h3
    have hd := CDemoRecorder.dtor_ok g r s hs hp
    refine ⟨hk, _, _, _, _, _, _, _, _, h1, h2, h3, hd, ?_, ?_⟩
    · exact List.take_left' (L.headerBytes_length _)
    · intro x hx
      rcases hx with hx | hx | hx <;> (subst hx; exact hk)

/-- C14 at a concrete input: the reachable state of the sample layout that has
recorded one batch. -/
theorem C14_format_constants_witness :
    ∃ g r,
      Reachable sampleLayout sampleEnv g r [(0x3FC00000, [67, 77, 68, 49])] ∧
      r.fileHeader.version = sampleEnv.DEMOFILE_VERSION ∧
      r.fileHeader.headerSize = (sampleLayout.sizeofHeader : Int) ∧
      r.fileHeader.playerStatElemSize = (sampleLayout.sizeofPlayerStatistics : Int) ∧
      r.fileHeader.teamStatElemSize = (sampleLayout.sizeofTeamStatistics : Int) := by
  obtain ⟨g, r, hR⟩ := sample_reachable
  exact ⟨g, r, hR, ((C14_format_constants sampleLayout sampleEnv).2 g r _ hR).1⟩

/-! ## C20 -/

theorem InitializeStats_teams {L : Layout} (r r1 : CDemoRecorder L) (numPlayers numTeams : Int)
    (hlo : -2 ^ 31 ≤ numTeams) (hhi : numTeams < 2 ^ 31)
    (h : CDemoRecorder.InitializeStats r numPlayers numTeams = Except.ok r1) :
    0 ≤ numTeams ∧ (r1.teamStats.length : Int) = numTeams := by
  unfold CDemoRecorder.InitializeStats at h
  cases h1 : vectorResize r.playerStats (toSizeT numPlayers) L.playerDefault with
  | error e => simp [h1, bind, Except.bind] at h
  | ok ps =>
    cases h2 : vectorResize r.teamStats (toSizeT numTeams) ([] : List L.TeamStatistics) with
    | error e => simp [h1, h2, bind, Except.bind] at h
    | ok ts =>
      simp only [h1, h2, bind, Except.bind, pure, Except.pure, Except.ok.injEq] at h
      subst h
      obtain ⟨hmax, hts⟩ := vectorResize_ok _ _ _ _ h2
      have hlen : ts.length = toSizeT numTeams := by
        rw [hts]
        simp
        omega
      unfold vectorMaxSize at hmax
      unfold toSizeT at hmax hlen
      simp only []
      omega

/-- In every reachable state `numTeams` is the number of team slots. -/
theorem Reachable.numTeams {L : Layout} {E : Env} {g : DemoStreams} {r : CDemoRecorder L}
    {saved : List (Nat × List Byte)} (h : Reachable L E g r saved) :
    r.fileHeader.numTeams = (r.teamStats.length : Int) := by
  induction h with
  | ctor g0 mapName modName serverDemo g r hc =>
    rw [CDemoRecorder.ctor_ok] at hc
    simp only [Except.ok.injEq, Prod.mk.injEq] at hc
    obtain ⟨_, hr⟩ := hc
    subst hr
    rfl
  | writeSetupText g r saved text g1 r1 hR hop ih =>
    obtain ⟨s, hs, _⟩ := hR.inv
    obtain ⟨n, _, _, hr1⟩ := WriteSetupText_inv g g1 r r1 s hs text hop
    subst hr1
    exact ih
  | saveToDemo g r saved buf length t g1 r1 hR hop ih =>
    obtain ⟨s, hs, _⟩ := hR.inv
    obtain ⟨_, _, hr1⟩ := SaveToDemo_inv g g1 r r1 s hs buf length t hop
    subst hr1
    exact ih
  | setGameID g r saved buf g1 r1 hR hop ih =>
    obtain ⟨s, hs, hp, _⟩ := hR.inv
    obtain ⟨_, _, hr1⟩ := SetGameID_inv g g1 r r1 s hs hp buf hop
    subst hr1
    exact ih
  | setTime g r saved gameTime wallclockTime _ ih => exact ih
  | initializeStats g r saved numPlayers numTeams r1 _ hlo hhi hop ih =>
    obtain ⟨_, h2, _⟩ := InitializeStats_frame r r1 numPlayers numTeams hop
    rw [h2]
    exact (InitializeStats_teams r r1 numPlayers numTeams hlo hhi hop).2.symm
  | addNewPlayer g r saved name playerNum r1 _ hop ih =>
    obtain ⟨_, h2, _, h4⟩ := AddNewPlayer_frame r r1 name playerNum hop
    rw [h2, h4]
    exact ih
  | setPlayerStats g r saved playerNum stats r1 _ hop ih =>
    obtain ⟨_, h2, _, h4⟩ := SetPlayerStats_frame r r1 playerNum stats hop
    rw [h2, h4]
    exact ih
  | setTeamStats g r saved teamNum stats r1 _ hop ih =>
    obtain ⟨_, h2, _, _, h5⟩ := SetTeamStats_frame r r1 teamNum stats hop
    rw [h2, h5]
    exact ih
  | setWinningAllyTeams g r saved ids _ ih => exact ih

/-- A throwing `InitializeStats` whose `numTeams` is a non-negative `int` has
thrown at the first `resize`, before any data member was changed. -/
theorem InitializeStats_thrown {L : Layout} (r r1 : CDemoRecorder L)
    (numPlayers numTeams : Int) (e : Fault)
    (hlo : 0 ≤ numTeams) (hhi : numTeams < 2 ^ 31)
    (h : CDemoRecorder.InitializeStats r numPlayers numTeams = Except.error (e, r1)) :
    r1 = r := by
  unfold CDemoRecorder.InitializeStats at h
  cases h1 : vectorResize r.playerStats (toSizeT numPlayers) L.playerDefault with
  | error e1 =>
    simp only [h1, Except.error.injEq, Prod.mk.injEq] at h
    exact h.2.symm
  | ok ps =>
    have hmax : ¬ (vectorMaxSize < toSizeT numTeams) := by
      unfold vectorMaxSize toSizeT
      omega
    have h2 : ∀ v : List (List L.TeamStatistics),
        vectorResize v (toSizeT numTeams) ([] : List L.TeamStatistics)
          = Except.ok (v.take (toSizeT numTeams)
              ++ List.replicate (toSizeT numTeams - v.length) []) := by
      intro v
      simp only [vectorResize, hmax, if_false]
    rw [h1] at h
    simp only [h2] at h
    cases h

/-- The team-stats pass writes at its cursor one 4-byte count per team slot,
before the records. -/
theorem WriteTeamStats_counts {L : Layout} (g : DemoStreams) (r : CDemoRecorder L)
    (s : StringStream) (hs : g.get r.isServerDemo = some s) (hp : s.pos ≤ s.buf.length) :
    ∃ g1 r1,
      CDemoRecorder.WriteTeamStats g r = Except.ok (g1, r1) ∧
      g1.get r.isServerDemo
        = some (s.write (teamCounts L r.teamStats ++ teamRecords L r.teamStats)) ∧
      ((s.write (teamCounts L r.teamStats ++ teamRecords L r.teamStats)).buf.drop s.pos).take
        (4 * r.teamStats.length) = teamCounts L r.teamStats := by
  have h1 := CDemoRecorder.WriteTeamStats_ok g r s hs hp
  have hc := CDemoRecorder.teamCounts_length L r.teamStats
  have hd := StringStream.write_drop_take s
    (teamCounts L r.teamStats ++ teamRecords L r.teamStats) hp
  refine ⟨_, _, h1, by simp, ?_⟩
  have ht : ((s.write (teamCounts L r.teamStats ++ teamRecords L r.teamStats)).buf.drop
      s.pos).take (4 * r.teamStats.length)
      = (((s.write (teamCounts L r.teamStats ++ teamRecords L r.teamStats)).buf.drop
          s.pos).take (teamCounts L r.teamStats ++ teamRecords L r.teamStats).length).take
            (4 * r.teamStats.length) := by
    rw [List.take_take, List.length_append, hc]
    congr 1
    omega
  rw [ht, hd]
  exact List.take_left' hc

theorem drop_header_append (hdr body : List Byte) (H p : Nat) (hH : hdr.length = H)
    (hp : H ≤ p) : (hdr ++ body.drop H).drop p = body.drop p := by
  have h1 : p = hdr.length + (p - H) := by omega
  rw [h1, ← List.drop_drop, List.drop_left, List.drop_drop]
  congr 1
  omega

/-- C20: in every state reachable from construction by `InitializeStats`,
`SetTeamStats`, `SetPlayerStats`, `AddNewPlayer`, `SetWinningAllyTeams`,
`SetGameID`, `SetTime`, `WriteSetupText` and `SaveToDemo`, `fileHeader.numTeams`
equals the number of per-team history slots in `teamStats`; an `InitializeStats`
with `numTeams >= 0` that throws leaves the recorder in that same state. In the
destructor the team-stats pass receives these slots and writes at its cursor
(`s2.pos`, where the player-stats pass stopped) one 4-byte count per slot, the
bytes `teamCounts`; the header that the destructor leaves and writes carries the
same `numTeams`. While the stream is shorter than 2^32 bytes the counts lie
behind the header and are in the image handed to the writer at that offset: the
team count of the final header is the number of 32-bit counts written. -/
theorem C20_numTeams_is_slot_count (L : Layout) (E : Env) (g : DemoStreams)
    (r : CDemoRecorder L) (saved : List (Nat × List Byte)) (hR : Reachable L E g r saved) :
    r.fileHeader.numTeams = (r.teamStats.length : Int) ∧
    (∀ (numPlayers numTeams : Int) (e : Fault) (r1 : CDemoRecorder L),
      0 ≤ numTeams → numTeams < 2 ^ 31 →
      CDemoRecorder.InitializeStats r numPlayers numTeams = Except.error (e, r1) →
      r1 = r) ∧
    ∃ g1 r1 g2 r2 s2 g3 r3 s3 g4 r4 job,
      CDemoRecorder.WriteWinnerList g r = Except.ok (g1, r1) ∧
      CDemoRecorder.WritePlayerStats g1 r1 = Except.ok (g2, r2) ∧
      r2.teamStats = r.teamStats ∧
      g2.get r.isServerDemo = some s2 ∧
      CDemoRecorder.WriteTeamStats g2 r2 = Except.ok (g3, r3) ∧
      g3.get r.isServerDemo = some s3 ∧
      (s3.buf.drop s2.pos).take (4 * r.teamStats.length) = teamCounts L r.teamStats ∧
      (teamCounts L r.teamStats).length = 4 * r.teamStats.length ∧
      CDemoRecorder.dtor g r = Except.ok (g4, r4, job) ∧
      r4.fileHeader.numTeams = (r.teamStats.length : Int) ∧
      job.data.take L.sizeofHeader = L.headerBytes (L.swabHeader r4.fileHeader) ∧
      ((g.content r.isServerDemo).length < 2 ^ 32 →
        L.sizeofHeader ≤ s2.pos ∧
        (job.data.drop s2.pos).take (4 * r.teamStats.length)
          = teamCounts L r.teamStats) := by
  obtain ⟨s, hs, hp, _⟩ := hR.inv
  have hp1 := StringStream.write_pos_le s (winnerSection r) hp
  have hp2 := StringStream.write_pos_le _ (playerSection L r.playerStats) hp1
  have h1 := CDemoRecorder.WriteWinnerList_spec g r s hs hp
  have h2 := CDemoRecorder.WritePlayerStats_ok
    (g.set r.isServerDemo (some (s.write (winnerSection r))))
    { r with
      winningAllyTeams := if r.fileHeader.numTeams = 0 then r.winningAllyTeams else []
      fileHeader := { r.fileHeader with
        winningAllyTeamsSize :=
          if r.fileHeader.numTeams = 0 then r.fileHeader.winningAllyTeamsSize
          else wrapInt r.winningAllyTeams.length } }
    (s.write (winnerSection r)) (by simp) hp1
  obtain ⟨g3, r3, h3, hg3, hcnt⟩ := WriteTeamStats_counts
    (g.set r.isServerDemo (some ((s.write (winnerSection r)).write
      (playerSection L r.playerStats))))
    { r with
      winningAllyTeams := if r.fileHeader.numTeams = 0 then r.winningAllyTeams else []
      playerStats := []
      fileHeader := { r.fileHeader with
        winningAllyTeamsSize :=
          if r.fileHeader.numTeams = 0 then r.fileHeader.winningAllyTeamsSize
          else wrapInt r.winningAllyTeams.length
        numPlayers := wrapInt r.playerStats.length
        playerStatSize := wrapInt (playerSection L r.playerStats).length } }
    ((s.write (winnerSection r)).write (playerSection L r.playerStats)) (by simp) hp2
  simp only [DemoStreams.set_set] at h2
  simp only [] at h3 hg3 hcnt
  have hdt := CDemoRecorder.dtor_ok g r s hs hp
  have hs3 : ((s.write (winnerSection r)).write (playerSection L r.playerStats)).write
      (teamCounts L r.teamStats ++ teamRecords L r.teamStats)
      = s.write (statsSections r) := by
    rw [StringStream.write_write _ _ _ hp1, StringStream.write_write _ _ _ hp]
    rfl
  refine ⟨hR.numTeams,
    fun numPlayers numTeams e r1 hlo hhi h =>
      InitializeStats_thrown r r1 numPlayers numTeams e hlo hhi h,
    _, _, _, _, (s.write (winnerSection r)).write (playerSection L r.playerStats),
    g3, r3, _, _, _, _, h1, h2, rfl, by simp, h3, hg3, hcnt,
    CDemoRecorder.teamCounts_length L r.teamStats, hdt, hR.numTeams,
    List.take_left' (L.headerBytes_length _), ?_⟩
  intro hlt
  rw [content_of_get g _ s hs] at hlt
  have hh := hR.inv_lt s hs hlt
  refine ⟨by simp only [StringStream.write_pos]; omega, ?_⟩
  simp only []
  rw [drop_header_append _ _ L.sizeofHeader _ (L.headerBytes_length _)
    (by simp only [StringStream.write_pos]; omega), ← hs3]
  exact hcnt

/-- C20 at a concrete input: the recorder that construction leaves on the sample
layout, after `InitializeStats(2, 2)`; its stream has 352 bytes. -/
theorem C20_numTeams_is_slot_count_witness :
    ∃ g r,
      Reachable sampleLayout sampleEnv g r [] ∧
      (g.content r.isServerDemo).length < 2 ^ 32 ∧
      r.teamStats.length = 2 ∧
      r.fileHeader.numTeams = 2 ∧
      ∃ s2 r4 g4 job,
        CDemoRecorder.dtor g r = Except.ok (g4, r4, job) ∧
        r4.fileHeader.numTeams = 2 ∧
        (teamCounts sampleLayout r.teamStats).length = 4 * 2 ∧
        sampleLayout.sizeofHeader ≤ s2 ∧
        (job.data.drop s2).take (4 * 2) = teamCounts sampleLayout r.teamStats := by
  have hR0 := Reachable.ctor (L := sampleLayout) (E := sampleEnv) ⟨none, none⟩
    "DesertMap" "mod" false _ _ sample_ctor
  have hi : ∃ r1, CDemoRecorder.InitializeStats sampleRecorder 2 2 = Except.ok r1 ∧
      r1.teamStats.length = 2 ∧ r1.isServerDemo = sampleRecorder.isServerDemo :=
    ⟨_, rfl, rfl, rfl⟩
  obtain ⟨r1, hi1, hi2, hi3⟩ := hi
  have hR := Reachable.initializeStats _ _ _ 2 2 r1 hR0 (by decide) (by decide) hi1
  have hlt : (sampleStreams.content r1.isServerDemo).length < 2 ^ 32 := by
    rw [hi3, sample_content_length]
    decide
  obtain ⟨hn, _, g1, rA, g2, rB, s2, g3, r3, s3, g4, r4, job, _, _, _, _, _, _, _, hlen,
    hdt, hn4, _, himg⟩ := C20_numTeams_is_slot_count sampleLayout sampleEnv _ _ _ hR
  obtain ⟨hH, hcounts⟩ := himg hlt
  rw [hi2] at hn hn4 hlen hcounts
  exact ⟨_, r1, hR, hlt, hi2, hn, s2.pos, r4, g4, job, hdt, hn4, hlen, hH, hcounts⟩

/-! ## C15 -/

theorem SetName_loop_spec (E : Env) (oss : String) :
    ∀ (fuel n : Nat), fuel + n = 99 →
      (∀ j, j < n → E.fileExists (SetName.candidate oss j) = true) →
      ∃ k, n ≤ k ∧ k ≤ 99 ∧
        CDemoRecorder.SetName.loop E oss fuel n (SetName.candidate oss n)
          = SetName.candidate oss k ∧
        (∀ j, j < k → E.fileExists (SetName.candidate oss j) = true) ∧
        (k < 99 → E.fileExists (SetName.candidate oss k) = false) ∧
        ∀ extra checks, SetName.loopChecks E oss (fuel + 1 + extra) n
            (SetName.candidate oss n) checks
          = some (SetName.candidate oss k, checks + (k - n) + 1) := by
  intro fuel
  induction fuel with
  | zero =>
    intro n hn hex
    have h99 : n = 99 := by omega
    subst h99
    refine ⟨99, le_refl _, le_refl _, rfl, hex, fun h => absurd h (by decide), ?_⟩
    intro extra checks
    rw [show 0 + 1 + extra = extra + 1 by omega]
    simp [SetName.loopChecks]
  | succ fuel ih =>
    intro n hn hex
    have hlt : n < 99 := by omega
    cases hfe : E.fileExists (SetName.candidate oss n) with
    | false =>
      refine ⟨n, le_refl _, by omega, ?_, hex, fun _ => hfe, ?_⟩
      · simp [CDemoRecorder.SetName.loop, hfe]
      · intro extra checks
        rw [show fuel + 1 + 1 + extra = (fuel + 1 + extra) + 1 by omega]
        simp [SetName.loopChecks, hfe]
    | true =>
      have hex2 : ∀ j, j < n + 1 → E.fileExists (SetName.candidate oss j) = true := by
        intro j hj
        by_cases hjn : j = n
        · rw [hjn]; exact hfe
        · exact hex j (by omega)
      obtain ⟨k, hk1, hk2, hk3, hk4, hk5, hk6⟩ := ih (n + 1) (by omega) hex2
      refine ⟨k, by omega, hk2, ?_, hk4, hk5, ?_⟩
      · simp only [CDemoRecorder.SetName.loop, hfe, hlt, decide_True, Bool.and_self, if_true]
        exact hk3
      · intro extra checks
        rw [show fuel + 1 + 1 + extra = (fuel + 1 + extra) + 1 by omega]
        simp only [SetName.loopChecks, hfe, hlt, decide_True, Bool.and_self, if_true]
        have := hk6 extra (checks + 1)
        simp only [SetName.candidate] at this
        rw [this]
        congr 2
        omega

/-- C15: when the session directory can be created, `SetName` picks
`demoName = LocateFile(candidate k)` for some k < 100, where candidate 0 is
`<dir><time>_<map basename>_<version>.sdfz`, candidate n+1 has `_n` before the
extension, and `<dir>` is `demos-server/` for a server recorder and `demos/`
otherwise. The loop stops after k+1 <= 100 calls of `FileExists` for every
amount of fuel of at least 100; all candidates before k exist, and if any of the
100 candidates does not exist, candidate k does not exist: it is the first such
candidate in the order unsuffixed, _0, ..., _98. -/
theorem C15_SetName (L : Layout) (E : Env) (r : CDemoRecorder L) (mapName modName : String)
    (hdir : E.createDirectory (if r.isServerDemo then "demos-server/" else "demos/") = true) :
    ∃ k, k < 100 ∧
      (CDemoRecorder.SetName E r mapName modName).demoName
        = E.locateFile (SetName.candidate (SetName.stem E r.isServerDemo mapName) k) ∧
      (∀ fuel, 100 ≤ fuel →
        SetName.loopChecks E (SetName.stem E r.isServerDemo mapName) fuel 0
            (SetName.candidate (SetName.stem E r.isServerDemo mapName) 0) 0
          = some (SetName.candidate (SetName.stem E r.isServerDemo mapName) k, k + 1)) ∧
      k + 1 ≤ 100 ∧
      (∀ j, j < k →
        E.fileExists (SetName.candidate (SetName.stem E r.isServerDemo mapName) j) = true) ∧
      ((∃ j, j < 100 ∧
          E.fileExists (SetName.candidate (SetName.stem E r.isServerDemo mapName) j) = false) →
        E.fileExists (SetName.candidate (SetName.stem E r.isServerDemo mapName) k)
          = false) := by
  obtain ⟨k, _, hk2, hk3, hk4, hk5, hk6⟩ :=
    SetName_loop_spec E (SetName.stem E r.isServerDemo mapName) 99 0 rfl
      (fun j hj => absurd hj (Nat.not_lt_zero j))
  refine ⟨k, by omega, ?_, ?_, by omega, hk4, ?_⟩
  · simp only [CDemoRecorder.SetName, hdir, Bool.not_true, Bool.false_eq_true, if_false]
    exact congrArg E.locateFile hk3
  · intro fuel hfuel
    have := hk6 (fuel - 100) 0
    rw [show 99 + 1 + (fuel - 100) = fuel by omega] at this
    rw [this]
    simp
  · rintro ⟨j, hj, hjn⟩
    by_cases hk : k < 99
    · exact hk5 hk
    · have hk99 : k = 99 := by omega
      by_cases hjk : j < k
      · rw [hk4 j hjk] at hjn
        cases hjn
      · have : j = k := by omega
        rw [← this]
        exact hjn

/-- C15 at a concrete input: the client recorder of the sample layout in the
sample environment, where every directory can be created. -/
theorem C15_SetName_witness :
    sampleEnv.createDirectory
      (if (CDemoRecorder.ctor.members sampleLayout false).isServerDemo
        then "demos-server/" else "demos/") = true ∧
    ∃ k, k < 100 ∧
      (CDemoRecorder.SetName sampleEnv (CDemoRecorder.ctor.members sampleLayout false)
          "DesertMap" "mod").demoName
        = sampleEnv.locateFile (SetName.candidate (SetName.stem sampleEnv
            (CDemoRecorder.ctor.members sampleLayout false).isServerDemo "DesertMap") k) ∧
      (∀ fuel, 100 ≤ fuel →
        SetName.loopChecks sampleEnv (SetName.stem sampleEnv
              (CDemoRecorder.ctor.members sampleLayout false).isServerDemo "DesertMap") fuel 0
            (SetName.candidate (SetName.stem sampleEnv
              (CDemoRecorder.ctor.members sampleLayout false).isServerDemo "DesertMap") 0) 0
          = some (SetName.candidate (SetName.stem sampleEnv
              (CDemoRecorder.ctor.members sampleLayout false).isServerDemo "DesertMap") k,
            k + 1)) ∧
      k + 1 ≤ 100 ∧
      (∀ j, j < k →
        sampleEnv.fileExists (SetName.candidate (SetName.stem sampleEnv
          (CDemoRecorder.ctor.members sampleLayout false).isServerDemo "DesertMap") j) = true) ∧
      ((∃ j, j < 100 ∧
          sampleEnv.fileExists (SetName.candidate (SetName.stem sampleEnv
            (CDemoRecorder.ctor.members sampleLayout false).isServerDemo "DesertMap") j)
              = false) →
        sampleEnv.fileExists (SetName.candidate (SetName.stem sampleEnv
          (CDemoRecorder.ctor.members sampleLayout false).isServerDemo "DesertMap") k)
            = false) :=
  ⟨rfl, C15_SetName sampleLayout sampleEnv (CDemoRecorder.ctor.members sampleLayout false)
    "DesertMap" "mod" rfl⟩

/-! ## C16 -/

theorem toLE_length (w : Nat) : ∀ n, (toLE w n).length = w := by
  induction w with
  | zero => intro n; rfl
  | succ w ih => intro n; simp [toLE, ih]

theorem ofLE_toLE (w : Nat) : ∀ n, ofLE (toLE w n) = n % 256 ^ w := by
  induction w with
  | zero => intro n; simp [toLE, ofLE, Nat.mod_one]
  | succ w ih =>
    intro n
    simp only [toLE, ofLE, ih, Fin.ofNat, pow_succ]
    rw [Nat.mul_comm (256 ^ w) 256, Nat.mod_mul]

theorem toLE_ofLE (bs : List Byte) : toLE bs.length (ofLE bs) = bs := by
  induction bs with
  | nil => rfl
  | cons b rest ih =>
    simp only [List.length_cons, toLE, ofLE]
    have h1 : (Fin.ofNat (b.val + 256 * ofLE rest) : Byte) = b := by
      apply Fin.ext
      simp [Fin.ofNat]
    have h2 : (b.val + 256 * ofLE rest) / 256 = ofLE rest := by omega
    rw [h1, h2, ih]

theorem ofLE_lt (bs : List Byte) : ofLE bs < 256 ^ bs.length := by
  induction bs with
  | nil => simp [ofLE]
  | cons b rest ih =>
    simp only [ofLE, List.length_cons, pow_succ]
    have := b.isLt
    omega

theorem byteSwap_lt (w n : Nat) : byteSwap w n < 256 ^ w := by
  have h := ofLE_lt (toLE w n).reverse
  rw [List.length_reverse, toLE_length] at h
  exact h

theorem byteSwap_byteSwap (w n : Nat) (h : n < 256 ^ w) : byteSwap w (byteSwap w n) = n := by
  unfold byteSwap
  have h1 : toLE w (ofLE (toLE w n).reverse) = (toLE w n).reverse := by
    have := toLE_ofLE (toLE w n).reverse
    rwa [List.length_reverse, toLE_length] at this
  rw [h1, List.reverse_reverse, ofLE_toLE, Nat.mod_eq_of_lt h]

theorem swabDWordOn_twice (b : Bool) (c : Nat) (h : c < 2 ^ 32) :
    swabDWordOn b (swabDWordOn b c) = c := by
  cases b with
  | false => rfl
  | true =>
    simp only [swabDWordOn, if_true]
    exact byteSwap_byteSwap 4 c (by norm_num; exact h)

theorem swabIntOn_twice (b : Bool) (x : Int) (h : IsInt x) :
    swabIntOn b (swabIntOn b x) = x := by
  cases b with
  | false => rfl
  | true =>
    simp only [swabIntOn, if_true]
    have hp : toUnsigned x < 2 ^ 32 := by unfold toUnsigned; omega
    have hq : byteSwap 4 (toUnsigned x) < 2 ^ 32 := by
      have := byteSwap_lt 4 (toUnsigned x)
      norm_num at this
      exact this
    have h1 : toUnsigned (fromU32 (byteSwap 4 (toUnsigned x))) = byteSwap 4 (toUnsigned x) := by
      generalize byteSwap 4 (toUnsigned x) = q at hq
      unfold toUnsigned fromU32
      split <;> omega
    rw [h1, byteSwap_byteSwap 4 _ (by norm_num; exact hp)]
    obtain ⟨h2, h3⟩ := h
    unfold toUnsigned fromU32
    split <;> omega

theorem swabQWordOn_twice (b : Bool) (x : Int) (h0 : 0 ≤ x) (h1 : x < 2 ^ 64) :
    swabQWordOn b (swabQWordOn b x) = x := by
  cases b with
  | false => rfl
  | true =>
    simp only [swabQWordOn, if_true]
    have hp : toSizeT x < 2 ^ 64 := by unfold toSizeT; omega
    have hq : byteSwap 8 (toSizeT x) < 2 ^ 64 := by
      have := byteSwap_lt 8 (toSizeT x)
      norm_num at this
      exact this
    have h2 : toSizeT ((byteSwap 8 (toSizeT x) : Nat) : Int) = byteSwap 8 (toSizeT x) :=
      toSizeT_natCast _ hq
    rw [h2, byteSwap_byteSwap 8 _ (by norm_num; exact hp)]
    unfold toSizeT
    omega

/-- C17: in the byte-order model of the spec, on a little-endian and on a
big-endian host, applying the transform twice gives back the value: for every
32-bit count `c` (`swabDWord`), every `DemoStreamChunkHeader`, every
`DemoFileHeader` whose numeric fields have values of their types, and every
`PlayerStatistics` or `TeamStatistics` record of numeric fields. -/
theorem C17_swab_involutive (hostBigEndian : Bool) :
    (∀ c : Nat, c < 2 ^ 32 →
      swabDWordOn hostBigEndian (swabDWordOn hostBigEndian c) = c) ∧
    (∀ x : DemoStreamChunkHeader, x.modGameTime < 2 ^ 32 → x.length < 2 ^ 32 →
      (x.swabOn hostBigEndian).swabOn hostBigEndian = x) ∧
    (∀ h : DemoFileHeader, h.InRange →
      (h.swabOn hostBigEndian).swabOn hostBigEndian = h) ∧
    (∀ x : NumericRecord, (∀ f ∈ x, f.2 < 256 ^ f.1) →
      (x.swabOn hostBigEndian).swabOn hostBigEndian = x) := by
  refine ⟨swabDWordOn_twice hostBigEndian, ?_, ?_, ?_⟩
  · intro x h1 h2
    cases x with
    | mk t n =>
      simp only [DemoStreamChunkHeader.swabOn, DemoStreamChunkHeader.mk.injEq]
      exact ⟨swabDWordOn_twice _ t h1, swabDWordOn_twice _ n h2⟩
  · intro h hr
    obtain ⟨a1, a2, a3, a4, a5, a6, a7, a8, a9, a10, a11, a12, a13, a14, a15⟩ := hr
    cases h
    simp only [DemoFileHeader.swabOn, DemoFileHeader.mk.injEq]
    simp only at a1 a2 a3 a4 a5 a6 a7 a8 a9 a10 a11 a12 a13 a14 a15
    simp only [swabIntOn_twice _ _ a1, swabIntOn_twice _ _ a2, swabQWordOn_twice _ _ a3.1 a3.2,
      swabIntOn_twice _ _ a4, swabIntOn_twice _ _ a5, swabIntOn_twice _ _ a6,
      swabIntOn_twice _ _ a7, swabIntOn_twice _ _ a8, swabIntOn_twice _ _ a9,
      swabIntOn_twice _ _ a10, swabIntOn_twice _ _ a11, swabIntOn_twice _ _ a12,
      swabIntOn_twice _ _ a13, swabIntOn_twice _ _ a14, swabIntOn_twice _ _ a15, and_self]
  · intro x hx
    induction x with
    | nil => rfl
    | cons f rest ih =>
      have hf := hx f (List.mem_cons_self _ _)
      have hrest := ih (fun f2 h2 => hx f2 (List.mem_cons_of_mem _ h2))
      simp only [NumericRecord.swabOn, List.map_cons, List.cons.injEq] at hrest ⊢
      refine ⟨?_, hrest⟩
      cases hostBigEndian with
      | false => rfl
      | true =>
        simp only [if_true]
        rw [byteSwap_byteSwap _ _ hf]

/-- C17 at a concrete input: a big-endian host, the count 0x01020304 and a chunk
header; the swapped count is 0x04030201. -/
theorem C17_swab_involutive_witness :
    ((0x01020304 : Nat) < 2 ^ 32 ∧ swabDWordOn true 0x01020304 = 0x04030201 ∧
      swabDWordOn true (swabDWordOn true 0x01020304) = 0x01020304) ∧
    (((⟨0x3FC00000, 4⟩ : DemoStreamChunkHeader).swabOn true).swabOn true
      = (⟨0x3FC00000, 4⟩ : DemoStreamChunkHeader)) ∧
    (NumericRecord.swabOn true (NumericRecord.swabOn true [(4, 7), (2, 258)])
      = [(4, 7), (2, 258)]) :=
  ⟨⟨by decide, by decide, (C17_swab_involutive true).1 0x01020304 (by decide)⟩,
    (C17_swab_involutive true).2.1 ⟨0x3FC00000, 4⟩ (by decide) (by decide),
    (C17_swab_involutive true).2.2.2 [(4, 7), (2, 258)] (by decide)⟩

/-! ## C19 -/

theorem passes_accumulators {L : Layout} (g : DemoStreams) (r : CDemoRecorder L)
    (s : StringStream) (hs : g.get r.isServerDemo = some s) (hp : s.pos ≤ s.buf.length) :
    ∃ g1 r1,
      (do
        let (g, r) ← CDemoRecorder.WriteWinnerList g r
        let (g, r) ← CDemoRecorder.WritePlayerStats g r
        CDemoRecorder.WriteTeamStats g r) = Except.ok (g1, r1) ∧
      r1.playerStats = [] ∧ r1.teamStats = [] ∧
      r1.winningAllyTeams = if r.fileHeader.numTeams = 0 then r.winningAllyTeams else [] :=
  ⟨_, _, CDemoRecorder.passes_ok g r s hs hp, rfl, rfl, rfl⟩

/-- C19, as stated, fails: a recorder that never initialized its statistics
(`numTeams == 0`) and stored the winner list `[2]` still holds that list after the
three passes; only the other two accumulators are empty. -/
theorem C19_winner_list_survives :
    ∃ g r g1 r1,
      CDemoRecorder.ctor sampleLayout sampleEnv ⟨none, none⟩ "DesertMap" "mod" false
        = Except.ok (g, r) ∧
      (do
        let (g, r) ← CDemoRecorder.WriteWinnerList g (CDemoRecorder.SetWinningAllyTeams r [2])
        let (g, r) ← CDemoRecorder.WritePlayerStats g r
        CDemoRecorder.WriteTeamStats g r) = Except.ok (g1, r1) ∧
      r1.winningAllyTeams = [2] ∧ r1.winningAllyTeams.length ≠ 0 ∧
      r1.playerStats.length = 0 ∧ r1.teamStats.length = 0 :=
  ⟨_, _, _, _,
    CDemoRecorder.ctor_ok sampleLayout sampleEnv ⟨none, none⟩ "DesertMap" "mod" false,
    CDemoRecorder.passes_ok _ _ _ (DemoStreams.get_set_same _ _ _)
      (by simp [sampleLayout.headerBytes_length]),
    rfl, by decide, rfl, rfl⟩

/-- C19, amended: for every recorder state whose stream is live, the three passes
`WriteWinnerList`, `WritePlayerStats`, `WriteTeamStats` succeed and leave
`playerStats` and `teamStats` with length 0; `winningAllyTeams` has length 0 when
`fileHeader.numTeams` is not 0 and is left as it was when `numTeams` is 0. -/
theorem C19_accumulators_after_passes (L : Layout) (g : DemoStreams) (r : CDemoRecorder L)
    (s : StringStream) (hs : g.get r.isServerDemo = some s) (hp : s.pos ≤ s.buf.length) :
    ∃ g1 r1,
      (do
        let (g, r) ← CDemoRecorder.WriteWinnerList g r
        let (g, r) ← CDemoRecorder.WritePlayerStats g r
        CDemoRecorder.WriteTeamStats g r) = Except.ok (g1, r1) ∧
      r1.playerStats.length = 0 ∧ r1.teamStats.length = 0 ∧
      (r.fileHeader.numTeams ≠ 0 → r1.winningAllyTeams.length = 0) ∧
      (r.fileHeader.numTeams = 0 → r1.winningAllyTeams = r.winningAllyTeams) := by
  obtain ⟨g1, r1, h, h1, h2, h3⟩ := passes_accumulators g r s hs hp
  refine ⟨g1, r1, h, by rw [h1]; rfl, by rw [h2]; rfl, ?_, ?_⟩
  · intro h0
    rw [h3, if_neg h0]
    rfl
  · intro h0
    rw [h3, if_pos h0]

/-- C19, amended, at a concrete state: the sample recorder with one player slot,
one team slot holding a record, and the winner list `[2]`, `numTeams` being 1. -/
theorem C19_accumulators_after_passes_witness :
    ∃ g1 r1,
      sampleStreams.get sampleRecorder.isServerDemo = some sampleStream ∧
      sampleStream.pos ≤ sampleStream.buf.length ∧
      (do
        let (g, r) ← CDemoRecorder.WriteWinnerList sampleStreams
          ({ sampleRecorder with
            fileHeader := { sampleRecorder.fileHeader with numTeams := 1 }
            playerStats := [({ counter := 7 } : SampleStatistics)]
            teamStats := [[({ counter := 1 } : SampleStatistics)]]
            winningAllyTeams := [2] } : CDemoRecorder sampleLayout)
        let (g, r) ← CDemoRecorder.WritePlayerStats g r
        CDemoRecorder.WriteTeamStats g r) = Except.ok (g1, r1) ∧
      r1.playerStats.length = 0 ∧ r1.teamStats.length = 0 ∧
      r1.winningAllyTeams.length = 0 := by
  obtain ⟨g1, r1, h, h1, h2, h3, _⟩ := C19_accumulators_after_passes sampleLayout sampleStreams
    ({ sampleRecorder with
      fileHeader := { sampleRecorder.fileHeader with numTeams := 1 }
      playerStats := [({ counter := 7 } : SampleStatistics)]
      teamStats := [[({ counter := 1 } : SampleStatistics)]]
      winningAllyTeams := [2] } : CDemoRecorder sampleLayout)
    sampleStream sampleStreams_get sampleStream_pos
  exact ⟨g1, r1, sampleStreams_get, sampleStream_pos, h, h1, h2, h3 (by decide)⟩

/-! ## C21 -/

theorem StringStream.write_take_le (s : StringStream) (d : List Byte) (n : Nat)
    (hn : n ≤ s.pos) (h : s.pos ≤ s.buf.length) :
    (s.write d).buf.take n = s.buf.take n := by
  have h1 := StringStream.write_take s d h
  have h2 : (s.write d).buf.take n = ((s.write d).buf.take s.pos).take n := by
    rw [List.take_take, Nat.min_eq_left hn]
  rw [h2, h1, List.take_take, Nat.min_eq_left hn]

theorem header_zero_size_eq (h : DemoFileHeader) (h0 : h.demoStreamSize = 0) :
    { h with demoStreamSize := 0 } = h := by
  cases h
  simp only at h0
  subst h0
  rfl

/-- While the stream of a reachable state is shorter than 2^32 bytes, its header
region is the image of a header whose `demoStreamSize` is 0. -/
theorem Reachable.placeholder {L : Layout} {E : Env} {g : DemoStreams} {r : CDemoRecorder L}
    {saved : List (Nat × List Byte)} (h : Reachable L E g r saved) :
    ∀ s, g.get r.isServerDemo = some s → s.buf.length < 2 ^ 32 →
      ∃ hd, s.buf.take L.sizeofHeader = L.headerBytes (L.swabHeader hd) ∧
        hd.demoStreamSize = 0 := by
  induction h with
  | ctor g0 mapName modName serverDemo g r hc =>
    intro s hs hlt
    rw [CDemoRecorder.ctor_ok] at hc
    simp only [Except.ok.injEq, Prod.mk.injEq] at hc
    obtain ⟨hg, hr⟩ := hc
    subst hg hr
    simp only [DemoStreams.get_set_same, Option.some.injEq] at hs
    subst hs
    refine ⟨CDemoRecorder.SetFileHeader.header L E, ?_, ?_⟩
    · exact List.take_left' (L.headerBytes_length _)
    · simp [CDemoRecorder.SetFileHeader.header, DemoFileHeader.zero]
  | writeSetupText g r saved text g1 r1 hprev hop ih =>
    intro s1 hs1 hlt
    obtain ⟨s, hs, hp, _⟩ := hprev.inv
    obtain ⟨n, _, hg1, hr1⟩ := WriteSetupText_inv g g1 r r1 s hs text hop
    subst hg1 hr1
    simp only [DemoStreams.get_set_same, Option.some.injEq] at hs1
    subst hs1
    have hle := StringStream.write_length_le s (text.take n) hp
    have hlt0 : s.buf.length < 2 ^ 32 := by omega
    have hh := hprev.inv_lt s hs hlt0
    obtain ⟨hd, ht, h0⟩ := ih s hs hlt0
    refine ⟨hd, ?_, h0⟩
    rw [StringStream.write_take_le s _ _ (by omega) hp]
    exact ht
  | saveToDemo g r saved buf length t g1 r1 hprev hop ih =>
    intro s1 hs1 hlt
    obtain ⟨s, hs, hp, _⟩ := hprev.inv
    obtain ⟨hl, hg1, hr1⟩ := SaveToDemo_inv g g1 r r1 s hs buf length t hop
    subst hg1 hr1
    simp only [DemoStreams.get_set_same, Option.some.injEq] at hs1
    subst hs1
    have hp1 := StringStream.write_pos_le s
      (L.chunkBytes (L.swabChunk { modGameTime := t, length := length })) hp
    have hle1 := StringStream.write_length_le s
      (L.chunkBytes (L.swabChunk { modGameTime := t, length := length })) hp
    have hle2 := StringStream.write_length_le _ (buf.take length) hp1
    have hlt0 : s.buf.length < 2 ^ 32 := by omega
    have hh := hprev.inv_lt s hs hlt0
    obtain ⟨hd, ht, h0⟩ := ih s hs hlt0
    refine ⟨hd, ?_, h0⟩
    rw [StringStream.write_take_le _ _ _ (by simp only [StringStream.write_pos]; omega) hp1,
      StringStream.write_take_le s _ _ (by omega) hp]
    exact ht
  | setGameID g r saved buf g1 r1 hprev hop ih =>
    intro s1 hs1 hlt
    obtain ⟨s, hs, hp, _⟩ := hprev.inv
    obtain ⟨hl, hg1, hr1⟩ := SetGameID_inv g g1 r r1 s hs hp buf hop
    subst hg1 hr1
    simp only [DemoStreams.get_set_same, Option.some.injEq] at hs1
    subst hs1
    exact ⟨{ r.fileHeader with gameID := buf.take L.sizeofGameID, demoStreamSize := 0 },
      List.take_left' (L.headerBytes_length _), rfl⟩
  | setTime g r saved gameTime wallclockTime _ ih => exact ih
  | initializeStats g r saved numPlayers numTeams r1 _ _ _ hop ih =>
    intro s hs hlt
    obtain ⟨h1, _, _⟩ := InitializeStats_frame r r1 numPlayers numTeams hop
    exact ih s (by rw [← h1]; exact hs) hlt
  | addNewPlayer g r saved name playerNum r1 _ hop ih =>
    intro s hs hlt
    obtain ⟨h1, _, _⟩ := AddNewPlayer_frame r r1 name playerNum hop
    exact ih s (by rw [← h1]; exact hs) hlt
  | setPlayerStats g r saved playerNum stats r1 _ hop ih =>
    intro s hs hlt
    obtain ⟨h1, _, _⟩ := SetPlayerStats_frame r r1 playerNum stats hop
    exact ih s (by rw [← h1]; exact hs) hlt
  | setTeamStats g r saved teamNum stats r1 _ hop ih =>
    intro s hs hlt
    obtain ⟨h1, _, _⟩ := SetTeamStats_frame r r1 teamNum stats hop
    exact ih s (by rw [← h1]; exact hs) hlt
  | setWinningAllyTeams g r saved ids _ ih => exact ih

theorem rd32_le32 (n : Nat) (h : n < 2 ^ 32) : rd32 (le32 n) = n := by
  simp only [le32, rd32, Fin.ofNat]
  simp
  omega

theorem sample_streamSize_field (h : DemoFileHeader) :
    sampleStreamSizeField (sampleLayout.headerBytes (sampleLayout.swabHeader h))
      = (h.demoStreamSize % 2 ^ 32).toNat := by
  have hsplit : sampleLayout.headerBytes (sampleLayout.swabHeader h)
      = (sampleHeaderFront h ++ fixedArray 16 h.gameID ++ le64Int h.unixTime
          ++ le32Int h.scriptSize)
        ++ (le32Int h.demoStreamSize ++ (le32Int h.gameTime ++ le32Int h.wallclockTime
          ++ le32Int h.numPlayers ++ le32Int h.playerStatSize
          ++ le32Int h.playerStatElemSize ++ le32Int h.numTeams ++ le32Int h.teamStatSize
          ++ le32Int h.teamStatElemSize ++ le32Int h.teamStatPeriod
          ++ le32Int h.winningAllyTeamsSize)) := by
    simp [sampleLayout, sampleHeaderBack, List.append_assoc]
  have hlen : (sampleHeaderFront h ++ fixedArray 16 h.gameID ++ le64Int h.unixTime
      ++ le32Int h.scriptSize).length = 308 := by
    simp [sampleHeaderFront, fixedArray, le32Int, le64Int, le32]
    omega
  have h4 : (le32Int h.demoStreamSize).length = 4 := by simp [le32Int, le32]
  unfold sampleStreamSizeField
  rw [hsplit, List.drop_left' hlen, List.take_left' h4]
  unfold le32Int
  apply rd32_le32
  omega

/-- C21: construction writes a header image whose `demoStreamSize` is 0. In every
state reached by public calls whose stream is shorter than 2^31 bytes (so that the
`int` counter and the `unsigned int` cursor copy have not wrapped), with the
batches recorded so far, the in-memory `fileHeader.demoStreamSize` is the running
total of `sizeof(DemoStreamChunkHeader) + length` over the batches, while the
header region of the stream is the image of a header with `demoStreamSize == 0`;
`WriteFileHeader(false)` and `SetGameID` write the image of `fileHeader` with
`demoStreamSize` replaced by 0 and leave the in-memory total as it is; the
destructor, whose last header write is `WriteFileHeader(true)`, hands over an
image whose header carries the running total. -/
theorem C21_placeholder_stream_size (L : Layout) (E : Env) (g : DemoStreams)
    (r : CDemoRecorder L) (saved : List (Nat × List Byte)) (hR : Reachable L E g r saved)
    (hlt : (g.content r.isServerDemo).length < 2 ^ 31) :
    (∀ (g0 : DemoStreams) (mapName modName : String) (serverDemo : Bool),
      ∃ g1 r1 s1,
        CDemoRecorder.ctor L E g0 mapName modName serverDemo = Except.ok (g1, r1) ∧
        g1.get serverDemo = some s1 ∧
        s1.buf.take L.sizeofHeader
          = L.headerBytes (L.swabHeader { r1.fileHeader with demoStreamSize := 0 })) ∧
    r.fileHeader.demoStreamSize
      = ((saved.map (fun b => L.sizeofChunkHeader + b.2.length)).sum : Nat) ∧
    (∃ s hd, g.get r.isServerDemo = some s ∧
      s.buf.take L.sizeofHeader = L.headerBytes (L.swabHeader hd) ∧ hd.demoStreamSize = 0) ∧
    (∃ g1 pos s1,
      CDemoRecorder.WriteFileHeader g r false = Except.ok (g1, pos) ∧
      g1.get r.isServerDemo = some s1 ∧
      s1.buf.take L.sizeofHeader
        = L.headerBytes (L.swabHeader { r.fileHeader with demoStreamSize := 0 })) ∧
    (∀ gid : List Byte, L.sizeofGameID ≤ gid.length →
      ∃ g1 r1 s1,
        CDemoRecorder.SetGameID g r gid = Except.ok (g1, r1) ∧
        g1.get r.isServerDemo = some s1 ∧
        s1.buf.take L.sizeofHeader
          = L.headerBytes (L.swabHeader { r1.fileHeader with demoStreamSize := 0 }) ∧
        r1.fileHeader.demoStreamSize = r.fileHeader.demoStreamSize) ∧
    ∃ g4 r4 job,
      CDemoRecorder.dtor g r = Except.ok (g4, r4, job) ∧
      job.data.take L.sizeofHeader = L.headerBytes (L.swabHeader r4.fileHeader) ∧
      r4.fileHeader.demoStreamSize
        = ((saved.map (fun b => L.sizeofChunkHeader + b.2.length)).sum : Nat) := by
  obtain ⟨s, hs, hp, hd⟩ := hR.inv
  rw [content_of_get g _ s hs] at hlt
  have hlt32 : s.buf.length < 2 ^ 32 := by omega
  have hh := hR.inv_lt s hs hlt32
  rw [wrapInt_natCast _ (by omega), chunkRegion_length] at hd
  obtain ⟨hd0, ht0, hz0⟩ := hR.placeholder s hs hlt32
  refine ⟨?_, hd, ⟨s, hd0, hs, ht0, hz0⟩, ?_, ?_, ?_⟩
  · intro g0 mapName modName serverDemo
    refine ⟨_, _, _, CDemoRecorder.ctor_ok L E g0 mapName modName serverDemo,
      DemoStreams.get_set_same _ _ _, ?_⟩
    have h0 : (CDemoRecorder.SetFileHeader.header L E).demoStreamSize = 0 := by
      simp [CDemoRecorder.SetFileHeader.header, DemoFileHeader.zero]
    simp only [header_zero_size_eq _ h0]
    exact List.take_left' (L.headerBytes_length _)
  · refine ⟨_, _, _, CDemoRecorder.WriteFileHeader_ok g r s hs hp false,
      DemoStreams.get_set_same _ _ _, ?_⟩
    simp only [Bool.not_false, if_true]
    exact List.take_left' (L.headerBytes_length _)
  · intro gid hgid
    refine ⟨_, _, _, CDemoRecorder.SetGameID_ok g r s hs hp gid hgid,
      DemoStreams.get_set_same _ _ _, ?_, rfl⟩
    exact List.take_left' (L.headerBytes_length _)
  · exact ⟨_, _, _, CDemoRecorder.dtor_ok g r s hs hp,
      List.take_left' (L.headerBytes_length _), hd⟩

/-- C21 at a concrete input: a client recorder of the sample layout that has
recorded one batch of 4 payload bytes, with a stream of 364 bytes. The in-memory
`demoStreamSize` is 12, the `demoStreamSize` field of the header in the stream
reads 0, and the same field of the image that the destructor hands over reads
12. -/
theorem C21_placeholder_stream_size_witness :
    ∃ g r,
      Reachable sampleLayout sampleEnv g r [(0x3FC00000, [67, 77, 68, 49])] ∧
      (g.content r.isServerDemo).length < 2 ^ 31 ∧
      r.fileHeader.demoStreamSize = 12 ∧
      (∃ s, g.get r.isServerDemo = some s ∧
        sampleStreamSizeField (s.buf.take sampleLayout.sizeofHeader) = 0) ∧
      ∃ g4 r4 job,
        CDemoRecorder.dtor g r = Except.ok (g4, r4, job) ∧
        sampleStreamSizeField (job.data.take sampleLayout.sizeofHeader) = 12 := by
  obtain ⟨g, r, hR, hlen, _⟩ := sample_reachable_small
  have hlt : (g.content r.isServerDemo).length < 2 ^ 31 := by
    rw [hlen]
    decide
  obtain ⟨_, h1, ⟨s, hd, hs, ht, h0⟩, _, _, g4, r4, job, hdt, hj, h4⟩ :=
    C21_placeholder_stream_size sampleLayout sampleEnv g r _ hR hlt
  have h12 : (((([((0x3FC00000 : Nat), ([67, 77, 68, 49] : List Byte))]).map
      (fun b => sampleLayout.sizeofChunkHeader + b.2.length)).sum : Nat) : Int) = 12 := by
    decide
  rw [h12] at h1 h4
  refine ⟨g, r, hR, hlt, h1, ⟨s, hs, ?_⟩, g4, r4, job, hdt, ?_⟩
  · rw [ht, sample_streamSize_field, h0]
    decide
  · rw [hj, sample_streamSize_field, h4]
    decide

/-! ## C22 -/

theorem trim_all_NUL (text : List Byte) (hz : ∀ i, text.getD i 0 = 0) :
    ∀ n, CDemoRecorder.WriteSetupText.trim text n = Except.error Fault.outOfRange := by
  intro n
  induction n with
  | zero => rfl
  | succ n ih => simp only [CDemoRecorder.WriteSetupText.trim, hz n, if_true, ih]

theorem getD_replicate_NUL (k i : Nat) : (List.replicate k (0 : Byte)).getD i 0 = 0 := by
  rw [List.getD_eq_getElem?_getD, List.getElem?_replicate]
  split <;> rfl

theorem WriteSetupText_fault {L : Layout} (g : DemoStreams) (r : CDemoRecorder L)
    (text : List Byte)
    (ht : ∀ n, CDemoRecorder.WriteSetupText.trim text n = Except.error Fault.outOfRange) :
    CDemoRecorder.WriteSetupText g r text = Except.error Fault.outOfRange := by
  unfold CDemoRecorder.WriteSetupText
  by_cases hn : wrapInt (text.length : Int) < 0
  · simp only [if_pos hn]
  · simp only [if_neg hn]
    simp only [ht]
    simp only [bind, Except.bind]

/-- C22 (failing input): the empty setup text, and every text that consists of k
NUL bytes only. The loop of `WriteSetupText` tests `text[length - 1]` without
testing `length`: with `length == 0`, at once for the empty text and after k
steps for k NUL bytes, it reads `text[-1]`, an index outside the string, and
`WriteSetupText` does not reach the assignment of `scriptSize`. -/
theorem C22_trim_reads_before_start (L : Layout) (g : DemoStreams) (r : CDemoRecorder L)
    (k : Nat) :
    CDemoRecorder.WriteSetupText.trim [] ([] : List Byte).length
      = Except.error Fault.outOfRange ∧
    CDemoRecorder.WriteSetupText g r [] = Except.error Fault.outOfRange ∧
    CDemoRecorder.WriteSetupText g r [0, 0] = Except.error Fault.outOfRange ∧
    CDemoRecorder.WriteSetupText.trim (List.replicate k 0) (List.replicate k (0 : Byte)).length
      = Except.error Fault.outOfRange ∧
    CDemoRecorder.WriteSetupText g r (List.replicate k 0) = Except.error Fault.outOfRange :=
  ⟨rfl, WriteSetupText_fault g r [] (trim_all_NUL _ (getD_replicate_NUL 0)),
    WriteSetupText_fault g r [0, 0] (trim_all_NUL _ (getD_replicate_NUL 2)),
    trim_all_NUL _ (getD_replicate_NUL k) _,
    WriteSetupText_fault g r _ (trim_all_NUL _ (getD_replicate_NUL k))⟩

end DemoRecorder
